import Mathlib

/-!
Shallow embedding of the ZOS single-image inode filesystem and proofs about
its operations.

Sources embedded here:
* `src/src/Filesystem.cpp` (engine: format, allocation, block maps,
  directories, path resolution, file operations, teardown)
* `src/src/INode.cpp`, `src/src/Superblock.cpp`, `src/src/Bitmap.cpp`
* `src/helpers/IntParser.cpp` (little-endian codec)
* `src/helpers/FileIOHandler.cpp` (byte-addressable backing file)
* `src/helpers/StringHelpers.h` (`SplitPath`)

Modelling conventions:
* Bytes are `Nat` values; every byte the engine itself writes is below 256.
  Machine integers are `Nat` with explicit truncation where the source
  truncates (the little-endian codec masks each byte with `% 256`).
* The backing file is a total function `Nat → Nat` plus a length; reads
  truncate at the length exactly as `FileIOHandler::ReadBytes` shrinks its
  buffer to `gcount`, and writes extend the length as `fstream` writes do.
* C++ exceptions become `Except FsError`; methods that mutate the
  `Filesystem` object return the updated state.  `Format` returns the state
  also on its `InvalidFilesystemSize` error path, since the source throws
  after having already resized the backing file.
* Names follow the source (`WriteFile`, `AttachBlock`, ...).
-/

namespace ZOS

/-- Marker value `0xFFFFFFFF` for an unused block reference
(`INode::UNUSED_LINK`). -/
def UNUSED : Nat := 4294967295

/-- Filesystem magic `0xDEADBEEF` (`FILESYSTEM_MAGIC`). -/
def FILESYSTEM_MAGIC : Nat := 3735928559

/-- Error kinds thrown by the engine and its helpers
(`helpers/FileIOExceptions.h`, `helpers/FilesystemExceptions.h`);
`runtimeError` stands for the places where the source throws a plain
`std::runtime_error`. -/
inductive FsError where
  | fileDoesNotExist
  | couldNotOpen
  | fileNotOpen
  | fileReadOnly
  | fileRead
  | fileWrite
  | filesystemNotFormatted
  | invalidFilesystemSize
  | couldNotResizeImage
  | invalidSuperblock
  | invalidINodeSize
  | invalidBlockSize
  | couldNotAllocateNode
  | couldNotAllocateBlock
  | fileTooLarge
  | emptyPath
  | pathNotFound
  | notADirectory
  | noParentDirectory
  | childNotFound
  | blockNotAttached
  | runtimeError
deriving DecidableEq, Repr

/-- Little-endian 4-byte encoding (`IntParser::WriteUInt32`).  The masks
mirror the `uint32_t` truncation of the source: for any `n`, this equals the
encoding of `n % 2^32`. -/
def writeUInt32 (number : Nat) : List Nat :=
  [number % 256, number / 256 % 256, number / 65536 % 256, number / 16777216 % 256]

/-- Little-endian 4-byte decoding (`IntParser::ReadUInt32`).  The source
throws when the buffer length is not 4; every caller below slices exactly
4 bytes, so the mismatch branch returns a junk value instead. -/
def readUInt32 (data : List Nat) : Nat :=
  match data with
  | [b0, b1, b2, b3] => b0 + b1 * 256 + b2 * 65536 + b3 * 16777216
  | _ => 0

/-- The backing image file (`FileIOHandler`): a byte-addressable
random-access file.  `data i` is the byte at offset `i`; only offsets below
`len` are backed by the file. -/
structure DiskFile where
  data : Nat → Nat
  len : Nat

/-- Read `size` bytes at `offset` (`FileIOHandler::ReadBytes`); short reads
at end of file return fewer bytes, as the source shrinks the buffer to the
stream's `gcount`. -/
def DiskFile.ReadBytes (f : DiskFile) (offset size : Nat) : List Nat :=
  (List.range (min size (f.len - offset))).map fun i => f.data (offset + i)

/-- Write bytes at `offset`, extending the file when writing past the end
(`FileIOHandler::WriteBytes`).  A write that skips past the old end leaves
the model's prior `data` values in the gap; no engine operation reads such a
gap. -/
def DiskFile.WriteBytes (f : DiskFile) (offset : Nat) (d : List Nat) : DiskFile where
  data := fun i => if offset ≤ i ∧ i < offset + d.length then d.getD (i - offset) 0 else f.data i
  len := max f.len (offset + d.length)

/-- Resize the file to `newSize` and zero-fill the entire new length
(`FileIOHandler::Resize`). -/
def DiskFile.Resize (newSize : Nat) : DiskFile where
  data := fun _ => 0
  len := newSize

/-- Packed bit array (`Bitmap`), LSB-of-byte-first; bit = 1 means
allocated. -/
structure Bitmap where
  size : Nat
  data : List Nat
deriving DecidableEq, Repr

/-- Construct a bitmap of `bitCount` bits, all clear (`Bitmap::Bitmap`). -/
def Bitmap.init (bitCount : Nat) : Bitmap :=
  ⟨bitCount, List.replicate ((bitCount + 7) / 8) 0⟩

/-- Get bit `index` (`Bitmap::Get`): byte `index / 8`, LSB-first shift
`index % 8`. -/
def Bitmap.Get (b : Bitmap) (index : Nat) : Bool :=
  b.data.getD (index / 8) 0 / 2 ^ (index % 8) % 2 = 1

/-- Set or clear bit `index` (`Bitmap::Set`).  Setting ors in the bit;
clearing ands with the complement of the bit within the 8-bit byte. -/
def Bitmap.Set (b : Bitmap) (index : Nat) (value : Bool) : Bitmap :=
  let byteIndex := index / 8
  let bit := 2 ^ (index % 8)
  let old := b.data.getD byteIndex 0
  let newByte := if value then old ||| bit else old &&& (255 ^^^ bit)
  { b with data := b.data.set byteIndex newByte }

/-- Smallest index with a clear bit (`Bitmap::FindFirstFree`). -/
def Bitmap.FindFirstFree (b : Bitmap) : Option Nat :=
  (List.range b.size).find? fun i => !b.Get i

/-- Number of clear bits below `size` (`Bitmap::FreeCount`). -/
def Bitmap.FreeCount (b : Bitmap) : Nat :=
  ((List.range b.size).filter fun i => !b.Get i).length

/-- Load bitmap state from raw bytes (`Bitmap::LoadFromBytes`): the internal
storage is replaced wholesale by the loaded bytes. -/
def Bitmap.LoadFromBytes (data : List Nat) (bitCount : Nat) : Bitmap :=
  ⟨bitCount, data⟩

/-- Serialize the bitmap (`Bitmap::SaveToBytes`). -/
def Bitmap.SaveToBytes (b : Bitmap) : List Nat :=
  b.data

/-- Inode record (`INode`), always serialized to 41 bytes.  The C++ field
names drop their leading underscore; `direct` always has length 5. -/
structure INode where
  id : Nat
  links : Nat
  size : Nat
  direct : List Nat
  indirect1 : Nat
  indirect2 : Nat
  isDir : Bool
deriving DecidableEq, Repr

/-- Serialized inode size in bytes (`INode::BYTES`). -/
def INode.BYTES : Nat := 41

/-- Number of direct links (`INode::DIRECT_LINKS`). -/
def INode.DIRECT_LINKS : Nat := 5

/-- The two-argument constructor `INode::INode(id, isDir)`: one link, zero
size, all block references unused. -/
def INode.init (id : Nat) (isDir : Bool) : INode :=
  ⟨id, 1, 0, List.replicate 5 UNUSED, UNUSED, UNUSED, isDir⟩

/-- The default constructor `INode::INode()`. -/
def INode.initDefault : INode :=
  ⟨0, 0, 0, List.replicate 5 UNUSED, UNUSED, UNUSED, false⟩

/-- Serialize an inode (`INode::ToBytes`): id, links, size, the five direct
links, both indirect links (each 4 bytes little-endian), then one
`isDirectory` byte. -/
def INode.ToBytes (n : INode) : List Nat :=
  writeUInt32 n.id ++ writeUInt32 n.links ++ writeUInt32 n.size ++
    (n.direct.map writeUInt32).flatten ++
    writeUInt32 n.indirect1 ++ writeUInt32 n.indirect2 ++
    [if n.isDir then 1 else 0]

/-- Deserialize an inode (`INode::FromBytes`); the source throws on a size
mismatch and on an `isDir` byte other than 0 or 1. -/
def INode.FromBytes (bytes : List Nat) : Except FsError INode :=
  if bytes.length ≠ 41 then .error .runtimeError
  else
    let dirByte := bytes.getD 40 0
    if dirByte ≠ 0 ∧ dirByte ≠ 1 then .error .runtimeError
    else
      .ok { id := readUInt32 (bytes.take 4)
            links := readUInt32 ((bytes.drop 4).take 4)
            size := readUInt32 ((bytes.drop 8).take 4)
            direct := [readUInt32 ((bytes.drop 12).take 4),
                       readUInt32 ((bytes.drop 16).take 4),
                       readUInt32 ((bytes.drop 20).take 4),
                       readUInt32 ((bytes.drop 24).take 4),
                       readUInt32 ((bytes.drop 28).take 4)]
            indirect1 := readUInt32 ((bytes.drop 32).take 4)
            indirect2 := readUInt32 ((bytes.drop 36).take 4)
            isDir := dirByte = 1 }

/-- Increment the hard link count (`INode::addLink`). -/
def INode.addLink (n : INode) : INode :=
  { n with links := n.links + 1 }

/-- Decrement the hard link count (`INode::removeLink`).  The source returns
`false` without decrementing when the count is already 0, and otherwise
decrements and returns `true`. -/
def INode.removeLink (n : INode) : Bool × INode :=
  if n.links = 0 then (false, n)
  else (true, { n with links := n.links - 1 })

/-- Increase the file size (`INode::addSize`). -/
def INode.addSize (n : INode) (bytes : Nat) : INode :=
  { n with size := n.size + bytes }

/-- Decrease the file size (`INode::removeSize`); throws when removing more
than the current size. -/
def INode.removeSize (n : INode) (bytes : Nat) : Except FsError INode :=
  if n.size < bytes then .error .runtimeError
  else .ok { n with size := n.size - bytes }

/-- Replace the first occurrence of `oldv` in `l` by `newv`; `none` when
absent.  Helper for the direct-link mutators. -/
def replaceFirst (l : List Nat) (oldv newv : Nat) : Option (List Nat) :=
  match l with
  | [] => none
  | x :: rest =>
    if x = oldv then some (newv :: rest)
    else (replaceFirst rest oldv newv).map (x :: ·)

/-- Store a block id in the first unused direct slot (`INode::addDirectLink`);
throws when all five slots are occupied. -/
def INode.addDirectLink (n : INode) (link : Nat) : Except FsError INode :=
  match replaceFirst n.direct UNUSED link with
  | some d => .ok { n with direct := d }
  | none => .error .runtimeError

/-- Clear the first direct slot holding `link` (`INode::removeDirectLink`);
throws when no slot holds it. -/
def INode.removeDirectLink (n : INode) (link : Nat) : Except FsError INode :=
  match replaceFirst n.direct link UNUSED with
  | some d => .ok { n with direct := d }
  | none => .error .runtimeError

/-- Clear all direct slots (`INode::clearDirectLinks`). -/
def INode.clearDirectLinks (n : INode) : INode :=
  { n with direct := n.direct.map fun _ => UNUSED }

/-- Set the single-indirect link (`INode::addFirstLevelIndirectLink`); throws
when it is already set. -/
def INode.addFirstLevelIndirectLink (n : INode) (link : Nat) : Except FsError INode :=
  if n.indirect1 ≠ UNUSED then .error .runtimeError
  else .ok { n with indirect1 := link }

/-- Clear the single-indirect link (`INode::removeFirstLevelIndirectLink`). -/
def INode.removeFirstLevelIndirectLink (n : INode) : INode :=
  { n with indirect1 := UNUSED }

/-- Set the double-indirect link (`INode::addSecondLevelIndirectLink`); throws
when it is already set. -/
def INode.addSecondLevelIndirectLink (n : INode) (link : Nat) : Except FsError INode :=
  if n.indirect2 ≠ UNUSED then .error .runtimeError
  else .ok { n with indirect2 := link }

/-- Clear the double-indirect link (`INode::removeSecondLevelIndirectLink`). -/
def INode.removeSecondLevelIndirectLink (n : INode) : INode :=
  { n with indirect2 := UNUSED }

/-- Superblock record (`Superblock`), 40 bytes on disk. -/
structure Superblock where
  magic : Nat
  blockSize : Nat
  totalBlocks : Nat
  totalInodes : Nat
  size : Nat
  inodeBitmapOffset : Nat
  blockBitmapOffset : Nat
  inodeTableOffset : Nat
  dataBlocksOffset : Nat
  rootNodeId : Nat
deriving DecidableEq, Repr

/-- Serialized superblock size (`Superblock::BYTE_SIZE`). -/
def Superblock.BYTE_SIZE : Nat := 40

/-- Serialize the superblock (`Superblock::toBytes`): ten 32-bit
little-endian fields in on-disk order. -/
def Superblock.toBytes (sb : Superblock) : List Nat :=
  writeUInt32 sb.magic ++ writeUInt32 sb.blockSize ++ writeUInt32 sb.totalBlocks ++
    writeUInt32 sb.totalInodes ++ writeUInt32 sb.size ++
    writeUInt32 sb.inodeBitmapOffset ++ writeUInt32 sb.blockBitmapOffset ++
    writeUInt32 sb.inodeTableOffset ++ writeUInt32 sb.dataBlocksOffset ++
    writeUInt32 sb.rootNodeId

/-- Deserialize a superblock (`Superblock::fromBytes`); performs no
validation. -/
def Superblock.fromBytes (data : List Nat) : Superblock :=
  { magic := readUInt32 (data.take 4)
    blockSize := readUInt32 ((data.drop 4).take 4)
    totalBlocks := readUInt32 ((data.drop 8).take 4)
    totalInodes := readUInt32 ((data.drop 12).take 4)
    size := readUInt32 ((data.drop 16).take 4)
    inodeBitmapOffset := readUInt32 ((data.drop 20).take 4)
    blockBitmapOffset := readUInt32 ((data.drop 24).take 4)
    inodeTableOffset := readUInt32 ((data.drop 28).take 4)
    dataBlocksOffset := readUInt32 ((data.drop 32).take 4)
    rootNodeId := readUInt32 ((data.drop 36).take 4) }

/-- Directory child record (`ChildNodeNameIdPair`). -/
structure ChildNodeNameIdPair where
  name : String
  id : Nat
deriving DecidableEq, Repr

/-- The character loop of `SplitPath`: `current` accumulates the segment
under construction, committed on `/` and at the end when non-empty. -/
def SplitPathAux : List Char → List Char → List String
  | [], current => if current = [] then [] else [String.mk current]
  | c :: rest, current =>
    if c = '/' then
      if current = [] then SplitPathAux rest []
      else String.mk current :: SplitPathAux rest []
    else SplitPathAux rest (current ++ [c])

/-- Split a path on `/`, dropping empty segments (`SplitPath` in
`StringHelpers.h`). -/
def SplitPath (path : String) : List String :=
  SplitPathAux path.data []

/-- The in-memory engine state (`class Filesystem`): the backing file, the
decoded superblock, both bitmaps, the current directory inode and the
formatted flag. -/
structure Filesystem where
  file : DiskFile
  superblock : Superblock
  INodeBitmap : Bitmap
  BlockBitmap : Bitmap
  currentNode : INode
  formated : Bool

/-- Read one inode record from the inode table (`Filesystem::readINode`). -/
def Filesystem.readINode (fs : Filesystem) (id : Nat) : Except FsError INode :=
  let data := fs.file.ReadBytes (fs.superblock.inodeTableOffset + id * INode.BYTES) INode.BYTES
  if data.length ≠ INode.BYTES then .error .invalidINodeSize
  else INode.FromBytes data

/-- Write one inode record to the inode table (`Filesystem::writeINode`). -/
def Filesystem.writeINode (fs : Filesystem) (node : INode) : Filesystem :=
  { fs with file := fs.file.WriteBytes (fs.superblock.inodeTableOffset + node.id * INode.BYTES) node.ToBytes }

/-- Reserve the first free block (`Filesystem::AllocateBlock`); the caller
initializes the contents. -/
def Filesystem.AllocateBlock (fs : Filesystem) : Option Nat × Filesystem :=
  match fs.BlockBitmap.FindFirstFree with
  | none => (none, fs)
  | some block => (some block, { fs with BlockBitmap := fs.BlockBitmap.Set block true })

/-- Release a block (`Filesystem::FreeBlock`): clear its bitmap bit and
overwrite its contents with zeros. -/
def Filesystem.FreeBlock (fs : Filesystem) (block : Nat) : Filesystem :=
  { fs with
    BlockBitmap := fs.BlockBitmap.Set block false
    file := fs.file.WriteBytes (fs.superblock.dataBlocksOffset + block * fs.superblock.blockSize)
      (List.replicate fs.superblock.blockSize 0) }

/-- Fuel-driven core of `parseEntries`; the fuel only serves to make the
scan loop structurally recursive, `data.length` units always suffice. -/
def parseEntriesAux : Nat → List Nat → List ChildNodeNameIdPair
  | 0, _ => []
  | fuel + 1, data =>
    if 16 ≤ data.length then
      let nameBytes := data.take 12
      let name := String.mk ((nameBytes.takeWhile (· ≠ 0)).map Char.ofNat)
      let inodeId := readUInt32 ((data.drop 12).take 4)
      if inodeId = UNUSED then []
      else ⟨name, inodeId⟩ :: parseEntriesAux fuel (data.drop 16)
    else []

/-- Left-packed directory-entry parse of one block's bytes: 16-byte entries
(12-byte NUL-padded name, 4-byte inode id), stopping at the first entry whose
id is `UNUSED` (the scan loop of `Filesystem::ReadBlockAsSubdirectories`). -/
def parseEntries (data : List Nat) : List ChildNodeNameIdPair :=
  parseEntriesAux data.length data

/-- Fuel-driven core of `parseIds`; `data.length` units always suffice. -/
def parseIdsAux : Nat → List Nat → List Nat
  | 0, _ => []
  | fuel + 1, data =>
    if 4 ≤ data.length then
      let number := readUInt32 (data.take 4)
      if number = UNUSED then []
      else number :: parseIdsAux fuel (data.drop 4)
    else []

/-- Left-packed block-id parse of one block's bytes: 4-byte ids, stopping at
the first `UNUSED` (the scan loop of `Filesystem::ReadBlockAsBlockIds`). -/
def parseIds (data : List Nat) : List Nat :=
  parseIdsAux data.length data

/-- Read a data block and parse it as directory entries
(`Filesystem::ReadBlockAsSubdirectories`); throws when the read comes back
short. -/
def Filesystem.ReadBlockAsSubdirectories (fs : Filesystem) (block : Nat) :
    Except FsError (List ChildNodeNameIdPair) :=
  let data := fs.file.ReadBytes (fs.superblock.dataBlocksOffset + fs.superblock.blockSize * block)
    fs.superblock.blockSize
  if data.length ≠ fs.superblock.blockSize then .error .invalidBlockSize
  else .ok (parseEntries data)

/-- Read a data block and parse it as a block-id table
(`Filesystem::ReadBlockAsBlockIds`); throws when the read comes back
short. -/
def Filesystem.ReadBlockAsBlockIds (fs : Filesystem) (block : Nat) : Except FsError (List Nat) :=
  let data := fs.file.ReadBytes (fs.superblock.dataBlocksOffset + fs.superblock.blockSize * block)
    fs.superblock.blockSize
  if data.length ≠ fs.superblock.blockSize then .error .invalidBlockSize
  else .ok (parseIds data)

/-- The `for ptr in firstLevelPtrs` loop of `Filesystem::AttachBlock`:
append the 4-byte entry into the first second-level table with room. -/
def Filesystem.attachScanPtrs (fs : Filesystem) (entry : List Nat) :
    List Nat → Except FsError (Option Filesystem)
  | [] => .ok none
  | ptr :: rest => do
    let ids ← fs.ReadBlockAsBlockIds ptr
    if ids.length < fs.superblock.blockSize / 4 then
      let offset := fs.superblock.dataBlocksOffset + ptr * fs.superblock.blockSize + ids.length * 4
      .ok (some { fs with file := fs.file.WriteBytes offset entry })
    else fs.attachScanPtrs entry rest

/-- Append a block to the inode's logical block list
(`Filesystem::AttachBlock`): first free direct slot, else the single-indirect
table (allocated on demand), else the double-indirect hierarchy. -/
def Filesystem.AttachBlock (fs : Filesystem) (node : INode) (block : Nat) :
    Except FsError (INode × Filesystem) := do
  let entry := writeUInt32 block
  let IDS_PER_BLOCK := fs.superblock.blockSize / 4
  -- 1) direct blocks
  if node.direct.contains UNUSED then
    let node1 ← node.addDirectLink block
    return (node1, fs.writeINode node1)
  -- 2) single indirect
  let (node1, fs1) ←
    if node.indirect1 = UNUSED then
      match fs.AllocateBlock with
      | (none, _) => throw FsError.couldNotAllocateBlock
      | (some ind, fsA) => do
        let fsB := { fsA with
          file := fsA.file.WriteBytes (fsA.superblock.dataBlocksOffset + ind * fsA.superblock.blockSize)
            (List.replicate fsA.superblock.blockSize 255) }
        let nodeA ← node.addFirstLevelIndirectLink ind
        pure (nodeA, fsB.writeINode nodeA)
    else pure (node, fs)
  let ids ← fs1.ReadBlockAsBlockIds node1.indirect1
  if ids.length < IDS_PER_BLOCK then
    let offset := fs1.superblock.dataBlocksOffset + node1.indirect1 * fs1.superblock.blockSize + ids.length * 4
    return (node1, { fs1 with file := fs1.file.WriteBytes offset entry })
  -- 3) double indirect
  let (node2, fs2) ←
    if node1.indirect2 = UNUSED then
      match fs1.AllocateBlock with
      | (none, _) => throw FsError.couldNotAllocateBlock
      | (some ind2, fsA) => do
        let fsB := { fsA with
          file := fsA.file.WriteBytes (fsA.superblock.dataBlocksOffset + ind2 * fsA.superblock.blockSize)
            (List.replicate fsA.superblock.blockSize 255) }
        let nodeA ← node1.addSecondLevelIndirectLink ind2
        pure (nodeA, fsB.writeINode nodeA)
    else pure (node1, fs1)
  let firstLevelPtrs ← fs2.ReadBlockAsBlockIds node2.indirect2
  match ← fs2.attachScanPtrs entry firstLevelPtrs with
  | some fs3 => return (node2, fs3)
  | none =>
    if firstLevelPtrs.length < IDS_PER_BLOCK then
      match fs2.AllocateBlock with
      | (none, _) => throw FsError.couldNotAllocateBlock
      | (some newPtr, fsA) =>
        let fsB := { fsA with
          file := fsA.file.WriteBytes (fsA.superblock.dataBlocksOffset + newPtr * fsA.superblock.blockSize)
            (List.replicate fsA.superblock.blockSize 255) }
        let ptrOffset := fsB.superblock.dataBlocksOffset + node2.indirect2 * fsB.superblock.blockSize +
          firstLevelPtrs.length * 4
        let fsC := { fsB with file := fsB.file.WriteBytes ptrOffset (writeUInt32 newPtr) }
        let dataOffset := fsC.superblock.dataBlocksOffset + newPtr * fsC.superblock.blockSize
        let fsD := { fsC with file := fsC.file.WriteBytes dataOffset entry }
        return (node2, fsD)
    else throw FsError.fileTooLarge

/-- Reserve the first free inode and persist the fresh record
(`Filesystem::AllocateNode`).  For a directory, one data block is allocated,
filled with `0xFF` and attached; on block-allocation failure the inode
bitmap bit is rolled back. -/
def Filesystem.AllocateNode (fs : Filesystem) (isDir : Bool) :
    Except FsError (Option INode × Filesystem) :=
  match fs.INodeBitmap.FindFirstFree with
  | none => .ok (none, fs)
  | some id =>
    let fs1 := { fs with INodeBitmap := fs.INodeBitmap.Set id true }
    let node := INode.init id isDir
    if isDir then
      match fs1.AllocateBlock with
      | (none, fs2) => .ok (none, { fs2 with INodeBitmap := fs2.INodeBitmap.Set id false })
      | (some b, fs2) => do
        let fs3 := { fs2 with
          file := fs2.file.WriteBytes (fs2.superblock.dataBlocksOffset + b * fs2.superblock.blockSize)
            (List.replicate fs2.superblock.blockSize 255) }
        let (node1, fs4) ← fs3.AttachBlock node b
        .ok (some node1, fs4.writeINode node1)
    else
      .ok (some node, fs1.writeINode node)

/-- All block ids reachable from an inode (`Filesystem::GetAllBlockIds`):
non-unused direct links, the single-indirect table and its contents, the
double-indirect table, its second-level tables and their contents. -/
def Filesystem.GetAllBlockIds (fs : Filesystem) (node : INode) : Except FsError (List Nat) := do
  let ids0 := node.direct.filter (· ≠ UNUSED)
  let ids1 ←
    if node.indirect1 ≠ UNUSED then do
      let inner ← fs.ReadBlockAsBlockIds node.indirect1
      pure (node.indirect1 :: inner.filter (· ≠ UNUSED))
    else pure []
  let ids2 ←
    if node.indirect2 ≠ UNUSED then do
      let ptrs ← fs.ReadBlockAsBlockIds node.indirect2
      let nested ← (ptrs.filter (· ≠ UNUSED)).mapM fun b => do
        let inner ← fs.ReadBlockAsBlockIds b
        pure (b :: inner.filter (· ≠ UNUSED))
      pure (node.indirect2 :: nested.flatten)
    else pure []
  pure (ids0 ++ ids1 ++ ids2)

/-- Release an inode (`Filesystem::FreeNode`): clear its bitmap bit, free
every reachable block, and zero its 41-byte on-disk record. -/
def Filesystem.FreeNode (fs : Filesystem) (node : INode) : Except FsError Filesystem := do
  let fs1 := { fs with INodeBitmap := fs.INodeBitmap.Set node.id false }
  let ids ← fs1.GetAllBlockIds node
  let fs2 := ids.foldl (fun f b => f.FreeBlock b) fs1
  pure { fs2 with
    file := fs2.file.WriteBytes (fs2.superblock.inodeTableOffset + INode.BYTES * node.id)
      (List.replicate INode.BYTES 0) }

/-- The direct-link loop of `Filesystem::GetChildren`: `Sum.inl` when the
source returns early at an `UNUSED` direct link. -/
def Filesystem.gcDirect (fs : Filesystem) :
    List Nat → List ChildNodeNameIdPair →
    Except FsError (List ChildNodeNameIdPair ⊕ List ChildNodeNameIdPair)
  | [], acc => .ok (.inr acc)
  | b :: rest, acc =>
    if b = UNUSED then .ok (.inl acc)
    else do
      let cs ← fs.ReadBlockAsSubdirectories b
      fs.gcDirect rest (acc ++ cs)

/-- The single-indirect contents loop of `Filesystem::GetChildren`. -/
def Filesystem.gcBlockList (fs : Filesystem) :
    List Nat → List ChildNodeNameIdPair →
    Except FsError (List ChildNodeNameIdPair ⊕ List ChildNodeNameIdPair)
  | [], acc => .ok (.inr acc)
  | b :: rest, acc =>
    if b = UNUSED then .ok (.inl acc)
    else do
      let cs ← fs.ReadBlockAsSubdirectories b
      fs.gcBlockList rest (acc ++ cs)

/-- The double-indirect loop of `Filesystem::GetChildren`. -/
def Filesystem.gcPtrList (fs : Filesystem) :
    List Nat → List ChildNodeNameIdPair →
    Except FsError (List ChildNodeNameIdPair ⊕ List ChildNodeNameIdPair)
  | [], acc => .ok (.inr acc)
  | ptr :: rest, acc =>
    if ptr = UNUSED then .ok (.inl acc)
    else do
      let inner ← fs.ReadBlockAsBlockIds ptr
      match ← fs.gcBlockList inner acc with
      | .inl acc1 => .ok (.inl acc1)
      | .inr acc1 => fs.gcPtrList rest acc1

/-- Collect the live entries of a directory across all three tiers
(`Filesystem::GetChildren`); an `UNUSED` link anywhere returns the entries
collected so far. -/
def Filesystem.GetChildren (fs : Filesystem) (node : INode) :
    Except FsError (List ChildNodeNameIdPair) := do
  if !node.isDir then throw FsError.notADirectory
  let acc ←
    match ← fs.gcDirect node.direct [] with
    | .inl acc => return acc
    | .inr acc => pure acc
  if node.indirect1 = UNUSED then return acc
  let ids ← fs.ReadBlockAsBlockIds node.indirect1
  let acc ←
    match ← fs.gcBlockList ids acc with
    | .inl acc1 => return acc1
    | .inr acc1 => pure acc1
  if node.indirect2 = UNUSED then return acc
  let ptrs ← fs.ReadBlockAsBlockIds node.indirect2
  match ← fs.gcPtrList ptrs acc with
  | .inl acc1 => return acc1
  | .inr acc1 => return acc1

/-- Find a child id by exact name (`Filesystem::FindChildId`): first match
in `GetChildren` order. -/
def Filesystem.FindChildId (fs : Filesystem) (dir : INode) (name : String) :
    Except FsError (Option Nat) := do
  let children ← fs.GetChildren dir
  pure ((children.find? fun c => c.name = name).map fun c => c.id)

/-- Child-existence test (`Filesystem::ExistsChild`). -/
def Filesystem.ExistsChild (fs : Filesystem) (dir : INode) (name : String) :
    Except FsError Bool := do
  let found ← fs.FindChildId dir name
  pure found.isSome

/-- The fixed 16-byte directory-entry payload `AddChild` builds before
writing: the name's bytes, NUL-padded up to 12 — the source pads short names
but never truncates long ones — followed by the 4-byte child id. -/
def addChildPayload (name : String) (childNode : Nat) : List Nat :=
  let nameBytes := name.data.map Char.toNat
  (nameBytes ++ List.replicate (12 - nameBytes.length) 0) ++ writeUInt32 childNode

/-- The direct-block loop of `Filesystem::AddChild`: allocate (and
`0xFF`-fill) a block for any `UNUSED` slot of the snapshot, then append the
entry into the first content block with room; `none` when all five direct
blocks are full. -/
def Filesystem.addChildDirect (fs : Filesystem) (node : INode) (toWrite : List Nat) :
    List Nat → Except FsError (Option (INode × Filesystem))
  | [] => .ok none
  | block :: rest => do
    let (blockId, node1, fs1) ←
      if block = UNUSED then
        match fs.AllocateBlock with
        | (none, _) => throw FsError.couldNotAllocateBlock
        | (some tmp, fsA) => do
          let fsB := { fsA with
            file := fsA.file.WriteBytes (fsA.superblock.dataBlocksOffset + tmp * fsA.superblock.blockSize)
              (List.replicate fsA.superblock.blockSize 255) }
          let nodeA ← node.addDirectLink tmp
          pure (tmp, nodeA, fsB.writeINode nodeA)
      else pure (block, node, fs)
    let children ← fs1.ReadBlockAsSubdirectories blockId
    if children.length < fs1.superblock.blockSize / 16 then
      let offset := fs1.superblock.dataBlocksOffset + blockId * fs1.superblock.blockSize +
        children.length * 16
      let fs2 := { fs1 with file := fs1.file.WriteBytes offset toWrite }
      .ok (some (node1, fs2.writeINode node1))
    else fs1.addChildDirect node1 toWrite rest

/-- The single-indirect contents loop of `Filesystem::AddChild`: append the
entry into the first listed content block with room. -/
def Filesystem.addChildScanBlocks (fs : Filesystem) (node : INode) (toWrite : List Nat) :
    List Nat → Except FsError (Option (INode × Filesystem))
  | [] => .ok none
  | block :: rest => do
    let children ← fs.ReadBlockAsSubdirectories block
    if children.length < fs.superblock.blockSize / 16 then
      let offset := fs.superblock.dataBlocksOffset + block * fs.superblock.blockSize +
        children.length * 16
      let fs1 := { fs with file := fs.file.WriteBytes offset toWrite }
      .ok (some (node, fs1.writeINode node))
    else fs.addChildScanBlocks node toWrite rest

/-- The double-indirect outer loop of `Filesystem::AddChild`: for each
second-level table, try its content blocks, then extend the table itself if
it still has room. -/
def Filesystem.addChildScanPtrs (fs : Filesystem) (node : INode) (toWrite : List Nat) :
    List Nat → Except FsError (Option (INode × Filesystem))
  | [] => .ok none
  | ptr :: rest => do
    let indirects2 ← fs.ReadBlockAsBlockIds ptr
    match ← fs.addChildScanBlocks node toWrite indirects2 with
    | some result => .ok (some result)
    | none =>
      if indirects2.length < fs.superblock.blockSize / 4 then
        match fs.AllocateBlock with
        | (none, _) => throw FsError.couldNotAllocateBlock
        | (some newBlock, fsA) => do
          let fsB := { fsA with
            file := fsA.file.WriteBytes
              (fsA.superblock.dataBlocksOffset + newBlock * fsA.superblock.blockSize)
              (List.replicate fsA.superblock.blockSize 255) }
          let fsC := { fsB with
            file := fsB.file.WriteBytes
              (fsB.superblock.dataBlocksOffset + ptr * fsB.superblock.blockSize +
                indirects2.length * 4)
              (writeUInt32 newBlock) }
          let fsD := { fsC with
            file := fsC.file.WriteBytes
              (fsC.superblock.dataBlocksOffset + newBlock * fsC.superblock.blockSize) toWrite }
          .ok (some (node, fsD.writeINode node))
      else fs.addChildScanPtrs node toWrite rest

/-- Insert a directory entry (`Filesystem::AddChild`): the payload is written
into the first content block with room, walking direct blocks, then the
single-indirect tier, then the double-indirect tier, allocating blocks and
tables on demand. -/
def Filesystem.AddChild (fs : Filesystem) (node : INode) (name : String) (childNode : Nat) :
    Except FsError (INode × Filesystem) := do
  if !node.isDir then throw FsError.notADirectory
  let toWrite := addChildPayload name childNode
  -- attempt using direct blocks
  match ← fs.addChildDirect node toWrite node.direct with
  | some result => return result
  | none => pure ()
  -- allocate the single-indirect table if necessary
  let (node1, fs1) ←
    if node.indirect1 = UNUSED then
      match fs.AllocateBlock with
      | (none, _) => throw FsError.couldNotAllocateBlock
      | (some indirectBlock, fsA) => do
        let fsB := { fsA with
          file := fsA.file.WriteBytes
            (fsA.superblock.dataBlocksOffset + indirectBlock * fsA.superblock.blockSize)
            (List.replicate fsA.superblock.blockSize 255) }
        let nodeA ← node.addFirstLevelIndirectLink indirectBlock
        pure (nodeA, fsB.writeINode nodeA)
    else pure (node, fs)
  let indirects ← fs1.ReadBlockAsBlockIds node1.indirect1
  match ← fs1.addChildScanBlocks node1 toWrite indirects with
  | some result => return result
  | none => pure ()
  if indirects.length < fs1.superblock.blockSize / 4 then
    match fs1.AllocateBlock with
    | (none, _) => throw FsError.couldNotAllocateBlock
    | (some newBlock, fsA) => do
      let fsB := { fsA with
        file := fsA.file.WriteBytes
          (fsA.superblock.dataBlocksOffset + newBlock * fsA.superblock.blockSize)
          (List.replicate fsA.superblock.blockSize 255) }
      let fsC := { fsB with
        file := fsB.file.WriteBytes
          (fsB.superblock.dataBlocksOffset + node1.indirect1 * fsB.superblock.blockSize +
            indirects.length * 4)
          (writeUInt32 newBlock) }
      let fsD := { fsC with
        file := fsC.file.WriteBytes
          (fsC.superblock.dataBlocksOffset + newBlock * fsC.superblock.blockSize) toWrite }
      return (node1, fsD.writeINode node1)
  -- use the double-indirect tier
  let (node2, fs2) ←
    if node1.indirect2 = UNUSED then
      match fs1.AllocateBlock with
      | (none, _) => throw FsError.couldNotAllocateBlock
      | (some indirectBlock, fsA) => do
        let fsB := { fsA with
          file := fsA.file.WriteBytes
            (fsA.superblock.dataBlocksOffset + indirectBlock * fsA.superblock.blockSize)
            (List.replicate fsA.superblock.blockSize 255) }
        let nodeA ← node1.addSecondLevelIndirectLink indirectBlock
        pure (nodeA, fsB.writeINode nodeA)
    else pure (node1, fs1)
  let indirects ← fs2.ReadBlockAsBlockIds node2.indirect2
  match ← fs2.addChildScanPtrs node2 toWrite indirects with
  | some result => return result
  | none => pure ()
  if indirects.length < fs2.superblock.blockSize / 4 then
    match fs2.AllocateBlock with
    | (none, _) => throw FsError.couldNotAllocateBlock
    | (some newBlock, fsA) => do
      let fsB := { fsA with
        file := fsA.file.WriteBytes
          (fsA.superblock.dataBlocksOffset + newBlock * fsA.superblock.blockSize)
          (List.replicate fsA.superblock.blockSize 255) }
      let fsC := { fsB with
        file := fsB.file.WriteBytes
          (fsB.superblock.dataBlocksOffset + node2.indirect2 * fsB.superblock.blockSize +
            indirects.length * 4)
          (writeUInt32 newBlock) }
      match fsC.AllocateBlock with
      | (none, _) => throw FsError.couldNotAllocateBlock
      | (some newBlock2, fsD) => do
        let fsE := { fsD with
          file := fsD.file.WriteBytes
            (fsD.superblock.dataBlocksOffset + newBlock2 * fsD.superblock.blockSize)
            (List.replicate fsD.superblock.blockSize 255) }
        let fsF := { fsE with
          file := fsE.file.WriteBytes
            (fsE.superblock.dataBlocksOffset + newBlock * fsE.superblock.blockSize)
            (writeUInt32 newBlock2) }
        let fsG := { fsF with
          file := fsF.file.WriteBytes
            (fsF.superblock.dataBlocksOffset + newBlock2 * fsF.superblock.blockSize) toWrite }
        return (node2, fsG.writeINode node2)
  throw FsError.fileTooLarge

/-- Location of a directory entry: content block id and entry index
(the local `EntryLoc` struct of `Filesystem::RemoveChild`). -/
structure EntryLoc where
  block : Nat
  index : Nat
deriving DecidableEq, Repr

/-- Byte offset of the 16-byte directory-entry slot at `loc`; used to state
which bytes `RemoveChild` touches. -/
def Filesystem.entrySlotStart (fs : Filesystem) (loc : EntryLoc) : Nat :=
  fs.superblock.dataBlocksOffset + loc.block * fs.superblock.blockSize + loc.index * 16

/-- The content blocks `Filesystem::RemoveChild` scans, in scan order:
direct links up to the first `UNUSED`, then the single-indirect table's
contents, then the contents of every second-level table. -/
def Filesystem.dirScanBlocks (fs : Filesystem) (node : INode) : Except FsError (List Nat) := do
  let direct := node.direct.takeWhile (· ≠ UNUSED)
  let l1 ←
    if node.indirect1 ≠ UNUSED then fs.ReadBlockAsBlockIds node.indirect1
    else pure []
  let l2 ←
    if node.indirect2 ≠ UNUSED then do
      let ptrs ← fs.ReadBlockAsBlockIds node.indirect2
      let nested ← ptrs.mapM fun ptr => fs.ReadBlockAsBlockIds ptr
      pure nested.flatten
    else pure []
  pure (direct ++ l1 ++ l2)

/-- The `scanBlock` lambda of `Filesystem::RemoveChild`: update the matching
location (the source keeps the last match) and the last live location. -/
def Filesystem.scanStep (fs : Filesystem) (childNode : Nat)
    (acc : Option EntryLoc × Option EntryLoc) (blockId : Nat) :
    Except FsError (Option EntryLoc × Option EntryLoc) := do
  let entries ← fs.ReadBlockAsSubdirectories blockId
  let target :=
    match (entries.enum.filter fun p => p.2.id = childNode).getLast? with
    | some p => some ⟨blockId, p.1⟩
    | none => acc.1
  let last := if entries.isEmpty then acc.2 else some ⟨blockId, entries.length - 1⟩
  pure (target, last)

/-- Remove the entry of `childNode` from a directory
(`Filesystem::RemoveChild`): scan all content blocks for the matching entry
and the globally last live entry, then apply swap-with-last compaction. -/
def Filesystem.RemoveChild (fs : Filesystem) (node : INode) (childNode : Nat) :
    Except FsError Filesystem := do
  if !node.isDir then throw FsError.notADirectory
  let blocks ← fs.dirScanBlocks node
  let found ← blocks.foldlM (fs.scanStep childNode) (none, none)
  match found with
  | (none, _) => throw FsError.childNotFound
  | (some _, none) => throw FsError.runtimeError  -- unreachable: a match implies a last entry
  | (some t, some l) =>
    if t.block = l.block ∧ t.index = l.index then
      let offset := fs.superblock.dataBlocksOffset + l.block * fs.superblock.blockSize +
        l.index * 16
      pure { fs with file := fs.file.WriteBytes offset (List.replicate 16 255) }
    else do
      let lastOffset := fs.superblock.dataBlocksOffset + l.block * fs.superblock.blockSize +
        l.index * 16
      let lastData := fs.file.ReadBytes lastOffset 16
      if lastData.length ≠ 16 then throw FsError.runtimeError
      let targetOffset := fs.superblock.dataBlocksOffset + t.block * fs.superblock.blockSize +
        t.index * 16
      let fs1 := { fs with file := fs.file.WriteBytes targetOffset lastData }
      pure { fs1 with file := fs1.file.WriteBytes lastOffset (List.replicate 16 255) }

/-- Swap-with-last removal of a value from a block-id table
(`Filesystem::RemoveFromBlockIdTable`); `false` when the table is empty or
the value is absent. -/
def Filesystem.RemoveFromBlockIdTable (fs : Filesystem) (tableBlock value : Nat) :
    Except FsError (Bool × Filesystem) := do
  let ids ← fs.ReadBlockAsBlockIds tableBlock
  if ids.isEmpty then return (false, fs)
  match ids.findIdx? (· = value) with
  | none => return (false, fs)
  | some target =>
    let last := ids.length - 1
    let targetOffset := fs.superblock.dataBlocksOffset + tableBlock * fs.superblock.blockSize +
      target * 4
    let lastOffset := fs.superblock.dataBlocksOffset + tableBlock * fs.superblock.blockSize +
      last * 4
    let fs1 ←
      if target ≠ last then do
        let lastBytes := fs.file.ReadBytes lastOffset 4
        pure { fs with file := fs.file.WriteBytes targetOffset lastBytes }
      else pure fs
    return (true, { fs1 with file := fs1.file.WriteBytes lastOffset (List.replicate 4 255) })

/-- The double-indirect loop of `Filesystem::DeattachBlock`. -/
def Filesystem.deattachPtrLoop (fs : Filesystem) (node : INode) (ind2 block : Nat) :
    List Nat → Except FsError (Option (INode × Filesystem))
  | [] => .ok none
  | ptr :: rest => do
    let (found, fs1) ← fs.RemoveFromBlockIdTable ptr block
    if !found then fs1.deattachPtrLoop node ind2 block rest
    else do
      let fs2 := fs1.FreeBlock block
      let ids ← fs2.ReadBlockAsBlockIds ptr
      let fs3 ←
        if ids.isEmpty then do
          let (_, fsA) ← fs2.RemoveFromBlockIdTable ind2 ptr
          pure (fsA.FreeBlock ptr)
        else pure fs2
      let ids2 ← fs3.ReadBlockAsBlockIds ind2
      let (node1, fs4) :=
        if ids2.isEmpty then (node.removeSecondLevelIndirectLink, fs3.FreeBlock ind2)
        else (node, fs3)
      .ok (some (node1, fs4.writeINode node1))

/-- Detach a block from an inode's block map (`Filesystem::DeattachBlock`);
the found block is freed, and indirect tables that become empty are freed as
well.  Throws `BlockNotAttached` when the block is nowhere in the map. -/
def Filesystem.DeattachBlock (fs : Filesystem) (node : INode) (block : Nat) :
    Except FsError (INode × Filesystem) := do
  -- 1) direct blocks
  if node.direct.contains block then
    let node1 ← node.removeDirectLink block
    let fs1 := fs.FreeBlock block
    return (node1, fs1.writeINode node1)
  -- 2) single indirect
  let (early, fsB) ←
    if node.indirect1 ≠ UNUSED then do
      let ind := node.indirect1
      let (found, fs1) ← fs.RemoveFromBlockIdTable ind block
      if found then do
        let fs2 := fs1.FreeBlock block
        let ids ← fs2.ReadBlockAsBlockIds ind
        let (node1, fs3) :=
          if ids.isEmpty then (node.removeFirstLevelIndirectLink, fs2.FreeBlock ind)
          else (node, fs2)
        pure (some (node1, fs3.writeINode node1), fs1)
      else pure (none, fs1)
    else pure (none, fs)
  match early with
  | some result => return result
  | none => pure ()
  -- 3) double indirect
  if node.indirect2 ≠ UNUSED then
    let ind2 := node.indirect2
    let ptrs ← fsB.ReadBlockAsBlockIds ind2
    match ← fsB.deattachPtrLoop node ind2 block ptrs with
    | some result => return result
    | none => throw FsError.blockNotAttached
  else throw FsError.blockNotAttached

/-- The per-segment loop shared by `Filesystem::ResolvePath` and
`Filesystem::ResolveParent`; the two differ only in the error kinds thrown
(`ResolveParent` throws plain `std::runtime_error`), selected by `typed`. -/
def Filesystem.resolveSteps (fs : Filesystem) (typed : Bool) :
    INode → List String → Except FsError INode
  | node, [] => .ok node
  | node, part :: rest =>
    if part = "." then fs.resolveSteps typed node rest
    else if part = ".." then do
      let parent ← fs.FindChildId node ".."
      match parent with
      | none => throw (if typed then FsError.noParentDirectory else FsError.runtimeError)
      | some p => do
        let next ← fs.readINode p
        fs.resolveSteps typed next rest
    else if !node.isDir then
      throw (if typed then FsError.notADirectory else FsError.runtimeError)
    else do
      let nextId ← fs.FindChildId node part
      match nextId with
      | none => throw (if typed then FsError.pathNotFound else FsError.runtimeError)
      | some p => do
        let next ← fs.readINode p
        fs.resolveSteps typed next rest

/-- Resolve a path to its final inode (`Filesystem::ResolvePath`): a leading
`/` anchors at the root inode, otherwise at the current directory. -/
def Filesystem.ResolvePath (fs : Filesystem) (path : String) : Except FsError INode := do
  if path = "" then throw FsError.emptyPath
  let start ←
    if path.data.headD ' ' = '/' then fs.readINode fs.superblock.rootNodeId
    else pure fs.currentNode
  fs.resolveSteps true start (SplitPath path)

/-- Resolve all but the last segment of a path
(`Filesystem::ResolveParent`). -/
def Filesystem.ResolveParent (fs : Filesystem) (path : String) : Except FsError INode := do
  if path = "" then throw FsError.runtimeError
  let start ←
    if path.data.headD ' ' = '/' then fs.readINode fs.superblock.rootNodeId
    else pure fs.currentNode
  fs.resolveSteps false start (SplitPath path).dropLast

/-- Fuel-driven core of the data-writing loop of `Filesystem::WriteFile`:
allocate a block, write the next chunk into it, attach it to the inode,
until all bytes are written.  When `blockSize ≥ 1`, `data.length + 1` fuel
units always suffice; the source's loop makes no progress when
`blockSize = 0` (it would spin forever), which the model maps to fuel
exhaustion. -/
def Filesystem.writeChunksAux (data : List Nat) :
    Nat → Filesystem → INode → Nat → Except FsError (INode × Filesystem)
  | 0, _, _, _ => .error .runtimeError
  | fuel + 1, fs, node, written =>
    if written < data.length then
      match fs.AllocateBlock with
      | (none, _) => .error .couldNotAllocateBlock
      | (some block, fs1) =>
        let chunk := min fs.superblock.blockSize (data.length - written)
        let fs2 := { fs1 with
          file := fs1.file.WriteBytes (fs.superblock.dataBlocksOffset + block * fs.superblock.blockSize)
            ((data.drop written).take chunk) }
        match fs2.AttachBlock node block with
        | .error e => .error e
        | .ok (node1, fs3) => Filesystem.writeChunksAux data fuel fs3 node1 (written + chunk)
    else .ok (node, fs)

/-- The data-writing loop of `Filesystem::WriteFile`, started with enough
fuel for any positive block size. -/
def Filesystem.writeChunks (fs : Filesystem) (node : INode) (data : List Nat) (written : Nat) :
    Except FsError (INode × Filesystem) :=
  Filesystem.writeChunksAux data (data.length + 1 - written) fs node written

/-- The nested free loop of `WriteFile`'s overwrite path: free each
second-level table's contents, then the table itself. -/
def Filesystem.freePtrBlocks (fs : Filesystem) : List Nat → Except FsError Filesystem
  | [] => .ok fs
  | ptr :: rest => do
    let ids ← fs.ReadBlockAsBlockIds ptr
    let fs1 := ids.foldl (fun f b => f.FreeBlock b) fs
    (fs1.FreeBlock ptr).freePtrBlocks rest

/-- Write a byte sequence to a file (`Filesystem::WriteFile`): resolve the
parent, release the existing file's blocks or create a fresh inode plus
directory entry, then write the data chunk by chunk and persist the size. -/
def Filesystem.WriteFile (fs : Filesystem) (srcPath : String) (data : List Nat) :
    Except FsError Filesystem := do
  if srcPath = "" then throw FsError.emptyPath
  let parent ← fs.ResolveParent srcPath
  if !parent.isDir then throw FsError.notADirectory
  let parts := SplitPath srcPath
  -- `parts.back()` is undefined in the source when the path has no segments;
  -- the model lets the empty name fall into the `Invalid file name` branch
  let filename := parts.getLast?.getD ""
  if filename = "" then throw FsError.pathNotFound
  let fileId ← fs.FindChildId parent filename
  match fileId with
  | some fid => do
    let file ← fs.readINode fid
    if file.isDir then throw FsError.notADirectory
    -- free existing blocks
    let fs1 := (file.direct.filter (· ≠ UNUSED)).foldl (fun f b => f.FreeBlock b) fs
    let (file1, fs2) ←
      if file.indirect1 ≠ UNUSED then do
        let ids ← fs1.ReadBlockAsBlockIds file.indirect1
        let fsA := ids.foldl (fun f b => f.FreeBlock b) fs1
        pure (file.removeFirstLevelIndirectLink, fsA.FreeBlock file.indirect1)
      else pure (file, fs1)
    let (file2, fs3) ←
      if file1.indirect2 ≠ UNUSED then do
        let ptrs ← fs2.ReadBlockAsBlockIds file1.indirect2
        let fsA ← fs2.freePtrBlocks ptrs
        pure (file1.removeSecondLevelIndirectLink, fsA.FreeBlock file1.indirect2)
      else pure (file1, fs2)
    let file3 := file2.clearDirectLinks
    let file4 ← file3.removeSize file3.size
    let (file5, fs4) ← fs3.writeChunks file4 data 0
    pure (fs4.writeINode (file5.addSize data.length))
  | none => do
    let allocated ← fs.AllocateNode false
    match allocated with
    | (none, _) => throw FsError.couldNotAllocateNode
    | (some node, fs1) => do
      let (parent1, fs2) ← fs1.AddChild parent filename node.id
      let fs3 := fs2.writeINode parent1
      let (node1, fs4) ← fs3.writeChunks node data 0
      pure (fs4.writeINode (node1.addSize data.length))

/-- Read one block's worth of file contents (the `readBlock` lambda of
`Filesystem::ReadFile`): at most `blockSize` bytes, bounded by the bytes
still remaining. -/
def Filesystem.readFileBlock (fs : Filesystem) (st : Nat × List Nat) (blockId : Nat) :
    Except FsError (Nat × List Nat) :=
  if st.1 = 0 then .ok st
  else
    let toRead := min fs.superblock.blockSize st.1
    let data := fs.file.ReadBytes (fs.superblock.dataBlocksOffset + blockId * fs.superblock.blockSize)
      toRead
    if data.length ≠ toRead then .error .fileRead
    else .ok (st.1 - toRead, st.2 ++ data)

/-- The direct-block loop of `Filesystem::ReadFile`: stops at the first
`UNUSED` link or when nothing remains. -/
def Filesystem.readDirectLoop (fs : Filesystem) :
    List Nat → Nat × List Nat → Except FsError (Nat × List Nat)
  | [], st => .ok st
  | b :: rest, st =>
    if b = UNUSED ∨ st.1 = 0 then .ok st
    else do
      let st1 ← fs.readFileBlock st b
      fs.readDirectLoop rest st1

/-- The single-indirect contents loop of `Filesystem::ReadFile`. -/
def Filesystem.readIdsLoop (fs : Filesystem) :
    List Nat → Nat × List Nat → Except FsError (Nat × List Nat)
  | [], st => .ok st
  | b :: rest, st =>
    if st.1 = 0 then .ok st
    else do
      let st1 ← fs.readFileBlock st b
      fs.readIdsLoop rest st1

/-- The double-indirect loop of `Filesystem::ReadFile`. -/
def Filesystem.readPtrsLoop (fs : Filesystem) :
    List Nat → Nat × List Nat → Except FsError (Nat × List Nat)
  | [], st => .ok st
  | ptr :: rest, st => do
    let ids ← fs.ReadBlockAsBlockIds ptr
    let st1 ← fs.readIdsLoop ids st
    if st1.1 = 0 then .ok st1
    else fs.readPtrsLoop rest st1

/-- Read a whole file (`Filesystem::ReadFile`): walk the block map in
canonical order, reading `min(blockSize, remaining)` from each block until
`size` bytes are collected. -/
def Filesystem.ReadFile (fs : Filesystem) (srcPath : String) : Except FsError (List Nat) := do
  if srcPath = "" then throw FsError.emptyPath
  let file ← fs.ResolvePath srcPath
  if file.isDir then throw FsError.notADirectory
  let st1 ← fs.readDirectLoop file.direct (file.size, [])
  let st2 ←
    if st1.1 > 0 ∧ file.indirect1 ≠ UNUSED then do
      let ids ← fs.ReadBlockAsBlockIds file.indirect1
      fs.readIdsLoop ids st1
    else pure st1
  let st3 ←
    if st2.1 > 0 ∧ file.indirect2 ≠ UNUSED then do
      let ptrs ← fs.ReadBlockAsBlockIds file.indirect2
      fs.readPtrsLoop ptrs st2
    else pure st2
  pure st3.2

/-- Copy a file (`Filesystem::CopyFile`): read the source, write the
destination. -/
def Filesystem.CopyFile (fs : Filesystem) (srcPath dstPath : String) :
    Except FsError Filesystem := do
  if srcPath = "" ∨ dstPath = "" then throw FsError.emptyPath
  let src ← fs.ResolvePath srcPath
  if src.isDir then throw FsError.notADirectory
  let data ← fs.ReadFile srcPath
  fs.WriteFile dstPath data

/-- Remove a file (`Filesystem::RemoveFile`): drop the directory entry; free
the inode when its link count is 1, otherwise decrement the in-memory copy's
link count (the source never writes the decremented record back). -/
def Filesystem.RemoveFile (fs : Filesystem) (path : String) : Except FsError Filesystem := do
  if path = "" then throw FsError.emptyPath
  let parent ← fs.ResolveParent path
  if !parent.isDir then throw FsError.notADirectory
  let filename := (SplitPath path).getLast?.getD ""
  let fileId ← fs.FindChildId parent filename
  match fileId with
  | none => throw FsError.pathNotFound
  | some fid => do
    let file ← fs.readINode fid
    if file.isDir then throw FsError.notADirectory
    let fs1 ← fs.RemoveChild parent file.id
    let fs2 := fs1.writeINode parent
    if file.links = 1 then fs2.FreeNode file
    else
      -- `file.removeLink()` mutates only the local copy, which is then dropped
      let _ := file.removeLink
      pure fs2

/-- Move a file (`Filesystem::MoveFile`): copy then remove; identical path
strings short-circuit to a no-op. -/
def Filesystem.MoveFile (fs : Filesystem) (srcPath dstPath : String) :
    Except FsError Filesystem := do
  if srcPath = "" ∨ dstPath = "" then throw FsError.emptyPath
  if srcPath = dstPath then return fs
  let src ← fs.ResolvePath srcPath
  if src.isDir then throw FsError.notADirectory
  let fs1 ← fs.CopyFile srcPath dstPath
  fs1.RemoveFile srcPath

/-- Create a hard link (`Filesystem::LinkFile`): new directory entry pointing
at the original's inode, whose link count is incremented and persisted. -/
def Filesystem.LinkFile (fs : Filesystem) (originalPath linkPath : String) :
    Except FsError Filesystem := do
  if originalPath = "" ∨ linkPath = "" then throw FsError.emptyPath
  let original ← fs.ResolvePath originalPath
  if original.isDir then throw FsError.notADirectory
  let parent ← fs.ResolveParent linkPath
  if !parent.isDir then throw FsError.notADirectory
  let linkName := (SplitPath linkPath).getLast?.getD ""
  if linkName = "" then throw FsError.pathNotFound
  let existing ← fs.FindChildId parent linkName
  if existing.isSome then throw FsError.fileWrite
  let (parent1, fs1) ← fs.AddChild parent linkName original.id
  let fs2 := fs1.writeINode original.addLink
  pure (fs2.writeINode parent1)

/-- The geometry fitting loop of `Filesystem::Format`: decrement `blocks`
until the metadata plus the data region fit in `bytes`; returns the final
`(blocks, inodes)` pair (`(0, 0)` when the loop exhausts, matching the
source where `inodes` ends at `1 / 4 = 0`). -/
def formatGeometry (bytes : Nat) : Nat → Nat × Nat
  | 0 => (0, 0)
  | blocks + 1 =>
    let inodes := (blocks + 1) / 4
    let metadata := Superblock.BYTE_SIZE + (inodes + 7) / 8 + (blocks + 1 + 7) / 8 +
      inodes * INode.BYTES
    if metadata + (blocks + 1) * 1024 ≤ bytes then (blocks + 1, inodes)
    else formatGeometry bytes blocks

/-- Format the image (`Filesystem::Format`): resize-and-zero-fill the backing
file, compute the geometry, and on success write the superblock, fresh
bitmaps and the root directory ("." and ".." pointing at inode 0).  The
error component is `none` on success; the state is returned on both paths
because the source's exceptions leave its mutations in place.  The model's
`Resize` always succeeds, so the `CouldNotResizeImage` branch is not
represented; the later allocation errors cannot fire once the geometry check
passed, and the model returns the pre-allocation state for them. -/
def Filesystem.Format (fs : Filesystem) (bytes : Nat) : Option FsError × Filesystem :=
  let fs0 := { fs with file := DiskFile.Resize bytes }
  let geom := formatGeometry bytes (bytes / 1024)
  if geom.1 = 0 ∨ geom.2 = 0 then (some .invalidFilesystemSize, fs0)
  else
    let blocks := geom.1
    let inodes := geom.2
    let sb : Superblock :=
      { magic := FILESYSTEM_MAGIC
        blockSize := 1024
        totalBlocks := blocks
        totalInodes := inodes
        size := bytes
        inodeBitmapOffset := Superblock.BYTE_SIZE
        blockBitmapOffset := Superblock.BYTE_SIZE + (inodes + 7) / 8
        inodeTableOffset := Superblock.BYTE_SIZE + (inodes + 7) / 8 + (blocks + 7) / 8
        dataBlocksOffset := Superblock.BYTE_SIZE + (inodes + 7) / 8 + (blocks + 7) / 8 +
          inodes * INode.BYTES
        rootNodeId := 0 }
    let fs1 := { fs0 with
      superblock := sb
      INodeBitmap := Bitmap.init inodes
      BlockBitmap := Bitmap.init blocks }
    match fs1.AllocateNode true with
    | .error e => (some e, fs1)
    | .ok (none, fs2) => (some .couldNotAllocateNode, fs2)
    | .ok (some root, fs2) =>
      let fs3 := { fs2 with
        currentNode := root
        superblock := { fs2.superblock with rootNodeId := root.id } }
      match fs3.AddChild root "." root.id with
      | .error e => (some e, fs3)
      | .ok (root1, fs4) =>
        match fs4.AddChild root1 ".." root1.id with
        | .error e => (some e, fs4)
        | .ok (_, fs5) =>
          let fs6 := { fs5 with file := fs5.file.WriteBytes 0 fs5.superblock.toBytes }
          let fs7 := { fs6 with
            file := fs6.file.WriteBytes fs6.superblock.inodeBitmapOffset
              fs6.INodeBitmap.SaveToBytes }
          let fs8 := { fs7 with
            file := fs7.file.WriteBytes fs7.superblock.blockBitmapOffset
              fs7.BlockBitmap.SaveToBytes }
          let fs9 := fs8.writeINode fs8.currentNode
          (none, { fs9 with formated := true })

/-- The destructor `Filesystem::~Filesystem`: when formatted, write back the
superblock and both bitmaps, then flush and close; the final contents of the
backing file are returned. -/
def Filesystem.destruct (fs : Filesystem) : DiskFile :=
  if !fs.formated then fs.file
  else
    ((fs.file.WriteBytes 0 fs.superblock.toBytes).WriteBytes
        fs.superblock.inodeBitmapOffset fs.INodeBitmap.SaveToBytes).WriteBytes
      fs.superblock.blockBitmapOffset fs.BlockBitmap.SaveToBytes

/-! ### Concrete states used by the claim proofs -/

/-- The engine state right after `Filesystem::Filesystem` runs on an empty
image file: the superblock read comes back empty, both bitmaps stay at their
`Bitmap(0)` member initializers, the current node is default-constructed, and
the filesystem stays unformatted. -/
def emptyImageFs : Filesystem :=
  { file := ⟨fun _ => 0, 0⟩
    superblock := ⟨0, 0, 0, 0, 0, 0, 0, 0, 0, 0⟩
    INodeBitmap := ⟨0, []⟩
    BlockBitmap := ⟨0, []⟩
    currentNode := INode.initDefault
    formated := false }

/-- A small formatted image: `format(9000)` yields 8 blocks and 2 inodes. -/
def fs9000 : Filesystem := (emptyImageFs.Format 9000).2

/-- `fs9000` after `writeFile("/a", "X")`: one regular file at inode 1. -/
def fsC8pre : Filesystem :=
  match fs9000.WriteFile "/a" [88] with
  | .ok a => a
  | .error _ => fs9000

/-- `fsC8pre` after `moveFile("/a", "//a")` — two spellings of the same
file. -/
def fsC8post : Filesystem :=
  match fsC8pre.MoveFile "/a" "//a" with
  | .ok b => b
  | .error _ => fsC8pre

/-- `fsC8pre` after removing the directory entry of child inode 1 from the
root. -/
def fsC9res : Filesystem :=
  match fsC8pre.RemoveChild fsC8pre.currentNode 1 with
  | .ok r => r
  | .error _ => fsC8pre

/-- `fs9000` with the in-memory current-directory inode drifted from its
on-disk record (link count 9 in memory, 1 on disk); directory entries added
under a different `INode` copy of the same directory leave the member
`currentNode` stale in exactly this way. -/
def fsC3state : Filesystem :=
  { fs9000 with currentNode := { fs9000.currentNode with links := 9 } }

/-- An unformatted image whose backing file holds three bytes of value 7;
used to show `Format` clobbers it even when it fails. -/
def fsC4state : Filesystem :=
  { emptyImageFs with file := ⟨fun _ => 7, 3⟩ }

/-- The file inode `writeFile("/a", "X")` creates on `fs9000`. -/
def fileNodeC8 : INode :=
  ⟨1, 1, 1, [1, UNUSED, UNUSED, UNUSED, UNUSED], UNUSED, UNUSED, false⟩

/-- The result of detaching block 1 from the one-block file inode of
`fsC8pre`; the `.error` arm is dead, `DeattachBlock` succeeds here. -/
def pairC10 : INode × Filesystem :=
  match fsC8pre.DeattachBlock fileNodeC8 1 with
  | .ok r => r
  | .error _ => (fileNodeC8, fsC8pre)

/-- The root inode exactly as `Format` builds it: inode 0, one link, the
directory flag set, and block 0 attached as its only content block. -/
def rootNode0 : INode :=
  ⟨0, 1, 0, [0, UNUSED, UNUSED, UNUSED, UNUSED], UNUSED, UNUSED, true⟩

/-- A direct-link list as `AttachBlock` maintains it: the attached blocks in
order, the remaining slots `UNUSED`. -/
def pad5 (xs : List Nat) : List Nat := xs ++ List.replicate (5 - xs.length) UNUSED

/-- The byte at offset `k` of data block `b`. -/
def Filesystem.blockBytes (fs : Filesystem) (b k : Nat) : Nat :=
  fs.file.data (fs.superblock.dataBlocksOffset + b * fs.superblock.blockSize + k)

/-- On-disk layout of a block-id table holding `ids`: the 4-byte encodings in
order, then `0xFF` padding to the block size. -/
def tableList (ids : List Nat) : List Nat :=
  List.flatten (ids.map writeUInt32) ++ List.replicate (1024 - 4 * ids.length) 255

/-- Data block `t` holds exactly the id table `ids`. -/
def Filesystem.holdsTable (fs : Filesystem) (t : Nat) (ids : List Nat) : Prop :=
  ∀ k, k < 1024 → fs.blockBytes t k = (tableList ids).getD k 0

/-- A bitmap over `B` bits whose set bits are exactly `0 … m-1` — the shape
`Format` plus a run of `AllocateBlock` calls produces. -/
def PrefixBM (bm : Bitmap) (B m : Nat) : Prop :=
  bm.size = B ∧ bm.data.length = (B + 7) / 8 ∧ ∀ j, bm.Get j = decide (j < m)

/-- All blocks an inode's block map occupies when its logical data blocks are
`L`: the data blocks themselves, the single-indirect table `t1` (present once
a sixth block exists), and the double-indirect table `t2` with its
second-level tables `ts` (present past 261 blocks). -/
def repBlocks (L : List Nat) (t1 t2 : Nat) (ts : List Nat) : List Nat :=
  L ++ (if 5 < L.length then [t1] else []) ++ (if 261 < L.length then t2 :: ts else [])

/-- The on-disk block map of an inode whose logical data blocks are `L`, as
`AttachBlock` lays it out: the first five in the direct slots, the next 256
listed in table `t1`, the rest in the second-level tables `ts` hanging off
`t2`, each table left-packed and `0xFF`-padded. -/
def Filesystem.RepFile (fs : Filesystem) (node : INode) (L : List Nat)
    (t1 t2 : Nat) (ts : List Nat) : Prop :=
  node.direct = pad5 (L.take 5) ∧
  (L.length ≤ 5 → node.indirect1 = UNUSED) ∧
  (5 < L.length → node.indirect1 = t1 ∧ fs.holdsTable t1 ((L.drop 5).take 256)) ∧
  (L.length ≤ 261 → node.indirect2 = UNUSED) ∧
  (261 < L.length →
    node.indirect2 = t2 ∧ fs.holdsTable t2 ts ∧
    ts.length = (L.length - 261 + 255) / 256 ∧
    ∀ i, i < ts.length →
      fs.holdsTable (ts.getD i 0) ((L.drop (261 + 256 * i)).take 256))

/-- Everything `AttachBlock` and the `WriteFile` chunk loop rely on and
maintain: the block-map layout, distinctness and bounds of the occupied
blocks, the sequential block bitmap, and the image geometry. -/
def AttachInv (fs : Filesystem) (node : INode) (L : List Nat) (t1 t2 : Nat)
    (ts : List Nat) (B m : Nat) : Prop :=
  fs.RepFile node L t1 t2 ts ∧
  (repBlocks L t1 t2 ts).Nodup ∧
  (∀ x ∈ repBlocks L t1 t2 ts, 1 ≤ x ∧ x < m) ∧
  PrefixBM fs.BlockBitmap B m ∧
  m ≤ B ∧
  fs.superblock.blockSize = 1024 ∧
  fs.superblock.inodeTableOffset + (node.id + 1) * INode.BYTES ≤
    fs.superblock.dataBlocksOffset ∧
  1 ≤ node.id ∧
  fs.superblock.dataBlocksOffset + B * 1024 ≤ fs.file.len

/-- The untouched state `AttachBlock` and the chunk loop guarantee: all
engine fields but the file and the block bitmap, the contents of the blocks
in `keep`, and every byte below the second inode-table slot. -/
def AttachFrame (fs fs' : Filesystem) (keep : List Nat) : Prop :=
  fs'.superblock = fs.superblock ∧ fs'.INodeBitmap = fs.INodeBitmap ∧
  fs'.currentNode = fs.currentNode ∧ fs'.formated = fs.formated ∧
  fs.file.len ≤ fs'.file.len ∧
  (∀ db ∈ keep, ∀ k, k < 1024 → fs'.blockBytes db k = fs.blockBytes db k) ∧
  (∀ i, i < fs.superblock.inodeTableOffset + INode.BYTES → fs'.file.data i = fs.file.data i)

/-- The data blocks listed in `L` hold the byte sequence `X` in 1024-byte
chunks: block `L[j]` carries `X[1024*j ..]`, up to the chunk length. -/
def ContentAt (fs : Filesystem) (L : List Nat) (X : List Nat) : Prop :=
  ∀ j, j < L.length → ∀ k, k < min 1024 (X.length - 1024 * j) →
    fs.blockBytes (L.getD j 0) k = X.getD (1024 * j + k) 0

/-- The byte layout of a directory block holding the entries `es` in its
first slots: the 16-byte payloads in order, then `0xFF` filler. -/
def dirBytes (es : List ChildNodeNameIdPair) : List Nat :=
  (es.map fun e => addChildPayload e.name e.id).flatten ++
    List.replicate (1024 - 16 * es.length) 255

/-- Block `b` of `fs` holds exactly the directory entries `es`. -/
def Filesystem.holdsDir (fs : Filesystem) (b : Nat) (es : List ChildNodeNameIdPair) : Prop :=
  ∀ k, k < 1024 → fs.blockBytes b k = (dirBytes es).getD k 0

/-- A directory-entry name the engine stores and parses faithfully: nonempty,
at most 12 bytes, no NUL characters. -/
def GoodEntry (e : ChildNodeNameIdPair) : Prop :=
  e.name.data.length ≤ 12 ∧ (∀ c ∈ e.name.data, c.toNat ≠ 0) ∧ e.id < UNUSED

/-- Everything the write/read round trip uses about a freshly formatted state
with `blocks` data blocks and `inodes` inode slots: the standard geometry, the
two one-bit bitmaps, the root as current node and on disk in slot 0, and the
root directory block holding exactly "." and "..". -/
def FormatReady (S : Filesystem) (blocks inodes : Nat) : Prop :=
  0 < blocks ∧ 0 < inodes ∧
  S.superblock.blockSize = 1024 ∧
  S.superblock.rootNodeId = 0 ∧
  S.superblock.inodeTableOffset + inodes * INode.BYTES ≤ S.superblock.dataBlocksOffset ∧
  S.superblock.dataBlocksOffset + blocks * 1024 ≤ S.file.len ∧
  PrefixBM S.INodeBitmap inodes 1 ∧
  PrefixBM S.BlockBitmap blocks 1 ∧
  S.currentNode = rootNode0 ∧
  S.readINode 0 = .ok rootNode0 ∧
  S.holdsDir 0 [⟨".", 0⟩, ⟨"..", 0⟩]

/-- `fs9000` after `writeFile("/a", [7, 8, 9])`; the error arm is dead. -/
def fsRoundtrip : Filesystem :=
  match fs9000.WriteFile "/a" [7, 8, 9] with
  | .ok a => a
  | .error _ => fs9000

/-! ## Basic lemmas about the byte-file model -/

set_option maxRecDepth 100000

theorem DiskFile.data_WriteBytes (f : DiskFile) (offset : Nat) (d : List Nat) (i : Nat) :
    (f.WriteBytes offset d).data i =
      if offset ≤ i ∧ i < offset + d.length then d.getD (i - offset) 0 else f.data i := rfl

theorem DiskFile.len_WriteBytes (f : DiskFile) (offset : Nat) (d : List Nat) :
    (f.WriteBytes offset d).len = max f.len (offset + d.length) := rfl

theorem DiskFile.data_WriteBytes_of_lt (f : DiskFile) (offset : Nat) (d : List Nat) {i : Nat}
    (h : i < offset) : (f.WriteBytes offset d).data i = f.data i := by
  simp only [DiskFile.data_WriteBytes]
  rw [if_neg]
  omega

theorem DiskFile.data_WriteBytes_of_ge (f : DiskFile) (offset : Nat) (d : List Nat) {i : Nat}
    (h : offset + d.length ≤ i) : (f.WriteBytes offset d).data i = f.data i := by
  simp only [DiskFile.data_WriteBytes]
  rw [if_neg]
  omega

theorem DiskFile.data_WriteBytes_inside (f : DiskFile) (offset : Nat) (d : List Nat) {i : Nat}
    (h1 : offset ≤ i) (h2 : i < offset + d.length) :
    (f.WriteBytes offset d).data i = d.getD (i - offset) 0 := by
  simp only [DiskFile.data_WriteBytes]
  rw [if_pos ⟨h1, h2⟩]

theorem DiskFile.data_WriteBytes_outside (f : DiskFile) (offset : Nat) (d : List Nat) {i : Nat}
    (h : ¬(offset ≤ i ∧ i < offset + d.length)) :
    (f.WriteBytes offset d).data i = f.data i := by
  rw [DiskFile.data_WriteBytes, if_neg h]

theorem DiskFile.ReadBytes_length_le (f : DiskFile) (offset size : Nat) :
    (f.ReadBytes offset size).length ≤ size := by
  simp only [DiskFile.ReadBytes, List.length_map, List.length_range]
  omega

theorem Superblock.toBytes_length (sb : Superblock) : sb.toBytes.length = 40 := by
  simp [Superblock.toBytes, writeUInt32]

/-! ## Claim C7 -/

/-- Claim C7 (code bug): on an inode with link count 2, `removeLink`
decrements the count to 1 — which is not 0 — and still returns `true`.  The
header of `INode::removeLink` documents the return value as "True if link
count reached zero", but the implementation returns whether a decrement
happened at all. -/
theorem removeLink_at_two_links_returns_true :
    ({ INode.initDefault with links := 2 } : INode).removeLink =
      (true, { INode.initDefault with links := 1 }) := rfl

/-! ## Claim C6 -/

/-- Claim C6 (code bug): `AddChild` never truncates a long name.  On the
freshly formatted 9000-byte image, adding a child named `"abcdefghijklm"`
(13 bytes) with inode id 1 builds a 17-byte entry payload — one byte more
than the 16-byte slot — and the entry read back from the directory carries
the truncated name with the corrupted inode id `365 = 109 + 256` (the byte
`'m' = 109` landed in the id field). -/
theorem addChild_oversized_name_corrupts_entry :
    (addChildPayload "abcdefghijklm" 1).length = 17 ∧
    ((fs9000.AddChild fs9000.currentNode "abcdefghijklm" 1).map fun r =>
        r.2.GetChildren r.1) =
      .ok (.ok [⟨".", 0⟩, ⟨"..", 0⟩, ⟨"abcdefghijkl", 365⟩]) := by
  exact ⟨rfl, rfl⟩

/-! ## Claim C2 -/

/-- Claim C2 (code bug): after `writeFile("/a","X"); linkFile("/a","/b")`,
the file inode 1 has two links.  `removeFile("/a")` then (i) leaves the
on-disk link count at 2 — `RemoveFile` never writes the decremented record
back — and (ii) removes the directory entry of `"b"` instead of `"a"`,
because `RemoveChild` matches entries by inode id and keeps the last match.
The inode does remain allocated in the inode bitmap. -/
theorem removeFile_hard_link_divergence :
    (do
      let a ← fs9000.WriteFile "/a" [88]
      let b ← a.LinkFile "/a" "/b"
      let c ← b.RemoveFile "/a"
      let n ← c.readINode 1
      let fa ← c.FindChildId c.currentNode "a"
      let fb ← c.FindChildId c.currentNode "b"
      pure (n.links, c.INodeBitmap.Get 1, fa, fb)) =
      .ok (2, true, some 1, none) := rfl

/-! ## Claim C4 -/

/-- Claim C4, counterexample: on an unformatted image holding three bytes of
value 7, `Format(100)` fails with `InvalidFilesystemSize` — yet the backing
file has already been resized to 100 zero bytes, so neither its content nor
its length is unchanged. -/
theorem format_failure_still_resizes_file :
    (fsC4state.Format 100).1 = some .invalidFilesystemSize ∧
    fsC4state.file.len = 3 ∧ fsC4state.file.data 0 = 7 ∧
    (fsC4state.Format 100).2.file.len = 100 ∧
    (fsC4state.Format 100).2.file.data 0 = 0 :=
  ⟨rfl, rfl, rfl, rfl, rfl⟩

/-- Claim C4, amended: `Format` resizes and zero-fills the backing file to
`bytes` *before* computing the geometry; when the fitting loop ends with
`blocks = 0` or `inodes = 0` it fails `InvalidFilesystemSize`, leaving the
backing file already resized to exactly `bytes` zero bytes. -/
theorem format_invalid_size_after_resize (fs : Filesystem) (bytes : Nat)
    (h : (formatGeometry bytes (bytes / 1024)).1 = 0 ∨
      (formatGeometry bytes (bytes / 1024)).2 = 0) :
    fs.Format bytes =
      (some .invalidFilesystemSize, { fs with file := DiskFile.Resize bytes }) := by
  unfold Filesystem.Format
  rw [if_pos h]

/-- Witness for `format_invalid_size_after_resize` at `fsC4state` and
`bytes = 100`. -/
theorem format_invalid_size_after_resize_witness :
    ((formatGeometry 100 (100 / 1024)).1 = 0 ∨ (formatGeometry 100 (100 / 1024)).2 = 0) ∧
    fsC4state.Format 100 =
      (some .invalidFilesystemSize, { fsC4state with file := DiskFile.Resize 100 }) :=
  ⟨Or.inl rfl, format_invalid_size_after_resize fsC4state 100 (Or.inl rfl)⟩

/-! ## Claim C8 -/

/-- Claim C8, counterexample: on `fsC8pre` the path strings `"/a"` and
`"//a"` denote the same file (both resolve to inode 1), yet
`moveFile("/a", "//a")` is not a no-op: the string comparison fails, the
copy-then-remove sequence runs, and afterwards the file is gone — both
spellings fail with `PathNotFound`. -/
theorem moveFile_same_file_not_noop :
    fsC8pre.ResolvePath "/a" = .ok fileNodeC8 ∧
    fsC8pre.ResolvePath "//a" = .ok fileNodeC8 ∧
    fsC8pre.MoveFile "/a" "//a" = .ok fsC8post ∧
    fsC8post.ReadFile "/a" = .error .pathNotFound ∧
    fsC8post.ReadFile "//a" = .error .pathNotFound :=
  ⟨rfl, rfl, rfl, rfl, rfl⟩

/-- Claim C8, amended: `moveFile(src, dst)` is a no-op exactly when the two
path strings are identical: for any nonempty `s`, `moveFile(s, s)` succeeds
and the filesystem state is unchanged. -/
theorem moveFile_identical_strings_noop (fs : Filesystem) (s : String) (h : s ≠ "") :
    fs.MoveFile s s = .ok fs := by
  unfold Filesystem.MoveFile
  simp [h]
  rfl

/-- Witness for `moveFile_identical_strings_noop` at `fs9000` and `"/a"`. -/
theorem moveFile_identical_strings_noop_witness :
    fs9000.MoveFile "/a" "/a" = .ok fs9000 :=
  moveFile_identical_strings_noop fs9000 "/a" (by decide)

/-! ## Claim C3 -/

/-- Claim C3, counterexample: `fsC3state` is formatted and its in-memory
current-directory inode (link count 9) differs from the on-disk record (link
count 1).  After destruction the image still holds the old record bytes, not
the serialization of the current node: the destructor does not write the
current directory's inode record back. -/
theorem destruct_does_not_write_current_inode :
    fsC3state.formated = true ∧
    fsC3state.destruct.ReadBytes
        (fsC3state.superblock.inodeTableOffset + fsC3state.currentNode.id * INode.BYTES)
        INode.BYTES ≠ fsC3state.currentNode.ToBytes := by
  exact ⟨rfl, by decide⟩

/-- Claim C3, amended: on a formatted filesystem, destruction writes back
exactly the superblock and the two bitmaps (then flushes and closes): the
first 40 bytes hold the superblock serialization, the two bitmap regions
hold the bitmap bytes, and every other byte of the image — the inode table
and the current directory's inode record included — is unchanged. -/
theorem destruct_writes_metadata_only (fs : Filesystem)
    (hf : fs.formated = true)
    (h1 : 40 ≤ fs.superblock.inodeBitmapOffset)
    (h2 : fs.superblock.inodeBitmapOffset + fs.INodeBitmap.data.length ≤
      fs.superblock.blockBitmapOffset) :
    (∀ i, i < 40 → fs.destruct.data i = fs.superblock.toBytes.getD i 0) ∧
    (∀ i, i < fs.INodeBitmap.data.length →
      fs.destruct.data (fs.superblock.inodeBitmapOffset + i) = fs.INodeBitmap.data.getD i 0) ∧
    (∀ i, i < fs.BlockBitmap.data.length →
      fs.destruct.data (fs.superblock.blockBitmapOffset + i) = fs.BlockBitmap.data.getD i 0) ∧
    (∀ i, 40 ≤ i →
      ¬(fs.superblock.inodeBitmapOffset ≤ i ∧
        i < fs.superblock.inodeBitmapOffset + fs.INodeBitmap.data.length) →
      ¬(fs.superblock.blockBitmapOffset ≤ i ∧
        i < fs.superblock.blockBitmapOffset + fs.BlockBitmap.data.length) →
      fs.destruct.data i = fs.file.data i) := by
  have hd : fs.destruct =
      ((fs.file.WriteBytes 0 fs.superblock.toBytes).WriteBytes
        fs.superblock.inodeBitmapOffset fs.INodeBitmap.SaveToBytes).WriteBytes
        fs.superblock.blockBitmapOffset fs.BlockBitmap.SaveToBytes := by
    unfold Filesystem.destruct
    rw [hf]
    rfl
  rw [hd]
  have hsb : fs.superblock.toBytes.length = 40 := fs.superblock.toBytes_length
  have hsave1 : (Bitmap.SaveToBytes fs.INodeBitmap).length = fs.INodeBitmap.data.length := rfl
  have hsave2 : (Bitmap.SaveToBytes fs.BlockBitmap).length = fs.BlockBitmap.data.length := rfl
  refine ⟨fun i hi => ?_, fun i hi => ?_, fun i hi => ?_, fun i hi hn1 hn2 => ?_⟩
  · rw [DiskFile.data_WriteBytes_of_lt _ _ _ (by omega),
      DiskFile.data_WriteBytes_of_lt _ _ _ (by omega),
      DiskFile.data_WriteBytes_inside _ _ _ (by omega) (by omega)]
    simp
  · rw [DiskFile.data_WriteBytes_of_lt _ _ _ (by omega),
      DiskFile.data_WriteBytes_inside _ _ _ (by omega) (by omega)]
    simp [Bitmap.SaveToBytes]
  · rw [DiskFile.data_WriteBytes_inside _ _ _ (by omega) (by omega)]
    simp [Bitmap.SaveToBytes]
  · rw [DiskFile.data_WriteBytes]
    rw [if_neg (by rw [hsave2]; omega)]
    rw [DiskFile.data_WriteBytes]
    rw [if_neg (by rw [hsave1]; omega)]
    rw [DiskFile.data_WriteBytes_of_ge _ _ _ (by omega)]

/-- Witness for `destruct_writes_metadata_only` at `fs9000`, sampling one
byte of each region: the superblock byte 0, the inode-bitmap byte, and the
untouched byte at offset 200 (inside the data region). -/
theorem destruct_writes_metadata_only_witness :
    fs9000.formated = true ∧
    (40 ≤ fs9000.superblock.inodeBitmapOffset) ∧
    (fs9000.superblock.inodeBitmapOffset + fs9000.INodeBitmap.data.length ≤
      fs9000.superblock.blockBitmapOffset) ∧
    fs9000.destruct.data 0 = fs9000.superblock.toBytes.getD 0 0 ∧
    fs9000.destruct.data (fs9000.superblock.inodeBitmapOffset + 0) =
      fs9000.INodeBitmap.data.getD 0 0 ∧
    fs9000.destruct.data 200 = fs9000.file.data 200 := by
  refine ⟨rfl, by decide, by decide, ?_, ?_, ?_⟩
  · exact (destruct_writes_metadata_only fs9000 rfl (by decide) (by decide)).1 0 (by decide)
  · exact (destruct_writes_metadata_only fs9000 rfl (by decide) (by decide)).2.1 0 (by decide)
  · exact (destruct_writes_metadata_only fs9000 rfl (by decide) (by decide)).2.2.2 200
      (by decide) (by decide) (by decide)

/-! ## Claim C9 -/

theorem scanStep_block_mem (fs : Filesystem) (childNode : Nat)
    (acc : Option EntryLoc × Option EntryLoc) (blockId : Nat)
    (acc' : Option EntryLoc × Option EntryLoc)
    (h : fs.scanStep childNode acc blockId = .ok acc') :
    (∀ loc, acc'.1 = some loc → acc.1 = some loc ∨ loc.block = blockId) ∧
    (∀ loc, acc'.2 = some loc → acc.2 = some loc ∨ loc.block = blockId) := by
  unfold Filesystem.scanStep at h
  cases hrd : fs.ReadBlockAsSubdirectories blockId with
  | error e =>
    rw [hrd] at h
    simp [Bind.bind, Except.bind] at h
  | ok entries =>
    rw [hrd] at h
    simp only [Bind.bind, Except.bind, pure, Except.pure, Except.ok.injEq] at h
    subst h
    constructor
    · intro loc hl
      simp only at hl
      cases hcase : (entries.enum.filter fun p => p.2.id = childNode).getLast? with
      | none => rw [hcase] at hl; exact Or.inl hl
      | some p =>
        rw [hcase] at hl
        cases hl
        exact Or.inr rfl
    · intro loc hl
      simp only at hl
      by_cases he : entries.isEmpty
      · rw [if_pos he] at hl; exact Or.inl hl
      · rw [if_neg he] at hl; cases hl; exact Or.inr rfl

theorem scanFold_block_mem (fs : Filesystem) (childNode : Nat) :
    ∀ (blocks : List Nat) (acc res : Option EntryLoc × Option EntryLoc),
      blocks.foldlM (fs.scanStep childNode) acc = .ok res →
      (∀ loc, res.1 = some loc → acc.1 = some loc ∨ loc.block ∈ blocks) ∧
      (∀ loc, res.2 = some loc → acc.2 = some loc ∨ loc.block ∈ blocks)
  | [], acc, res, h => by
    simp only [List.foldlM_nil, pure, Except.pure, Except.ok.injEq] at h
    subst h
    exact ⟨fun loc hl => Or.inl hl, fun loc hl => Or.inl hl⟩
  | b :: rest, acc, res, h => by
    rw [List.foldlM_cons] at h
    cases hstep : fs.scanStep childNode acc b with
    | error e => rw [hstep] at h; simp [Bind.bind, Except.bind] at h
    | ok acc1 =>
      rw [hstep] at h
      simp only [Bind.bind, Except.bind] at h
      have ih := scanFold_block_mem fs childNode rest acc1 res h
      have hs := scanStep_block_mem fs childNode acc b acc1 hstep
      constructor
      · intro loc hl
        rcases ih.1 loc hl with h1 | h1
        · rcases hs.1 loc h1 with h2 | h2
          · exact Or.inl h2
          · exact Or.inr (by simp [h2])
        · exact Or.inr (List.mem_cons_of_mem _ h1)
      · intro loc hl
        rcases ih.2 loc hl with h1 | h1
        · rcases hs.2 loc h1 with h2 | h2
          · exact Or.inl h2
          · exact Or.inr (by simp [h2])
        · exact Or.inr (List.mem_cons_of_mem _ h1)

/-- Claim C9: a successful `RemoveChild` changes nothing but bytes inside the
16-byte target slot and the 16-byte last-live slot, both of which lie in
content blocks of the scanned directory: the superblock, both bitmaps, the
current node and the formatted flag are untouched, no inode record is
written, and no block is detached or freed. -/
theorem removeChild_frame (fs : Filesystem) (node : INode) (childNode : Nat) (fs' : Filesystem)
    (h : fs.RemoveChild node childNode = .ok fs') :
    fs'.superblock = fs.superblock ∧
    fs'.INodeBitmap = fs.INodeBitmap ∧
    fs'.BlockBitmap = fs.BlockBitmap ∧
    fs'.currentNode = fs.currentNode ∧
    fs'.formated = fs.formated ∧
    ∃ blocks t l,
      fs.dirScanBlocks node = .ok blocks ∧
      blocks.foldlM (fs.scanStep childNode) (none, none) = .ok (some t, some l) ∧
      t.block ∈ blocks ∧ l.block ∈ blocks ∧
      ∀ i, ¬(fs.entrySlotStart t ≤ i ∧ i < fs.entrySlotStart t + 16) →
        ¬(fs.entrySlotStart l ≤ i ∧ i < fs.entrySlotStart l + 16) →
        fs'.file.data i = fs.file.data i := by
  unfold Filesystem.RemoveChild at h
  cases hdir : node.isDir with
  | false => rw [hdir] at h; simp [Bind.bind, Except.bind, throw, throwThe, MonadExceptOf.throw] at h
  | true =>
    rw [hdir] at h
    simp only [Bool.not_true, Bool.false_eq_true, if_false, Bind.bind, Except.bind, pure,
      Except.pure] at h
    cases hsb : fs.dirScanBlocks node with
    | error e => rw [hsb] at h; simp at h
    | ok blocks =>
      rw [hsb] at h
      simp only [] at h
      cases hfold : blocks.foldlM (fs.scanStep childNode) (none, none) with
      | error e => rw [hfold] at h; simp at h
      | ok res =>
        rw [hfold] at h
        simp only [] at h
        obtain ⟨t?, l?⟩ := res
        match t?, l? with
        | none, _ =>
          simp [throw, throwThe, MonadExceptOf.throw] at h
        | some t, none =>
          simp [throw, throwThe, MonadExceptOf.throw] at h
        | some t, some l =>
          dsimp only at h
          have hmem := scanFold_block_mem fs childNode blocks (none, none) (some t, some l) hfold
          have htmem : t.block ∈ blocks := by
            rcases hmem.1 t rfl with h1 | h1
            · cases h1
            · exact h1
          have hlmem : l.block ∈ blocks := by
            rcases hmem.2 l rfl with h1 | h1
            · cases h1
            · exact h1
          by_cases hsame : t.block = l.block ∧ t.index = l.index
          · rw [if_pos hsame] at h
            simp only [pure, Except.pure, Except.ok.injEq] at h
            subst h
            refine ⟨rfl, rfl, rfl, rfl, rfl, blocks, t, l, rfl, hfold, htmem, hlmem, ?_⟩
            intro i hti hli
            simp only [Filesystem.entrySlotStart] at hli
            rw [DiskFile.data_WriteBytes, List.length_replicate, if_neg hli]
          · rw [if_neg hsame] at h
            by_cases hlen :
              (fs.file.ReadBytes
                (fs.superblock.dataBlocksOffset + l.block * fs.superblock.blockSize +
                  l.index * 16) 16).length = 16
            · rw [if_neg (by simpa using hlen)] at h
              simp only [pure, Except.pure, Except.ok.injEq, Bind.bind, Except.bind] at h
              subst h
              refine ⟨rfl, rfl, rfl, rfl, rfl, blocks, t, l, rfl, hfold, htmem, hlmem, ?_⟩
              intro i hti hli
              simp only [Filesystem.entrySlotStart] at hti hli
              rw [DiskFile.data_WriteBytes, List.length_replicate, if_neg hli,
                DiskFile.data_WriteBytes, hlen, if_neg hti]
            · rw [if_pos (by simpa using hlen)] at h
              simp [throw, throwThe, MonadExceptOf.throw, Bind.bind, Except.bind] at h

/-- Witness for `removeChild_frame`: removing the entry of child inode 1
from the root directory of `fsC8pre` leaves both bitmaps and a data byte
outside the two compaction slots (offset 2000, inside the file's content
block) unchanged. -/
theorem removeChild_frame_witness :
    fsC9res.INodeBitmap = fsC8pre.INodeBitmap ∧
    fsC9res.BlockBitmap = fsC8pre.BlockBitmap ∧
    fsC9res.file.data 2000 = fsC8pre.file.data 2000 := by
  have hok : fsC8pre.RemoveChild fsC8pre.currentNode 1 = .ok fsC9res := rfl
  have main := removeChild_frame fsC8pre fsC8pre.currentNode 1 fsC9res hok
  refine ⟨main.2.1, main.2.2.1, ?_⟩
  obtain ⟨blocks, t, l, hblocks, hfold, _, _, hframe⟩ := main.2.2.2.2.2
  have h0 : fsC8pre.dirScanBlocks fsC8pre.currentNode = .ok [0] := rfl
  rw [h0] at hblocks
  injection hblocks with h1
  subst h1
  have h2 : List.foldlM (fsC8pre.scanStep 1) (none, none) [0] =
      .ok (some (⟨0, 2⟩ : EntryLoc), some (⟨0, 2⟩ : EntryLoc)) := rfl
  rw [h2] at hfold
  simp only [Except.ok.injEq, Prod.mk.injEq, Option.some.injEq] at hfold
  obtain ⟨ht, hl⟩ := hfold
  subst ht
  subst hl
  exact hframe 2000 (by decide) (by decide)

/-! ## Bitmap bit-access lemmas -/

theorem Bitmap.Get_eq_testBit (b : Bitmap) (i : Nat) :
    b.Get i = (b.data.getD (i / 8) 0).testBit (i % 8) := by
  rw [Bitmap.Get, Nat.testBit_to_div_mod]

theorem byte255_testBit {k : Nat} (hk : k < 8) : (255 : Nat).testBit k = true := by
  have h : (255 : Nat) = 2 ^ 8 - 1 := rfl
  rw [h, Nat.testBit_two_pow_sub_one]
  simpa using hk

theorem Bitmap.size_Set (b : Bitmap) (i : Nat) (v : Bool) : (b.Set i v).size = b.size := rfl

theorem Bitmap.Get_Set_self_false (b : Bitmap) (i : Nat) :
    (b.Set i false).Get i = false := by
  have hk : i % 8 < 8 := Nat.mod_lt _ (by norm_num)
  rw [Bitmap.Get_eq_testBit]
  simp only [Bitmap.Set, Bool.false_eq_true, if_false]
  by_cases hlen : i / 8 < b.data.length
  · rw [List.getD_eq_getElem?_getD, List.getElem?_set_self hlen, Option.getD_some,
      Nat.testBit_and, Nat.testBit_xor, Nat.testBit_two_pow_self, byte255_testBit hk]
    simp
  · rw [List.set_eq_of_length_le (by omega), List.getD_eq_getElem?_getD,
      List.getElem?_eq_none (by omega)]
    simp

theorem Bitmap.Get_Set_ne (b : Bitmap) {i j : Nat} (v : Bool) (h : j ≠ i) :
    (b.Set i v).Get j = b.Get j := by
  have hk : j % 8 < 8 := Nat.mod_lt _ (by norm_num)
  rw [Bitmap.Get_eq_testBit, Bitmap.Get_eq_testBit]
  simp only [Bitmap.Set]
  by_cases hbyte : j / 8 = i / 8
  · have hbit : j % 8 ≠ i % 8 := by
      intro he
      apply h
      omega
    rw [hbyte]
    by_cases hlen : i / 8 < b.data.length
    · rw [List.getD_eq_getElem?_getD, List.getElem?_set_self hlen, Option.getD_some,
        List.getD_eq_getElem?_getD]
      cases v
      · simp only [Bool.false_eq_true, if_false]
        rw [Nat.testBit_and, Nat.testBit_xor, byte255_testBit hk,
          Nat.testBit_two_pow_of_ne fun he => hbit he.symm]
        simp
      · simp only [if_true]
        rw [Nat.testBit_or, Nat.testBit_two_pow_of_ne fun he => hbit he.symm]
        simp
    · rw [List.set_eq_of_length_le (by omega)]
  · rw [List.getD_eq_getElem?_getD, List.getD_eq_getElem?_getD,
      List.getElem?_set_ne fun he => hbyte he.symm, ← List.getD_eq_getElem?_getD]

/-! ## Length bounds of the block parsers and records -/

theorem parseIdsAux_length_le (fuel : Nat) :
    ∀ data : List Nat, (parseIdsAux fuel data).length * 4 ≤ data.length := by
  induction fuel with
  | zero => intro data; simp [parseIdsAux]
  | succ fuel ih =>
    intro data
    rw [parseIdsAux]
    split
    · dsimp only
      split
      · simp
      · have hrec := ih (data.drop 4)
        simp only [List.length_cons, List.length_drop] at hrec ⊢
        omega
    · simp

theorem parseIds_length_le (data : List Nat) : (parseIds data).length * 4 ≤ data.length :=
  parseIdsAux_length_le data.length data

theorem parseEntriesAux_length_le (fuel : Nat) :
    ∀ data : List Nat, (parseEntriesAux fuel data).length * 16 ≤ data.length := by
  induction fuel with
  | zero => intro data; simp [parseEntriesAux]
  | succ fuel ih =>
    intro data
    rw [parseEntriesAux]
    split
    · dsimp only
      split
      · simp
      · have hrec := ih (data.drop 16)
        simp only [List.length_cons, List.length_drop] at hrec ⊢
        omega
    · simp

theorem parseEntries_length_le (data : List Nat) :
    (parseEntries data).length * 16 ≤ data.length :=
  parseEntriesAux_length_le data.length data

theorem replaceFirst_length : ∀ (l : List Nat) (a b l' : _),
    replaceFirst l a b = some l' → l'.length = l.length
  | [], _, _, _, h => by simp [replaceFirst] at h
  | x :: rest, a, b, l', h => by
    rw [replaceFirst] at h
    by_cases hx : x = a
    · rw [if_pos hx] at h
      cases h
      rfl
    · rw [if_neg hx] at h
      cases hrec : replaceFirst rest a b with
      | none => rw [hrec] at h; simp at h
      | some l2 =>
        rw [hrec] at h
        simp only [Option.map_some', Option.some.injEq] at h
        subst h
        have := replaceFirst_length rest a b l2 hrec
        simp [this]

theorem INode.ToBytes_length (n : INode) (h : n.direct.length = 5) :
    n.ToBytes.length = 41 := by
  have hflat : ((n.direct.map writeUInt32).flatten).length = 20 := by
    rw [List.length_flatten, List.map_map]
    have hconst : (List.length ∘ writeUInt32) = fun _ : Nat => 4 := rfl
    rw [hconst, List.map_const']
    simp [h]
  simp [INode.ToBytes, writeUInt32, hflat]

/-! ## Disjointness of distinct block byte ranges -/

theorem blockByte_notin_blockRange {base bs b1 b2 i : Nat} (h : b1 ≠ b2) (hi : i < bs) :
    ¬(base + b2 * bs ≤ base + b1 * bs + i ∧ base + b1 * bs + i < base + b2 * bs + bs) := by
  rintro ⟨h1, h2⟩
  rcases Nat.lt_or_ge b1 b2 with hlt | hge
  · have hm : b1 * bs + bs ≤ b2 * bs := by
      have := Nat.mul_le_mul_right bs (Nat.succ_le_of_lt hlt)
      simpa [Nat.succ_mul] using this
    omega
  · have hlt2 : b2 < b1 := Nat.lt_of_le_of_ne hge fun he => h he.symm
    have hm : b2 * bs + bs ≤ b1 * bs := by
      have := Nat.mul_le_mul_right bs (Nat.succ_le_of_lt hlt2)
      simpa [Nat.succ_mul] using this
    omega

/-! ## Frame lemmas for `RemoveFromBlockIdTable` -/

theorem removeFromBlockIdTable_not_found (fs : Filesystem) (tableBlock value : Nat)
    (fs1 : Filesystem) (h : fs.RemoveFromBlockIdTable tableBlock value = .ok (false, fs1)) :
    fs1 = fs := by
  unfold Filesystem.RemoveFromBlockIdTable at h
  cases hrd : fs.ReadBlockAsBlockIds tableBlock with
  | error e => rw [hrd] at h; simp [Bind.bind, Except.bind] at h
  | ok ids =>
    rw [hrd] at h
    simp only [Bind.bind, Except.bind] at h
    by_cases he : ids.isEmpty
    · rw [if_pos he] at h
      simp only [pure, Except.pure, Except.ok.injEq, Prod.mk.injEq] at h
      exact h.2.symm
    · rw [if_neg he] at h
      cases hidx : ids.findIdx? (· = value) with
      | none =>
        rw [hidx] at h
        simp only [pure, Except.pure, Except.ok.injEq, Prod.mk.injEq] at h
        exact h.2.symm
      | some target =>
        rw [hidx] at h
        dsimp only at h
        by_cases htl : target ≠ ids.length - 1
        · rw [if_pos htl] at h
          simp only [Bind.bind, Except.bind, pure, Except.pure, Except.ok.injEq,
            Prod.mk.injEq] at h
          exact absurd h.1 (by simp)
        · rw [if_neg htl] at h
          simp only [Bind.bind, Except.bind, pure, Except.pure, Except.ok.injEq,
            Prod.mk.injEq] at h
          exact absurd h.1 (by simp)

theorem removeFromBlockIdTable_frame (fs : Filesystem) (tableBlock value : Nat) (found : Bool)
    (fs1 : Filesystem) (h : fs.RemoveFromBlockIdTable tableBlock value = .ok (found, fs1)) :
    fs1.superblock = fs.superblock ∧ fs1.INodeBitmap = fs.INodeBitmap ∧
    fs1.BlockBitmap = fs.BlockBitmap ∧ fs1.currentNode = fs.currentNode ∧
    fs1.formated = fs.formated ∧
    ∀ i, ¬(fs.superblock.dataBlocksOffset + tableBlock * fs.superblock.blockSize ≤ i ∧
        i < fs.superblock.dataBlocksOffset + tableBlock * fs.superblock.blockSize +
          fs.superblock.blockSize) →
      fs1.file.data i = fs.file.data i := by
  cases found with
  | false =>
    have := removeFromBlockIdTable_not_found fs tableBlock value fs1 h
    subst this
    exact ⟨rfl, rfl, rfl, rfl, rfl, fun i _ => rfl⟩
  | true =>
    unfold Filesystem.RemoveFromBlockIdTable at h
    cases hrd : fs.ReadBlockAsBlockIds tableBlock with
    | error e => rw [hrd] at h; simp [Bind.bind, Except.bind] at h
    | ok ids =>
      rw [hrd] at h
      simp only [Bind.bind, Except.bind] at h
      have hidslen : ids.length * 4 ≤ fs.superblock.blockSize := by
        unfold Filesystem.ReadBlockAsBlockIds at hrd
        by_cases hlen : (fs.file.ReadBytes
            (fs.superblock.dataBlocksOffset + fs.superblock.blockSize * tableBlock)
            fs.superblock.blockSize).length ≠ fs.superblock.blockSize
        · rw [if_pos hlen] at hrd; cases hrd
        · rw [if_neg hlen] at hrd
          push_neg at hlen
          cases hrd
          calc (parseIds _).length * 4 ≤ _ := parseIds_length_le _
            _ = fs.superblock.blockSize := hlen
      by_cases he : ids.isEmpty
      · rw [if_pos he] at h
        simp only [pure, Except.pure, Except.ok.injEq, Prod.mk.injEq] at h
        exact absurd h.1 (by simp)
      · rw [if_neg he] at h
        cases hidx : ids.findIdx? (· = value) with
        | none =>
          rw [hidx] at h
          simp only [pure, Except.pure, Except.ok.injEq, Prod.mk.injEq] at h
          exact absurd h.1 (by simp)
        | some target =>
          rw [hidx] at h
          dsimp only at h
          have htarget : target < ids.length := by
            have := List.findIdx?_eq_some_iff_findIdx_eq.mp hidx
            exact this.1
          have hpos : 0 < ids.length := by
            cases ids with
            | nil => simp at he
            | cons a l => simp
          by_cases htl : target ≠ ids.length - 1
          · rw [if_pos htl] at h
            simp only [Bind.bind, Except.bind, pure, Except.pure, Except.ok.injEq,
              Prod.mk.injEq] at h
            have hfs1 := h.2
            subst hfs1
            refine ⟨rfl, rfl, rfl, rfl, rfl, fun i hout => ?_⟩
            have hrblen : (fs.file.ReadBytes
                (fs.superblock.dataBlocksOffset + tableBlock * fs.superblock.blockSize +
                  (ids.length - 1) * 4) 4).length ≤ 4 :=
              DiskFile.ReadBytes_length_le _ _ _
            rw [DiskFile.data_WriteBytes_outside _ _ _ (by
              rintro ⟨ha, hb⟩
              simp only [List.length_replicate] at hb
              exact hout ⟨by omega, by omega⟩)]
            rw [DiskFile.data_WriteBytes_outside _ _ _ (by
              rintro ⟨ha, hb⟩
              exact hout ⟨by omega, by omega⟩)]
          · rw [if_neg htl] at h
            simp only [Bind.bind, Except.bind, pure, Except.pure, Except.ok.injEq,
              Prod.mk.injEq] at h
            have hfs1 := h.2
            subst hfs1
            refine ⟨rfl, rfl, rfl, rfl, rfl, fun i hout => ?_⟩
            rw [DiskFile.data_WriteBytes_outside _ _ _ (by
              rintro ⟨ha, hb⟩
              simp only [List.length_replicate] at hb
              exact hout ⟨by omega, by omega⟩)]

/-! ## Pointwise effect of `FreeBlock` and `writeINode` -/

theorem getD_replicate_zero (n k : Nat) : (List.replicate n (0 : Nat)).getD k 0 = 0 := by
  rw [List.getD_eq_getElem?_getD, List.getElem?_replicate]
  split <;> rfl

theorem Filesystem.FreeBlock_data_zero (fs : Filesystem) (block i : Nat)
    (hi : i < fs.superblock.blockSize) :
    (fs.FreeBlock block).file.data
      (fs.superblock.dataBlocksOffset + block * fs.superblock.blockSize + i) = 0 := by
  show (fs.file.WriteBytes _ _).data _ = 0
  rw [DiskFile.data_WriteBytes_inside _ _ _ (by omega)
    (by simp only [List.length_replicate]; omega)]
  exact getD_replicate_zero _ _

theorem Filesystem.FreeBlock_data_outside (fs : Filesystem) (block : Nat) {i : Nat}
    (h : ¬(fs.superblock.dataBlocksOffset + block * fs.superblock.blockSize ≤ i ∧
      i < fs.superblock.dataBlocksOffset + block * fs.superblock.blockSize +
        fs.superblock.blockSize)) :
    (fs.FreeBlock block).file.data i = fs.file.data i := by
  show (fs.file.WriteBytes _ _).data i = fs.file.data i
  exact DiskFile.data_WriteBytes_outside _ _ _
    (by simpa only [List.length_replicate] using h)

theorem Filesystem.writeINode_data_low (fs : Filesystem) (node : INode) {i : Nat}
    (hd5 : node.direct.length = 5)
    (h : fs.superblock.inodeTableOffset + (node.id + 1) * INode.BYTES ≤ i) :
    (fs.writeINode node).file.data i = fs.file.data i := by
  show (fs.file.WriteBytes _ _).data i = fs.file.data i
  refine DiskFile.data_WriteBytes_outside _ _ _ ?_
  rw [INode.ToBytes_length node hd5]
  rintro ⟨h1, h2⟩
  simp only [INode.BYTES] at h h1 h2
  omega

/-! ## Claim C10 -/

theorem Filesystem.eq_update_file (fs fs1 : Filesystem)
    (h1 : fs1.superblock = fs.superblock) (h2 : fs1.INodeBitmap = fs.INodeBitmap)
    (h3 : fs1.BlockBitmap = fs.BlockBitmap) (h4 : fs1.currentNode = fs.currentNode)
    (h5 : fs1.formated = fs.formated) :
    fs1 = { fs with file := fs1.file } := by
  cases fs1
  cases fs
  simp_all

theorem removeFromBlockIdTable_shape (fs : Filesystem) (tableBlock value : Nat) (found : Bool)
    (fs1 : Filesystem) (h : fs.RemoveFromBlockIdTable tableBlock value = .ok (found, fs1)) :
    ∃ f1, fs1 = { fs with file := f1 } ∧
      ∀ i, ¬(fs.superblock.dataBlocksOffset + tableBlock * fs.superblock.blockSize ≤ i ∧
          i < fs.superblock.dataBlocksOffset + tableBlock * fs.superblock.blockSize +
            fs.superblock.blockSize) →
        f1.data i = fs.file.data i := by
  obtain ⟨h1, h2, h3, h4, h5, h6⟩ := removeFromBlockIdTable_frame fs tableBlock value found fs1 h
  exact ⟨fs1.file, Filesystem.eq_update_file fs fs1 h1 h2 h3 h4 h5, h6⟩

theorem Filesystem.FreeBlock_keeps_zeros (S : Filesystem) (c tb i : Nat)
    (hz : tb ≠ c →
      S.file.data (S.superblock.dataBlocksOffset + tb * S.superblock.blockSize + i) = 0)
    (hi : i < S.superblock.blockSize) :
    (S.FreeBlock c).file.data
      (S.superblock.dataBlocksOffset + tb * S.superblock.blockSize + i) = 0 := by
  by_cases htc : tb = c
  · subst htc
    exact S.FreeBlock_data_zero tb i hi
  · rw [S.FreeBlock_data_outside c (blockByte_notin_blockRange htc hi)]
    exact hz htc

theorem deattachPtrLoop_frees (fs : Filesystem) (node : INode) (ind2 b : Nat)
    (hd5 : node.direct.length = 5)
    (hgeo : fs.superblock.inodeTableOffset + (node.id + 1) * INode.BYTES ≤
      fs.superblock.dataBlocksOffset)
    (hne : b ≠ ind2) :
    ∀ (ptrs : List Nat) (node' : INode) (fs' : Filesystem),
      fs.deattachPtrLoop node ind2 b ptrs = .ok (some (node', fs')) →
      fs'.BlockBitmap.Get b = false ∧
      ∀ tb, (tb = b ∨ (fs.BlockBitmap.Get tb = true ∧ fs'.BlockBitmap.Get tb = false)) →
        ∀ i, i < fs.superblock.blockSize →
          fs'.file.data (fs.superblock.dataBlocksOffset + tb * fs.superblock.blockSize + i) = 0
  | [], node', fs', h => by simp [Filesystem.deattachPtrLoop] at h
  | ptr :: rest, node', fs', h => by
    rw [Filesystem.deattachPtrLoop] at h
    cases hstep : fs.RemoveFromBlockIdTable ptr b with
    | error e => rw [hstep] at h; simp [Bind.bind, Except.bind] at h
    | ok r =>
      obtain ⟨found, fs1⟩ := r
      rw [hstep] at h
      simp only [Bind.bind, Except.bind] at h
      cases found with
      | false =>
        have hfs1 : fs1 = fs := removeFromBlockIdTable_not_found fs ptr b fs1 hstep
        subst fs1
        simp only [Bool.not_false, if_true] at h
        exact deattachPtrLoop_frees fs node ind2 b hd5 hgeo hne rest node' fs' h
      | true =>
        simp only [Bool.not_true, Bool.false_eq_true, if_false] at h
        obtain ⟨f1, hfs1eq, hfile1⟩ := removeFromBlockIdTable_shape fs ptr b true fs1 hstep
        subst hfs1eq
        split at h
        · simp at h
        · split at h
          · -- the second-level table became empty: remove it from `ind2` and free it
            split at h
            · simp at h
            next r2 heq2 =>
              obtain ⟨found2, fsA⟩ := r2
              simp only [Bind.bind, Except.bind, pure, Except.pure] at h
              obtain ⟨fA, hfsAeq, hfileA⟩ :=
                removeFromBlockIdTable_shape _ ind2 ptr found2 fsA heq2
              subst hfsAeq
              split at h
              · simp at h
              · split at h
                · -- double-indirect table empty as well: free `ind2` too
                  simp only [Except.ok.injEq, Option.some.injEq, Prod.mk.injEq] at h
                  obtain ⟨hnode', hfs'⟩ := h
                  subst hnode'
                  subst hfs'
                  constructor
                  · show ((((fs.BlockBitmap.Set b false).Set ptr false).Set ind2 false)).Get b =
                      false
                    rw [Bitmap.Get_Set_ne _ _ hne]
                    by_cases hpb : b = ptr
                    · rw [hpb, Bitmap.Get_Set_self_false]
                    · rw [Bitmap.Get_Set_ne _ _ hpb, Bitmap.Get_Set_self_false]
                  · intro tb htb i hi
                    have hmem : tb = b ∨ tb = ptr ∨ tb = ind2 := by
                      rcases htb with rfl | ⟨htrue, hfalse⟩
                      · exact Or.inl rfl
                      · by_contra hc
                        push_neg at hc
                        have hf' : ((((fs.BlockBitmap.Set b false).Set ptr
                            false).Set ind2 false)).Get tb = false := hfalse
                        rw [Bitmap.Get_Set_ne _ _ hc.2.2, Bitmap.Get_Set_ne _ _ hc.2.1,
                          Bitmap.Get_Set_ne _ _ hc.1, htrue] at hf'
                        cases hf'
                    rw [Filesystem.writeINode_data_low _ _
                      (show (node.removeSecondLevelIndirectLink).direct.length = 5 from hd5)
                      (by simp only [INode.BYTES] at hgeo; simp only [Filesystem.FreeBlock, INode.removeSecondLevelIndirectLink, INode.BYTES]; omega)]
                    apply Filesystem.FreeBlock_keeps_zeros
                    · intro hne_ind2
                      apply Filesystem.FreeBlock_keeps_zeros
                      · intro hne_ptr
                        show fA.data _ = 0
                        rw [hfileA _ (blockByte_notin_blockRange hne_ind2 hi)]
                        apply Filesystem.FreeBlock_keeps_zeros
                        · intro hne_b
                          exfalso
                          rcases hmem with h1 | h1 | h1
                          · exact hne_b h1
                          · exact hne_ptr h1
                          · exact hne_ind2 h1
                        · exact hi
                      · exact hi
                    · exact hi
                · -- double-indirect table still non-empty
                  simp only [Except.ok.injEq, Option.some.injEq, Prod.mk.injEq] at h
                  obtain ⟨hnode', hfs'⟩ := h
                  subst hnode'
                  subst hfs'
                  constructor
                  · show (((fs.BlockBitmap.Set b false).Set ptr false)).Get b = false
                    by_cases hpb : b = ptr
                    · rw [hpb, Bitmap.Get_Set_self_false]
                    · rw [Bitmap.Get_Set_ne _ _ hpb, Bitmap.Get_Set_self_false]
                  · intro tb htb i hi
                    have hmem : tb = b ∨ tb = ptr := by
                      rcases htb with rfl | ⟨htrue, hfalse⟩
                      · exact Or.inl rfl
                      · by_contra hc
                        push_neg at hc
                        have hf' : (((fs.BlockBitmap.Set b false).Set ptr
                            false)).Get tb = false := hfalse
                        rw [Bitmap.Get_Set_ne _ _ hc.2, Bitmap.Get_Set_ne _ _ hc.1,
                          htrue] at hf'
                        cases hf'
                    rw [Filesystem.writeINode_data_low _ _ hd5
                      (by simp only [INode.BYTES] at hgeo; simp only [Filesystem.FreeBlock, INode.removeSecondLevelIndirectLink, INode.BYTES]; omega)]
                    apply Filesystem.FreeBlock_keeps_zeros
                    · intro hne_ptr
                      have htb_ind2 : tb ≠ ind2 := by
                        rcases hmem with h1 | h1
                        · rw [h1]; exact hne
                        · exact absurd h1 hne_ptr
                      show fA.data _ = 0
                      rw [hfileA _ (blockByte_notin_blockRange htb_ind2 hi)]
                      apply Filesystem.FreeBlock_keeps_zeros
                      · intro hne_b
                        exfalso
                        rcases hmem with h1 | h1
                        · exact hne_b h1
                        · exact hne_ptr h1
                      · exact hi
                    · exact hi
          · -- the second-level table still holds ids: only `b` is freed there
            simp only [pure, Except.pure] at h
            split at h
            · simp at h
            · split at h
              · -- double-indirect table empty: free `ind2`
                simp only [Except.ok.injEq, Option.some.injEq, Prod.mk.injEq] at h
                obtain ⟨hnode', hfs'⟩ := h
                subst hnode'
                subst hfs'
                constructor
                · show (((fs.BlockBitmap.Set b false)).Set ind2 false).Get b = false
                  rw [Bitmap.Get_Set_ne _ _ hne, Bitmap.Get_Set_self_false]
                · intro tb htb i hi
                  have hmem : tb = b ∨ tb = ind2 := by
                    rcases htb with rfl | ⟨htrue, hfalse⟩
                    · exact Or.inl rfl
                    · by_contra hc
                      push_neg at hc
                      have hf' : (((fs.BlockBitmap.Set b false)).Set ind2 false).Get tb =
                          false := hfalse
                      rw [Bitmap.Get_Set_ne _ _ hc.2, Bitmap.Get_Set_ne _ _ hc.1,
                        htrue] at hf'
                      cases hf'
                  rw [Filesystem.writeINode_data_low _ _
                    (show (node.removeSecondLevelIndirectLink).direct.length = 5 from hd5)
                    (by simp only [INode.BYTES] at hgeo; simp only [Filesystem.FreeBlock, INode.removeSecondLevelIndirectLink, INode.BYTES]; omega)]
                  apply Filesystem.FreeBlock_keeps_zeros
                  · intro hne_ind2
                    apply Filesystem.FreeBlock_keeps_zeros
                    · intro hne_b
                      exfalso
                      rcases hmem with h1 | h1
                      · exact hne_b h1
                      · exact hne_ind2 h1
                    · exact hi
                  · exact hi
              · -- nothing empties: only `b` is freed
                simp only [Except.ok.injEq, Option.some.injEq, Prod.mk.injEq] at h
                obtain ⟨hnode', hfs'⟩ := h
                subst hnode'
                subst hfs'
                constructor
                · show ((fs.BlockBitmap.Set b false)).Get b = false
                  exact Bitmap.Get_Set_self_false _ _
                · intro tb htb i hi
                  have hmem : tb = b := by
                    rcases htb with rfl | ⟨htrue, hfalse⟩
                    · rfl
                    · by_contra hc
                      have hf' : ((fs.BlockBitmap.Set b false)).Get tb = false := hfalse
                      rw [Bitmap.Get_Set_ne _ _ hc, htrue] at hf'
                      cases hf'
                  rw [Filesystem.writeINode_data_low _ _ hd5
                    (by simp only [INode.BYTES] at hgeo; simp only [Filesystem.FreeBlock, INode.removeSecondLevelIndirectLink, INode.BYTES]; omega)]
                  apply Filesystem.FreeBlock_keeps_zeros
                  · intro hne_b
                    exact absurd hmem hne_b
                  · exact hi

theorem removeDirectLink_ok (n : INode) (link : Nat) (n1 : INode)
    (h : n.removeDirectLink link = .ok n1) :
    n1.id = n.id ∧ n1.direct.length = n.direct.length := by
  unfold INode.removeDirectLink at h
  cases hrf : replaceFirst n.direct link UNUSED with
  | none => rw [hrf] at h; exact Except.noConfusion h
  | some d =>
    rw [hrf] at h
    injection h with h1
    subst h1
    exact ⟨rfl, replaceFirst_length _ _ _ _ hrf⟩

/-- Claim C10: whenever `DeattachBlock` finds block `b` in the inode's block
map and succeeds, it frees `b` itself — the block-bitmap bit of `b` is
cleared and every byte of `b`'s block range is overwritten with zeros — and
the same holds for every other block whose bitmap bit went from set to clear
during the call (an indirect-table block freed because it became empty). -/
theorem deattachBlock_frees_block (fs : Filesystem) (node : INode) (b : Nat)
    (node' : INode) (fs' : Filesystem)
    (hd5 : node.direct.length = 5)
    (hgeo : fs.superblock.inodeTableOffset + (node.id + 1) * INode.BYTES ≤
      fs.superblock.dataBlocksOffset)
    (hne2 : b ≠ node.indirect2)
    (h : fs.DeattachBlock node b = .ok (node', fs')) :
    fs'.BlockBitmap.Get b = false ∧
    ∀ tb, (tb = b ∨ (fs.BlockBitmap.Get tb = true ∧ fs'.BlockBitmap.Get tb = false)) →
      ∀ i, i < fs.superblock.blockSize →
        fs'.file.data (fs.superblock.dataBlocksOffset + tb * fs.superblock.blockSize + i) = 0 := by
  unfold Filesystem.DeattachBlock at h
  simp only [Bind.bind, Except.bind, pure, Except.pure] at h
  by_cases hdc : node.direct.contains b = true
  · -- found among the direct links
    rw [if_pos hdc] at h
    cases hrm : node.removeDirectLink b with
    | error e => rw [hrm] at h; exact Except.noConfusion h
    | ok node1 =>
      rw [hrm] at h
      simp only [Except.ok.injEq, Prod.mk.injEq] at h
      obtain ⟨hn, hf⟩ := h
      subst hn
      subst hf
      obtain ⟨hid, hlen⟩ := removeDirectLink_ok node b node1 hrm
      constructor
      · show ((fs.BlockBitmap.Set b false)).Get b = false
        exact Bitmap.Get_Set_self_false _ _
      · intro tb htb i hi
        have hmem : tb = b := by
          rcases htb with rfl | ⟨htrue, hfalse⟩
          · rfl
          · by_contra hc
            have hf2 : ((fs.BlockBitmap.Set b false)).Get tb = false := hfalse
            rw [Bitmap.Get_Set_ne _ _ hc, htrue] at hf2
            cases hf2
        subst hmem
        rw [Filesystem.writeINode_data_low _ _ (hd5 ▸ hlen)
          (by simp only [INode.BYTES] at hgeo; simp only [Filesystem.FreeBlock, INode.BYTES]; rw [hid]; omega)]
        exact Filesystem.FreeBlock_data_zero fs tb i hi
  · -- not a direct link
    rw [if_neg hdc] at h
    by_cases hi1 : node.indirect1 ≠ UNUSED
    · rw [if_pos hi1] at h
      cases hstep : fs.RemoveFromBlockIdTable node.indirect1 b with
      | error e => rw [hstep] at h; exact Except.noConfusion h
      | ok r =>
        obtain ⟨found, fs1⟩ := r
        rw [hstep] at h
        dsimp only at h
        by_cases hfound : found = true
        · -- found in the single-indirect table
          rw [if_pos hfound] at h
          obtain ⟨f1, hfs1eq, hfile1⟩ :=
            removeFromBlockIdTable_shape fs node.indirect1 b found fs1 hstep
          subst hfs1eq
          split at h
          · exact Except.noConfusion h
          · split at h
            · -- the table became empty: it is freed along with `b`
              simp only [Except.ok.injEq, Prod.mk.injEq] at h
              obtain ⟨hn, hf⟩ := h
              subst hn
              subst hf
              constructor
              · show (((fs.BlockBitmap.Set b false)).Set node.indirect1 false).Get b = false
                by_cases hbi : b = node.indirect1
                · rw [hbi, Bitmap.Get_Set_self_false]
                · rw [Bitmap.Get_Set_ne _ _ hbi, Bitmap.Get_Set_self_false]
              · intro tb htb i hi
                have hmem : tb = b ∨ tb = node.indirect1 := by
                  rcases htb with rfl | ⟨htrue, hfalse⟩
                  · exact Or.inl rfl
                  · by_contra hc
                    push_neg at hc
                    have hf2 : (((fs.BlockBitmap.Set b false)).Set node.indirect1
                        false).Get tb = false := hfalse
                    rw [Bitmap.Get_Set_ne _ _ hc.2, Bitmap.Get_Set_ne _ _ hc.1,
                      htrue] at hf2
                    cases hf2
                rw [Filesystem.writeINode_data_low _ _
                  (show (node.removeFirstLevelIndirectLink).direct.length = 5 from hd5)
                  (by simp only [INode.BYTES] at hgeo; simp only [Filesystem.FreeBlock, INode.removeFirstLevelIndirectLink, INode.BYTES]; omega)]
                apply Filesystem.FreeBlock_keeps_zeros
                · intro hne_i1
                  apply Filesystem.FreeBlock_keeps_zeros
                  · intro hne_b
                    exfalso
                    rcases hmem with h1 | h1
                    · exact hne_b h1
                    · exact hne_i1 h1
                  · exact hi
                · exact hi
            · -- the table still holds ids: only `b` is freed
              simp only [Except.ok.injEq, Prod.mk.injEq] at h
              obtain ⟨hn, hf⟩ := h
              subst hn
              subst hf
              constructor
              · show ((fs.BlockBitmap.Set b false)).Get b = false
                exact Bitmap.Get_Set_self_false _ _
              · intro tb htb i hi
                have hmem : tb = b := by
                  rcases htb with rfl | ⟨htrue, hfalse⟩
                  · rfl
                  · by_contra hc
                    have hf2 : ((fs.BlockBitmap.Set b false)).Get tb = false := hfalse
                    rw [Bitmap.Get_Set_ne _ _ hc, htrue] at hf2
                    cases hf2
                subst hmem
                rw [Filesystem.writeINode_data_low _ _ hd5
                  (by simp only [INode.BYTES] at hgeo; simp only [Filesystem.FreeBlock, INode.BYTES]; omega)]
                apply Filesystem.FreeBlock_keeps_zeros
                · intro hne_b
                  exact absurd rfl hne_b
                · exact hi
        · -- not found in the single-indirect table: fall through to the loop
          rw [if_neg hfound] at h
          have hffalse : found = false := by
            cases found
            · rfl
            · exact absurd rfl hfound
          subst hffalse
          have hfs1 : fs1 = fs := removeFromBlockIdTable_not_found fs _ b fs1 hstep
          subst fs1
          by_cases hi2 : node.indirect2 ≠ UNUSED
          · rw [if_pos hi2] at h
            cases hptrs : fs.ReadBlockAsBlockIds node.indirect2 with
            | error e => rw [hptrs] at h; exact Except.noConfusion h
            | ok ptrs =>
              rw [hptrs] at h
              dsimp only at h
              cases hloop : fs.deattachPtrLoop node node.indirect2 b ptrs with
              | error e => rw [hloop] at h; exact Except.noConfusion h
              | ok r =>
                rw [hloop] at h
                cases r with
                | none => exact Except.noConfusion h
                | some result =>
                  obtain ⟨rn, rf⟩ := result
                  simp only [Except.ok.injEq, Prod.mk.injEq] at h
                  obtain ⟨hn, hf⟩ := h
                  subst hn
                  subst hf
                  exact deattachPtrLoop_frees fs node node.indirect2 b hd5 hgeo hne2
                    ptrs rn rf hloop
          · rw [if_neg hi2] at h
            exact Except.noConfusion h
    · -- no single-indirect table at all
      rw [if_neg hi1] at h
      by_cases hi2 : node.indirect2 ≠ UNUSED
      · rw [if_pos hi2] at h
        cases hptrs : fs.ReadBlockAsBlockIds node.indirect2 with
        | error e => rw [hptrs] at h; exact Except.noConfusion h
        | ok ptrs =>
          rw [hptrs] at h
          dsimp only at h
          cases hloop : fs.deattachPtrLoop node node.indirect2 b ptrs with
          | error e => rw [hloop] at h; exact Except.noConfusion h
          | ok r =>
            rw [hloop] at h
            cases r with
            | none => exact Except.noConfusion h
            | some result =>
              obtain ⟨rn, rf⟩ := result
              simp only [Except.ok.injEq, Prod.mk.injEq] at h
              obtain ⟨hn, hf⟩ := h
              subst hn
              subst hf
              exact deattachPtrLoop_frees fs node node.indirect2 b hd5 hgeo hne2
                ptrs rn rf hloop
      · rw [if_neg hi2] at h
        exact Except.noConfusion h

/-! ## Claim C5 -/

theorem DiskFile.ReadBytes_map (f : DiskFile) (off size : Nat) (h : off + size ≤ f.len) :
    f.ReadBytes off size = (List.range size).map fun i => f.data (off + i) := by
  have hm : min size (f.len - off) = size := by omega
  show (List.range (min size (f.len - off))).map _ = _
  rw [hm]

theorem getD_replicate_of_lt (n k c : Nat) (h : k < n) :
    (List.replicate n c).getD k 0 = c := by
  rw [List.getD_eq_getElem?_getD, List.getElem?_replicate, if_pos h]
  rfl

theorem Bitmap.Get_init_false (n j : Nat) : (Bitmap.init n).Get j = false := by
  rw [Bitmap.Get_eq_testBit]
  show ((List.replicate ((n + 7) / 8) 0).getD (j / 8) 0).testBit (j % 8) = false
  rw [getD_replicate_zero]
  exact Nat.zero_testBit _

theorem Bitmap.FindFirstFree_fresh (n : Nat) (hn : 0 < n) :
    (Bitmap.init n).FindFirstFree = some 0 := by
  obtain ⟨m, rfl⟩ : ∃ m, n = m + 1 := ⟨n - 1, by omega⟩
  show (List.range (m + 1)).find? (fun i => !(Bitmap.init (m + 1)).Get i) = some 0
  rw [List.range_eq_range', List.range'_succ]
  refine List.find?_cons_of_pos _ ?_
  show (!(Bitmap.init (m + 1)).Get 0) = true
  rw [Bitmap.Get_init_false]
  rfl

theorem Bitmap.Get_Set_true_self (b : Bitmap) (i : Nat) (h : i / 8 < b.data.length) :
    (b.Set i true).Get i = true := by
  rw [Bitmap.Get_eq_testBit]
  simp only [Bitmap.Set, if_true]
  rw [List.getD_eq_getElem?_getD, List.getElem?_set_self h, Option.getD_some,
    Nat.testBit_or, Nat.testBit_two_pow_self]
  simp

theorem parseEntriesAux_succ (fuel : Nat) (data : List Nat) :
    parseEntriesAux (fuel + 1) data =
      if 16 ≤ data.length then
        if readUInt32 ((data.drop 12).take 4) = UNUSED then []
        else ⟨String.mk ((((data.take 12).takeWhile (· ≠ 0)).map Char.ofNat)),
              readUInt32 ((data.drop 12).take 4)⟩ :: parseEntriesAux fuel (data.drop 16)
      else [] := rfl

theorem parseEntriesAux_stop (fuel : Nat) (data : List Nat) (hf : 1 ≤ fuel)
    (h16 : 16 ≤ data.length)
    (hid : readUInt32 ((data.drop 12).take 4) = UNUSED) :
    parseEntriesAux fuel data = [] := by
  obtain ⟨m, rfl⟩ : ∃ m, fuel = m + 1 := ⟨fuel - 1, by omega⟩
  rw [parseEntriesAux_succ, if_pos h16, if_pos hid]

theorem parseEntries_stop (data : List Nat) (h16 : 16 ≤ data.length)
    (hid : readUInt32 ((data.drop 12).take 4) = UNUSED) :
    parseEntries data = [] :=
  parseEntriesAux_stop data.length data (by omega) h16 hid

theorem parseEntries_single (data : List Nat) (h32 : 32 ≤ data.length)
    (hid : readUInt32 ((data.drop 12).take 4) ≠ UNUSED)
    (hid2 : readUInt32 (((data.drop 16).drop 12).take 4) = UNUSED) :
    ∃ e, parseEntries data = [e] := by
  refine ⟨⟨String.mk ((((data.take 12).takeWhile (· ≠ 0)).map Char.ofNat)),
    readUInt32 ((data.drop 12).take 4)⟩, ?_⟩
  show parseEntriesAux data.length data = _
  obtain ⟨m, hm⟩ : ∃ m, data.length = m + 1 := ⟨data.length - 1, by omega⟩
  rw [hm, parseEntriesAux_succ, if_pos (by omega), if_neg hid]
  rw [parseEntriesAux_stop m (data.drop 16) (by omega)
    (by simp only [List.length_drop]; omega) hid2]

theorem AllocateNode_fresh (f : DiskFile) (sb : Superblock) (cn : INode) (fm : Bool)
    (blocks inodes : Nat) (hb : 0 < blocks) (hin : 0 < inodes) :
    (Filesystem.mk f sb (Bitmap.init inodes) (Bitmap.init blocks) cn fm).AllocateNode true =
      .ok (some rootNode0, Filesystem.mk
        (((f.WriteBytes (sb.dataBlocksOffset + 0 * sb.blockSize)
            (List.replicate sb.blockSize 255)).WriteBytes
          (sb.inodeTableOffset + 0 * INode.BYTES) rootNode0.ToBytes).WriteBytes
          (sb.inodeTableOffset + 0 * INode.BYTES) rootNode0.ToBytes)
        sb ((Bitmap.init inodes).Set 0 true) ((Bitmap.init blocks).Set 0 true) cn fm) := by
  simp only [Filesystem.AllocateNode, Filesystem.AllocateBlock,
    Bitmap.FindFirstFree_fresh inodes hin, Bitmap.FindFirstFree_fresh blocks hb]
  rfl

theorem AddChild_dot_fresh (F1 : DiskFile) (sb : Superblock) (ib bb : Bitmap) (fm : Bool)
    (hbs : sb.blockSize = 1024)
    (hlen : sb.dataBlocksOffset + 1024 ≤ F1.len)
    (hff : ∀ k, 12 ≤ k → k < 16 → F1.data (sb.dataBlocksOffset + k) = 255) :
    (Filesystem.mk F1 sb ib bb rootNode0 fm).AddChild rootNode0 "." 0 =
      .ok (rootNode0, Filesystem.mk
        ((F1.WriteBytes (sb.dataBlocksOffset + 0 * sb.blockSize + 0 * 16)
            (addChildPayload "." 0)).WriteBytes
          (sb.inodeTableOffset + 0 * INode.BYTES) rootNode0.ToBytes)
        sb ib bb rootNode0 fm) := by
  have hread : (Filesystem.mk F1 sb ib bb rootNode0 fm).ReadBlockAsSubdirectories 0 =
      .ok [] := by
    unfold Filesystem.ReadBlockAsSubdirectories
    dsimp only
    rw [hbs]
    simp only [Nat.mul_zero, Nat.add_zero]
    rw [DiskFile.ReadBytes_map F1 sb.dataBlocksOffset 1024 (by omega)]
    rw [if_neg (by intro hC; apply hC; simp only [List.length_map, List.length_range])]
    rw [parseEntries_stop _ (by simp only [List.length_map, List.length_range]; omega) (by
      rw [← List.map_drop, ← List.map_take,
        show ((List.range 1024).drop 12).take 4 = [12, 13, 14, 15] from rfl]
      simp only [List.map_cons, List.map_nil]
      rw [hff 12 (by omega) (by omega), hff 13 (by omega) (by omega),
        hff 14 (by omega) (by omega), hff 15 (by omega) (by omega)]
      rfl)]
  simp only [rootNode0, UNUSED] at hread
  unfold Filesystem.AddChild Filesystem.addChildDirect
  simp only [rootNode0, UNUSED, Bool.not_true, Bind.bind, Except.bind, pure, Except.pure]
  rw [hread]
  rw [hbs]
  rfl

theorem AddChild_dotdot_fresh (F2 : DiskFile) (sb : Superblock) (ib bb : Bitmap) (fm : Bool)
    (hbs : sb.blockSize = 1024)
    (hlen : sb.dataBlocksOffset + 1024 ≤ F2.len)
    (h0 : ∀ k, 12 ≤ k → k < 16 → F2.data (sb.dataBlocksOffset + k) = 0)
    (h255 : ∀ k, 28 ≤ k → k < 32 → F2.data (sb.dataBlocksOffset + k) = 255) :
    (Filesystem.mk F2 sb ib bb rootNode0 fm).AddChild rootNode0 ".." 0 =
      .ok (rootNode0, Filesystem.mk
        ((F2.WriteBytes (sb.dataBlocksOffset + 0 * sb.blockSize + 1 * 16)
            (addChildPayload ".." 0)).WriteBytes
          (sb.inodeTableOffset + 0 * INode.BYTES) rootNode0.ToBytes)
        sb ib bb rootNode0 fm) := by
  have hread : ∃ e, (Filesystem.mk F2 sb ib bb rootNode0 fm).ReadBlockAsSubdirectories 0 =
      .ok [e] := by
    unfold Filesystem.ReadBlockAsSubdirectories
    dsimp only
    rw [hbs]
    simp only [Nat.mul_zero, Nat.add_zero]
    rw [DiskFile.ReadBytes_map F2 sb.dataBlocksOffset 1024 (by omega)]
    rw [if_neg (by intro hC; apply hC; simp only [List.length_map, List.length_range])]
    obtain ⟨e, he⟩ := parseEntries_single
      ((List.range 1024).map fun i => F2.data (sb.dataBlocksOffset + i))
      (by simp only [List.length_map, List.length_range]; omega)
      (by
        rw [← List.map_drop, ← List.map_take,
          show ((List.range 1024).drop 12).take 4 = [12, 13, 14, 15] from rfl]
        simp only [List.map_cons, List.map_nil]
        rw [h0 12 (by omega) (by omega), h0 13 (by omega) (by omega),
          h0 14 (by omega) (by omega), h0 15 (by omega) (by omega)]
        decide)
      (by
        rw [← List.map_drop, ← List.map_drop, ← List.map_take,
          show (((List.range 1024).drop 16).drop 12).take 4 = [28, 29, 30, 31] from rfl]
        simp only [List.map_cons, List.map_nil]
        rw [h255 28 (by omega) (by omega), h255 29 (by omega) (by omega),
          h255 30 (by omega) (by omega), h255 31 (by omega) (by omega)]
        rfl)
    exact ⟨e, by rw [he]⟩
  obtain ⟨e, hread⟩ := hread
  simp only [rootNode0, UNUSED] at hread
  unfold Filesystem.AddChild Filesystem.addChildDirect
  simp only [rootNode0, UNUSED, Bool.not_true, Bind.bind, Except.bind, pure, Except.pure]
  rw [hread]
  rw [hbs]
  rfl

theorem payload_dot_getD_zero (idx : Nat) (h1 : 1 ≤ idx) :
    (addChildPayload "." 0).getD idx 0 = 0 := by
  obtain ⟨j, rfl⟩ : ∃ j, idx = j + 1 := ⟨idx - 1, by omega⟩
  show ((46 : Nat) :: List.replicate 15 0).getD (j + 1) 0 = 0
  rw [List.getD_cons_succ]
  exact getD_replicate_zero _ _

/-- Claim C5: for every size accepted by `format`, the freshly formatted state
has the inode bitmap all-clear except bit 0 (the root inode) and the block
bitmap all-clear except bit 0, the one content block the root directory
received — which is exactly `direct[0]` of the root inode; adding the "."
and ".." entries allocated no further block. -/
theorem format_bitmaps_minimal (fs : Filesystem) (bytes : Nat)
    (hok : (fs.Format bytes).1 = none) :
    (fs.Format bytes).2.currentNode.direct.getD 0 UNUSED = 0 ∧
    (fs.Format bytes).2.INodeBitmap.Get 0 = true ∧
    (∀ j, j ≠ 0 → (fs.Format bytes).2.INodeBitmap.Get j = false) ∧
    (fs.Format bytes).2.BlockBitmap.Get 0 = true ∧
    (∀ j, j ≠ 0 → (fs.Format bytes).2.BlockBitmap.Get j = false) := by
  by_cases hg : (formatGeometry bytes (bytes / 1024)).1 = 0 ∨
      (formatGeometry bytes (bytes / 1024)).2 = 0
  · exfalso
    unfold Filesystem.Format at hok
    dsimp only at hok
    rw [if_pos hg] at hok
    exact Option.noConfusion hok
  · have hb : 0 < (formatGeometry bytes (bytes / 1024)).1 := by
      rcases Nat.eq_zero_or_pos (formatGeometry bytes (bytes / 1024)).1 with h | h
      · exact absurd (Or.inl h) hg
      · exact h
    have hin : 0 < (formatGeometry bytes (bytes / 1024)).2 := by
      rcases Nat.eq_zero_or_pos (formatGeometry bytes (bytes / 1024)).2 with h | h
      · exact absurd (Or.inr h) hg
      · exact h
    unfold Filesystem.Format
    dsimp only
    rw [if_neg hg]
    rw [AllocateNode_fresh (DiskFile.Resize bytes) _ fs.currentNode fs.formated
      (formatGeometry bytes (bytes / 1024)).1 (formatGeometry bytes (bytes / 1024)).2 hb hin]
    dsimp only
    rw [show rootNode0.id = 0 from rfl]
    rw [AddChild_dot_fresh _ _ _ _ _ ?hbs1 ?hlen1 ?hff1]
    case hbs1 => rfl
    case hlen1 =>
      dsimp only
      simp only [DiskFile.len_WriteBytes, DiskFile.Resize, List.length_replicate]
      rw [INode.ToBytes_length rootNode0 rfl]
      omega
    case hff1 =>
      dsimp only
      intro k hk1 hk2
      rw [DiskFile.data_WriteBytes_outside _ _ _ (by
        rw [INode.ToBytes_length rootNode0 rfl]; simp only [INode.BYTES] at hin ⊢; omega)]
      rw [DiskFile.data_WriteBytes_outside _ _ _ (by
        rw [INode.ToBytes_length rootNode0 rfl]; simp only [INode.BYTES] at hin ⊢; omega)]
      rw [DiskFile.data_WriteBytes_inside _ _ _ (by omega)
        (by simp only [List.length_replicate]; omega)]
      exact getD_replicate_of_lt _ _ _ (by omega)
    dsimp only
    rw [show rootNode0.id = 0 from rfl]
    rw [AddChild_dotdot_fresh _ _ _ _ _ ?hbs2 ?hlen2 ?h0 ?h255]
    case hbs2 => rfl
    case hlen2 =>
      dsimp only
      simp only [DiskFile.len_WriteBytes, DiskFile.Resize, List.length_replicate]
      rw [INode.ToBytes_length rootNode0 rfl]
      omega
    case h0 =>
      dsimp only
      intro k hk1 hk2
      rw [DiskFile.data_WriteBytes_outside _ _ _ (by
        rw [INode.ToBytes_length rootNode0 rfl]; simp only [INode.BYTES] at hin ⊢; omega)]
      rw [DiskFile.data_WriteBytes_inside _ _ _ (by omega)
        (by rw [show (addChildPayload "." 0).length = 16 from rfl]; omega)]
      exact payload_dot_getD_zero _ (by omega)
    case h255 =>
      dsimp only
      intro k hk1 hk2
      rw [DiskFile.data_WriteBytes_outside _ _ _ (by
        rw [INode.ToBytes_length rootNode0 rfl]; simp only [INode.BYTES] at hin ⊢; omega)]
      rw [DiskFile.data_WriteBytes_outside _ _ _ (by
        rw [show (addChildPayload "." 0).length = 16 from rfl]; omega)]
      rw [DiskFile.data_WriteBytes_outside _ _ _ (by
        rw [INode.ToBytes_length rootNode0 rfl]; simp only [INode.BYTES] at hin ⊢; omega)]
      rw [DiskFile.data_WriteBytes_outside _ _ _ (by
        rw [INode.ToBytes_length rootNode0 rfl]; simp only [INode.BYTES] at hin ⊢; omega)]
      rw [DiskFile.data_WriteBytes_inside _ _ _ (by omega)
        (by simp only [List.length_replicate]; omega)]
      exact getD_replicate_of_lt _ _ _ (by omega)
    dsimp only
    refine ⟨rfl, ?_, ?_, ?_, ?_⟩
    · exact Bitmap.Get_Set_true_self _ 0 (by
        simp only [Bitmap.init, List.length_replicate]; omega)
    · intro j hj
      exact (Bitmap.Get_Set_ne _ true hj).trans (Bitmap.Get_init_false _ _)
    · exact Bitmap.Get_Set_true_self _ 0 (by
        simp only [Bitmap.init, List.length_replicate]; omega)
    · intro j hj
      exact (Bitmap.Get_Set_ne _ true hj).trans (Bitmap.Get_init_false _ _)

/-- Claim C5, concrete check on `format(9000)` (8 blocks, 2 inodes): the
format succeeds, the root's content block is block 0, inode bit 0 and block
bit 0 are set, and sampled other bits of both bitmaps are clear. -/
theorem format_bitmaps_minimal_witness :
    (emptyImageFs.Format 9000).1 = none ∧
    (emptyImageFs.Format 9000).2.currentNode.direct.getD 0 UNUSED = 0 ∧
    (emptyImageFs.Format 9000).2.INodeBitmap.Get 0 = true ∧
    (emptyImageFs.Format 9000).2.BlockBitmap.Get 0 = true ∧
    (emptyImageFs.Format 9000).2.INodeBitmap.Get 1 = false ∧
    (emptyImageFs.Format 9000).2.BlockBitmap.Get 5 = false :=
  ⟨rfl, (format_bitmaps_minimal emptyImageFs 9000 rfl).1,
    (format_bitmaps_minimal emptyImageFs 9000 rfl).2.1,
    (format_bitmaps_minimal emptyImageFs 9000 rfl).2.2.2.1,
    (format_bitmaps_minimal emptyImageFs 9000 rfl).2.2.1 1 (by decide),
    (format_bitmaps_minimal emptyImageFs 9000 rfl).2.2.2.2 5 (by decide)⟩

/-- Claim C10, concrete check: detaching the single content block (block 1)
of the one-block file of `fsC8pre` clears block 1's bitmap bit and zeroes
its first byte. -/
theorem deattachBlock_frees_block_witness :
    pairC10.2.BlockBitmap.Get 1 = false ∧
    pairC10.2.file.data (fsC8pre.superblock.dataBlocksOffset +
      1 * fsC8pre.superblock.blockSize + 0) = 0 :=
  ⟨(deattachBlock_frees_block fsC8pre fileNodeC8 1 pairC10.1 pairC10.2 rfl (by decide)
      (by decide) rfl).1,
   (deattachBlock_frees_block fsC8pre fileNodeC8 1 pairC10.1 pairC10.2 rfl (by decide)
      (by decide) rfl).2 1 (Or.inl rfl) 0 (by decide)⟩

/-! ## Claim C1 — groundwork: serialization round-trips -/

theorem readUInt32_writeUInt32 (n : Nat) (h : n < 4294967296) :
    readUInt32 (writeUInt32 n) = n := by
  show n % 256 + n / 256 % 256 * 256 + n / 65536 % 256 * 65536 + n / 16777216 % 256 * 16777216 = n
  omega

theorem list_length_five {α : Type} (l : List α) (h : l.length = 5) :
    ∃ a b c d e, l = [a, b, c, d, e] := by
  cases l with
  | nil => simp at h
  | cons a l =>
    cases l with
    | nil => simp at h
    | cons b l =>
      cases l with
      | nil => simp at h
      | cons c l =>
        cases l with
        | nil => simp at h
        | cons d l =>
          cases l with
          | nil => simp at h
          | cons e l =>
            cases l with
            | nil => exact ⟨a, b, c, d, e, rfl⟩
            | cons f l => simp at h

theorem INode.FromBytes_ToBytes (n : INode)
    (hd : n.direct.length = 5)
    (hid : n.id < 4294967296) (hlk : n.links < 4294967296) (hsz : n.size < 4294967296)
    (hdir : ∀ b ∈ n.direct, b < 4294967296)
    (h1 : n.indirect1 < 4294967296) (h2 : n.indirect2 < 4294967296) :
    INode.FromBytes n.ToBytes = .ok n := by
  obtain ⟨id, links, size, direct, ind1, ind2, isDir⟩ := n
  dsimp only at hd hid hlk hsz hdir h1 h2
  obtain ⟨d0, d1, d2, d3, d4, rfl⟩ := list_length_five direct hd
  have hd0 := hdir d0 (by simp)
  have hd1 := hdir d1 (by simp)
  have hd2 := hdir d2 (by simp)
  have hd3 := hdir d3 (by simp)
  have hd4 := hdir d4 (by simp)
  cases isDir with
  | false =>
    show (Except.ok (INode.mk (readUInt32 (writeUInt32 id)) (readUInt32 (writeUInt32 links))
        (readUInt32 (writeUInt32 size))
        [readUInt32 (writeUInt32 d0), readUInt32 (writeUInt32 d1),
          readUInt32 (writeUInt32 d2), readUInt32 (writeUInt32 d3),
          readUInt32 (writeUInt32 d4)]
        (readUInt32 (writeUInt32 ind1)) (readUInt32 (writeUInt32 ind2)) false) :
        Except FsError INode) =
      Except.ok (INode.mk id links size [d0, d1, d2, d3, d4] ind1 ind2 false)
    rw [readUInt32_writeUInt32 id hid, readUInt32_writeUInt32 links hlk,
      readUInt32_writeUInt32 size hsz, readUInt32_writeUInt32 d0 hd0,
      readUInt32_writeUInt32 d1 hd1, readUInt32_writeUInt32 d2 hd2,
      readUInt32_writeUInt32 d3 hd3, readUInt32_writeUInt32 d4 hd4,
      readUInt32_writeUInt32 ind1 h1, readUInt32_writeUInt32 ind2 h2]
  | true =>
    show (Except.ok (INode.mk (readUInt32 (writeUInt32 id)) (readUInt32 (writeUInt32 links))
        (readUInt32 (writeUInt32 size))
        [readUInt32 (writeUInt32 d0), readUInt32 (writeUInt32 d1),
          readUInt32 (writeUInt32 d2), readUInt32 (writeUInt32 d3),
          readUInt32 (writeUInt32 d4)]
        (readUInt32 (writeUInt32 ind1)) (readUInt32 (writeUInt32 ind2)) true) :
        Except FsError INode) =
      Except.ok (INode.mk id links size [d0, d1, d2, d3, d4] ind1 ind2 true)
    rw [readUInt32_writeUInt32 id hid, readUInt32_writeUInt32 links hlk,
      readUInt32_writeUInt32 size hsz, readUInt32_writeUInt32 d0 hd0,
      readUInt32_writeUInt32 d1 hd1, readUInt32_writeUInt32 d2 hd2,
      readUInt32_writeUInt32 d3 hd3, readUInt32_writeUInt32 d4 hd4,
      readUInt32_writeUInt32 ind1 h1, readUInt32_writeUInt32 ind2 h2]

theorem takeWhile_append_zeros (nb : List Nat) (k : Nat) (hnb : ∀ b ∈ nb, b ≠ 0) :
    (nb ++ List.replicate k 0).takeWhile (· ≠ 0) = nb := by
  induction nb with
  | nil =>
    cases k with
    | zero => rfl
    | succ k =>
      rw [List.nil_append, List.replicate_succ, List.takeWhile_cons]
      rfl
  | cons a t ih =>
    have ha : a ≠ 0 := hnb a (by simp)
    rw [List.cons_append, List.takeWhile_cons, if_pos (decide_eq_true ha)]
    rw [ih fun b hb => hnb b (by simp [hb])]

theorem parseIdsAux_succ (fuel : Nat) (data : List Nat) :
    parseIdsAux (fuel + 1) data =
      if 4 ≤ data.length then
        if readUInt32 (data.take 4) = UNUSED then []
        else readUInt32 (data.take 4) :: parseIdsAux fuel (data.drop 4)
      else [] := rfl

theorem parseIdsAux_encode : ∀ (ids : List Nat) (fuel pad : Nat),
    ids.length + 1 ≤ fuel → (∀ i ∈ ids, i < UNUSED) →
    parseIdsAux fuel (List.flatten (ids.map writeUInt32) ++ List.replicate pad 255) = ids
  | [], fuel, pad, hf, hb => by
    obtain ⟨m, rfl⟩ : ∃ m, fuel = m + 1 := ⟨fuel - 1, by omega⟩
    rw [parseIdsAux_succ]
    simp only [List.map_nil, List.flatten_nil, List.nil_append, List.length_replicate]
    by_cases h4 : 4 ≤ pad
    · rw [if_pos h4, List.take_replicate, show min 4 pad = 4 from by omega]
      have hu : readUInt32 (List.replicate 4 255) = UNUSED := rfl
      rw [if_pos hu]
    · rw [if_neg h4]
  | i :: rest, fuel, pad, hf, hb => by
    obtain ⟨m, rfl⟩ : ∃ m, fuel = m + 1 := ⟨fuel - 1, by omega⟩
    rw [parseIdsAux_succ]
    rw [if_pos (by simp only [List.map_cons, List.flatten_cons, List.append_assoc,
      List.length_append, writeUInt32, List.length_cons]; omega)]
    have ht : (List.flatten ((i :: rest).map writeUInt32) ++ List.replicate pad 255).take 4 =
        writeUInt32 i := rfl
    have hdr : (List.flatten ((i :: rest).map writeUInt32) ++ List.replicate pad 255).drop 4 =
        List.flatten (rest.map writeUInt32) ++ List.replicate pad 255 := rfl
    rw [ht, hdr]
    rw [readUInt32_writeUInt32 i (by
      have hbi := hb i (by simp)
      simp only [UNUSED] at hbi
      omega)]
    rw [if_neg (by
      intro he
      exact absurd (he ▸ hb i (by simp)) (lt_irrefl UNUSED))]
    rw [parseIdsAux_encode rest m pad (by simp only [List.length_cons] at hf; omega)
      fun j hj => hb j (by simp [hj])]

theorem flatten_w32_length (ids : List Nat) :
    (List.flatten (ids.map writeUInt32)).length = 4 * ids.length := by
  induction ids with
  | nil => rfl
  | cons i rest ih =>
    simp only [List.map_cons, List.flatten_cons, List.length_append, ih, writeUInt32,
      List.length_cons]
    simp only [List.length_nil]
    omega

theorem parseIds_encode (ids : List Nat) (pad : Nat) (hb : ∀ i ∈ ids, i < UNUSED) :
    parseIds (List.flatten (ids.map writeUInt32) ++ List.replicate pad 255) = ids := by
  rcases ids with _ | ⟨i, rest⟩
  · cases pad with
    | zero => rfl
    | succ p =>
      refine parseIdsAux_encode [] _ (p + 1) ?_ hb
      rw [List.length_append, flatten_w32_length, List.length_replicate]
      simp only [List.length_nil]
      omega
  · refine parseIdsAux_encode (i :: rest) _ pad ?_ hb
    rw [List.length_append, flatten_w32_length, List.length_replicate]
    simp only [List.length_cons]
    omega

theorem range_map_split (g : Nat → Nat) (a b : Nat) :
    (List.range (a + b)).map g =
      (List.range a).map g ++ (List.range b).map fun i => g (a + i) := by
  rw [List.range_add, List.map_append, List.map_map]
  rfl

theorem map_range_getD (d : List Nat) :
    (List.range d.length).map (fun i => d.getD i 0) = d := by
  apply List.ext_getElem (by simp)
  intro i h1 h2
  simp only [List.getElem_map, List.getElem_range, List.getD_eq_getElem?_getD]
  rw [List.getElem?_eq_getElem h2]
  rfl

theorem ReadBytes_pointwise (f : DiskFile) (off size : Nat) (d : List Nat)
    (hlen : off + size ≤ f.len) (hsize : d.length = size)
    (h : ∀ k, k < size → f.data (off + k) = d.getD k 0) :
    f.ReadBytes off size = d := by
  rw [DiskFile.ReadBytes_map f off size hlen]
  rw [List.map_congr_left (fun i hi => h i (List.mem_range.mp hi))]
  rw [← hsize]
  exact map_range_getD d

/-! ## Claim C1 — groundwork: sequential block allocation -/

theorem PrefixBM_findFree (bm : Bitmap) (B m : Nat) (h : PrefixBM bm B m) (hm : m < B) :
    bm.FindFirstFree = some m := by
  obtain ⟨hsz, hdl, hget⟩ := h
  show (List.range bm.size).find? (fun i => !bm.Get i) = some m
  rw [hsz, show B = m + (B - m) from by omega, List.range_add, List.find?_append]
  have h1 : (List.range m).find? (fun i => !bm.Get i) = none := by
    rw [List.find?_eq_none]
    intro j hj
    rw [List.mem_range] at hj
    rw [hget j, decide_eq_true hj]
    simp
  rw [h1]
  obtain ⟨k, hk⟩ : ∃ k, B - m = k + 1 := ⟨B - m - 1, by omega⟩
  rw [hk, List.range_eq_range', List.range'_succ, List.map_cons]
  rw [List.find?_cons_of_pos _ (by
    show (!bm.Get (m + 0)) = true
    rw [hget (m + 0), decide_eq_false (by omega)]
    rfl)]
  rfl

theorem PrefixBM_findFree_none (bm : Bitmap) (B m : Nat) (h : PrefixBM bm B m)
    (hm : B ≤ m) : bm.FindFirstFree = none := by
  obtain ⟨hsz, hdl, hget⟩ := h
  show (List.range bm.size).find? (fun i => !bm.Get i) = none
  rw [List.find?_eq_none]
  intro j hj
  rw [hsz, List.mem_range] at hj
  rw [hget j, decide_eq_true (by omega)]
  simp

theorem PrefixBM_set (bm : Bitmap) (B m : Nat) (h : PrefixBM bm B m) (hm : m < B) :
    PrefixBM (bm.Set m true) B (m + 1) := by
  obtain ⟨hsz, hdl, hget⟩ := h
  refine ⟨hsz, ?_, ?_⟩
  · show (bm.data.set _ _).length = _
    rw [List.length_set, hdl]
  · intro j
    by_cases hj : j = m
    · subst hj
      rw [Bitmap.Get_Set_true_self bm j (by rw [hdl]; omega),
        decide_eq_true (by omega)]
    · rw [Bitmap.Get_Set_ne _ true hj, hget j]
      exact decide_eq_decide.mpr (by omega)

theorem AllocateBlock_seq (fs : Filesystem) (B m : Nat)
    (h : PrefixBM fs.BlockBitmap B m) (hm : m < B) :
    fs.AllocateBlock = (some m, { fs with BlockBitmap := fs.BlockBitmap.Set m true }) := by
  unfold Filesystem.AllocateBlock
  rw [PrefixBM_findFree fs.BlockBitmap B m h hm]

theorem AllocateBlock_seq_none (fs : Filesystem) (B m : Nat)
    (h : PrefixBM fs.BlockBitmap B m) (hm : B ≤ m) :
    fs.AllocateBlock = (none, fs) := by
  unfold Filesystem.AllocateBlock
  rw [PrefixBM_findFree_none fs.BlockBitmap B m h hm]

/-! ## Claim C1 — groundwork: block-id tables on disk -/

theorem contains_eq_false_of_not_mem {l : List Nat} {a : Nat} (h : a ∉ l) :
    l.contains a = false := by
  cases hc : l.contains a
  · rfl
  · exact absurd (List.mem_of_elem_eq_true hc) h

theorem contains_eq_true_of_mem {l : List Nat} {a : Nat} (h : a ∈ l) :
    l.contains a = true :=
  List.elem_eq_true_of_mem h

theorem replaceFirst_padded : ∀ (xs : List Nat) (k : Nat), 1 ≤ k →
    (∀ x ∈ xs, x ≠ UNUSED) → ∀ b : Nat,
    replaceFirst (xs ++ List.replicate k UNUSED) UNUSED b =
      some (xs ++ b :: List.replicate (k - 1) UNUSED)
  | [], k, hk, _, b => by
    obtain ⟨j, rfl⟩ : ∃ j, k = j + 1 := ⟨k - 1, by omega⟩
    rw [List.nil_append, List.replicate_succ, replaceFirst, if_pos rfl]
    simp
  | x :: rest, k, hk, hne, b => by
    rw [List.cons_append, replaceFirst, if_neg (hne x (by simp))]
    rw [replaceFirst_padded rest k hk (fun y hy => hne y (by simp [hy])) b]
    rfl

theorem replaceFirst_pad5 (xs : List Nat) (hlen : xs.length < 5)
    (hne : ∀ x ∈ xs, x ≠ UNUSED) (b : Nat) :
    replaceFirst (pad5 xs) UNUSED b = some (pad5 (xs ++ [b])) := by
  show replaceFirst (xs ++ List.replicate (5 - xs.length) UNUSED) UNUSED b = _
  rw [replaceFirst_padded xs (5 - xs.length) (by omega) hne b]
  show _ = some ((xs ++ [b]) ++ List.replicate (5 - (xs ++ [b]).length) UNUSED)
  rw [List.append_assoc, List.singleton_append,
    show 5 - (xs ++ [b]).length = 5 - xs.length - 1 from by
      rw [List.length_append, List.length_cons, List.length_nil]; omega]

theorem pad5_mem_UNUSED (xs : List Nat) (h : xs.length < 5) : UNUSED ∈ pad5 xs := by
  show UNUSED ∈ xs ++ List.replicate (5 - xs.length) UNUSED
  refine List.mem_append_right _ ?_
  rw [List.mem_replicate]
  omega

theorem pad5_not_mem_UNUSED (xs : List Nat) (h5 : 5 ≤ xs.length)
    (hne : ∀ x ∈ xs, x ≠ UNUSED) : UNUSED ∉ pad5 xs := by
  show UNUSED ∉ xs ++ List.replicate (5 - xs.length) UNUSED
  rw [show 5 - xs.length = 0 from by omega]
  intro hmem
  rw [List.replicate_zero, List.append_nil] at hmem
  exact hne UNUSED hmem rfl

theorem flatten_w32_getD : ∀ (ids : List Nat) (k : Nat), k < 4 * ids.length →
    (List.flatten (ids.map writeUInt32)).getD k 0 =
      (writeUInt32 (ids.getD (k / 4) 0)).getD (k % 4) 0
  | [], k, h => by simp at h
  | i :: rest, k, h => by
    have hw : (writeUInt32 i).length = 4 := rfl
    by_cases h4 : k < 4
    · rw [List.map_cons, List.flatten_cons]
      rw [List.getD_append _ _ _ _ (by rw [hw]; omega)]
      rw [show k / 4 = 0 from by omega, show k % 4 = k from by omega, List.getD_cons_zero]
    · obtain ⟨j, rfl⟩ : ∃ j, k = j + 4 := ⟨k - 4, by omega⟩
      rw [List.map_cons, List.flatten_cons]
      rw [List.getD_append_right _ _ _ _ (by rw [hw]; omega)]
      rw [hw, show j + 4 - 4 = j from by omega]
      rw [flatten_w32_getD rest j (by simp only [List.length_cons] at h; omega)]
      rw [show (j + 4) / 4 = j / 4 + 1 from by omega, List.getD_cons_succ,
        show (j + 4) % 4 = j % 4 from by omega]

theorem tableList_length (ids : List Nat) (h : ids.length ≤ 256) :
    (tableList ids).length = 1024 := by
  show (List.flatten (ids.map writeUInt32) ++ _).length = 1024
  rw [List.length_append, flatten_w32_length, List.length_replicate]
  omega

theorem tableList_getD_lt (ids : List Nat) (k : Nat) (h : k < 4 * ids.length) :
    (tableList ids).getD k 0 =
      (writeUInt32 (ids.getD (k / 4) 0)).getD (k % 4) 0 := by
  show (List.flatten (ids.map writeUInt32) ++ _).getD k 0 = _
  rw [List.getD_append _ _ _ _ (by rw [flatten_w32_length]; omega)]
  exact flatten_w32_getD ids k h

theorem tableList_getD_ge (ids : List Nat) (k : Nat) (h : 4 * ids.length ≤ k)
    (hk : k < 1024) :
    (tableList ids).getD k 0 = 255 := by
  show (List.flatten (ids.map writeUInt32) ++ _).getD k 0 = _
  rw [List.getD_append_right _ _ _ _ (by rw [flatten_w32_length]; omega)]
  rw [flatten_w32_length]
  exact getD_replicate_of_lt _ _ _ (by omega)

theorem tableList_append_getD (ids : List Nat) (b k : Nat) (_hle : ids.length < 256)
    (hk : k < 1024) :
    (tableList (ids ++ [b])).getD k 0 =
      if 4 * ids.length ≤ k ∧ k < 4 * ids.length + 4 then
        (writeUInt32 b).getD (k - 4 * ids.length) 0
      else (tableList ids).getD k 0 := by
  by_cases hwin : 4 * ids.length ≤ k ∧ k < 4 * ids.length + 4
  · rw [if_pos hwin]
    rw [tableList_getD_lt (ids ++ [b]) k (by
      rw [List.length_append, List.length_cons, List.length_nil]; omega)]
    rw [show k / 4 = ids.length from by omega]
    rw [List.getD_append_right _ _ _ _ (le_refl _), Nat.sub_self, List.getD_cons_zero]
    congr 1
    omega
  · rw [if_neg hwin]
    by_cases hlt : k < 4 * ids.length
    · rw [tableList_getD_lt (ids ++ [b]) k (by
        rw [List.length_append, List.length_cons, List.length_nil]; omega)]
      rw [tableList_getD_lt ids k hlt]
      rw [List.getD_append _ _ _ _ (by omega)]
    · rw [tableList_getD_ge (ids ++ [b]) k (by
        rw [List.length_append, List.length_cons, List.length_nil]; omega) hk]
      rw [tableList_getD_ge ids k (by omega) hk]

theorem parseIds_tableList (ids : List Nat) (hb : ∀ i ∈ ids, i < UNUSED) :
    parseIds (tableList ids) = ids :=
  parseIds_encode ids (1024 - 4 * ids.length) hb

theorem pad5_length (xs : List Nat) (h : xs.length ≤ 5) : (pad5 xs).length = 5 := by
  show (xs ++ List.replicate (5 - xs.length) UNUSED).length = 5
  rw [List.length_append, List.length_replicate]
  omega

theorem Filesystem.holdsTable_mono {fs fs' : Filesystem} {t : Nat} {ids : List Nat}
    (hsb : fs'.superblock = fs.superblock)
    (hdata : ∀ k, k < 1024 →
      fs'.file.data (fs.superblock.dataBlocksOffset + t * fs.superblock.blockSize + k) =
        fs.file.data (fs.superblock.dataBlocksOffset + t * fs.superblock.blockSize + k))
    (h : fs.holdsTable t ids) : fs'.holdsTable t ids := by
  intro k hk
  show fs'.file.data (fs'.superblock.dataBlocksOffset + t * fs'.superblock.blockSize + k) = _
  rw [hsb, hdata k hk]
  exact h k hk

theorem Filesystem.holdsTable_append (fs : Filesystem) (t : Nat) (ids : List Nat) (b : Nat)
    (h : fs.holdsTable t ids) (h256 : ids.length < 256) :
    ({ fs with file := fs.file.WriteBytes
                  (fs.superblock.dataBlocksOffset + t * fs.superblock.blockSize +
                    ids.length * 4)
                  (writeUInt32 b) } : Filesystem).holdsTable t (ids ++ [b]) := by
  intro k hk
  show (fs.file.WriteBytes _ _).data
      (fs.superblock.dataBlocksOffset + t * fs.superblock.blockSize + k) = _
  rw [tableList_append_getD ids b k h256 hk]
  have hw : (writeUInt32 b).length = 4 := rfl
  by_cases hwin : 4 * ids.length ≤ k ∧ k < 4 * ids.length + 4
  · rw [if_pos hwin]
    rw [DiskFile.data_WriteBytes_inside _ _ _ (by omega) (by rw [hw]; omega)]
    congr 1
    omega
  · rw [if_neg hwin]
    rw [DiskFile.data_WriteBytes_outside _ _ _ (by rw [hw]; omega)]
    exact h k hk

theorem Filesystem.holdsTable_fresh (fs : Filesystem) (t : Nat)
    (h : ∀ k, k < 1024 → fs.blockBytes t k = 255) :
    fs.holdsTable t [] := by
  intro k hk
  rw [h k hk]
  exact (getD_replicate_of_lt 1024 k 255 hk).symm

theorem ReadBlockAsBlockIds_of_holdsTable (fs : Filesystem) (t : Nat) (ids : List Nat)
    (hbs : fs.superblock.blockSize = 1024)
    (hlen : fs.superblock.dataBlocksOffset + t * 1024 + 1024 ≤ fs.file.len)
    (hht : fs.holdsTable t ids) (h256 : ids.length ≤ 256)
    (hb : ∀ i ∈ ids, i < UNUSED) :
    fs.ReadBlockAsBlockIds t = .ok ids := by
  have hht' : ∀ k, k < 1024 →
      fs.file.data (fs.superblock.dataBlocksOffset + t * 1024 + k) =
        (tableList ids).getD k 0 := by
    intro k hk
    have := hht k hk
    rw [Filesystem.blockBytes, hbs] at this
    exact this
  unfold Filesystem.ReadBlockAsBlockIds
  dsimp only
  rw [hbs, Nat.mul_comm 1024 t]
  rw [ReadBytes_pointwise _ _ _ (tableList ids) (by omega) (tableList_length ids h256) hht']
  rw [if_neg (by rw [tableList_length ids h256]; omega)]
  rw [parseIds_tableList ids hb]

/-! ## Claim C1 — the effect of `AttachBlock` on the block map -/

theorem attach_direct_case (fs : Filesystem) (node : INode) (b : Nat) (L : List Nat)
    (t1 t2 : Nat) (ts : List Nat) (B m : Nat) (node' : INode) (fs' : Filesystem)
    (hinv : AttachInv fs node L t1 t2 ts B m)
    (hB : B < UNUSED)
    (hb1 : 1 ≤ b) (hbm : b < m) (hbn : b ∉ repBlocks L t1 t2 ts)
    (hL : L.length < 5)
    (h : fs.AttachBlock node b = .ok (node', fs')) :
    ∃ t1' t2' ts' m', AttachInv fs' node' (L ++ [b]) t1' t2' ts' B m' ∧ m ≤ m' ∧
      AttachFrame fs fs' (0 :: b :: L) ∧ node'.id = node.id ∧ node'.isDir = node.isDir ∧
      node'.size = node.size ∧ node'.links = node.links := by
  obtain ⟨⟨hdirect, hind1U, hind1, hind2U, hind2⟩, hnd, hbnds, hpbm, hmB, hbs, hgeo,
    hid, hlen⟩ := hinv
  have hmU : m ≤ 4294967295 := by simp only [UNUSED] at hB; omega
  have hrb : repBlocks L t1 t2 ts = L := by
    unfold repBlocks
    rw [if_neg (by omega), if_neg (by omega)]
    simp
  rw [hrb] at hnd hbnds hbn
  have htk : L.take 5 = L := List.take_of_length_le (by omega)
  have hcont : node.direct.contains UNUSED = true := by
    rw [hdirect]
    exact contains_eq_true_of_mem (pad5_mem_UNUSED _ (by rw [List.length_take]; omega))
  have hne : ∀ x ∈ L.take 5, x ≠ UNUSED := by
    intro x hx
    rw [htk] at hx
    have hx2 := hbnds x hx
    simp only [UNUSED]
    omega
  have hrfl : node.addDirectLink b = .ok { node with direct := pad5 (L.take 5 ++ [b]) } := by
    unfold INode.addDirectLink
    rw [hdirect, replaceFirst_pad5 (L.take 5) (by rw [List.length_take]; omega) hne b]
  unfold Filesystem.AttachBlock at h
  simp only [Bind.bind, Except.bind, pure, Except.pure] at h
  rw [if_pos hcont, hrfl] at h
  simp only [Except.ok.injEq, Prod.mk.injEq] at h
  obtain ⟨hn', hf'⟩ := h
  subst hn'
  subst hf'
  have hdl5 : ({ node with direct := pad5 (L.take 5 ++ [b]) } : INode).direct.length = 5 := by
    show (pad5 (L.take 5 ++ [b])).length = 5
    refine pad5_length _ ?_
    rw [htk, List.length_append, List.length_cons, List.length_nil]
    omega
  have h41 : ({ node with direct := pad5 (L.take 5 ++ [b]) } : INode).ToBytes.length = 41 :=
    INode.ToBytes_length _ hdl5
  have hgeo41 : fs.superblock.inodeTableOffset + (node.id + 1) * 41 ≤
      fs.superblock.dataBlocksOffset := by
    simp only [INode.BYTES] at hgeo
    exact hgeo
  have hrb' : repBlocks (L ++ [b]) t1 t2 ts = L ++ [b] := by
    unfold repBlocks
    rw [if_neg (by rw [List.length_append, List.length_cons, List.length_nil]; omega),
      if_neg (by rw [List.length_append, List.length_cons, List.length_nil]; omega)]
    simp
  refine ⟨t1, t2, ts, m, ⟨?_, ?_, ?_, ?_, ?_, ?_, ?_, ?_, ?_⟩, le_refl m,
    ⟨rfl, rfl, rfl, rfl, ?_, ?_, ?_⟩, rfl, rfl, rfl, rfl⟩
  · refine ⟨?_, ?_, ?_, ?_, ?_⟩
    · show pad5 (L.take 5 ++ [b]) = pad5 ((L ++ [b]).take 5)
      rw [htk, List.take_of_length_le
        (by rw [List.length_append, List.length_cons, List.length_nil]; omega)]
    · intro _
      exact hind1U (by omega)
    · intro hcon
      rw [List.length_append, List.length_cons, List.length_nil] at hcon
      omega
    · intro _
      exact hind2U (by omega)
    · intro hcon
      rw [List.length_append, List.length_cons, List.length_nil] at hcon
      omega
  · rw [hrb', List.nodup_append]
    refine ⟨hnd, List.nodup_singleton b, ?_⟩
    intro a ha hb'
    rw [List.mem_singleton] at hb'
    subst hb'
    exact hbn ha
  · intro x hx
    rw [hrb'] at hx
    rcases List.mem_append.mp hx with hx1 | hx1
    · exact hbnds x hx1
    · rw [List.mem_singleton] at hx1
      subst hx1
      exact ⟨hb1, hbm⟩
  · exact hpbm
  · exact hmB
  · exact hbs
  · exact hgeo
  · exact hid
  · show fs.superblock.dataBlocksOffset + B * 1024 ≤ (fs.file.WriteBytes _ _).len
    rw [DiskFile.len_WriteBytes]
    omega
  · show fs.file.len ≤ (fs.file.WriteBytes _ _).len
    rw [DiskFile.len_WriteBytes]
    omega
  · intro db _ k hk
    show (fs.file.WriteBytes _ _).data
      (fs.superblock.dataBlocksOffset + db * fs.superblock.blockSize + k) = _
    rw [DiskFile.data_WriteBytes_outside _ _ _ (by
      rw [h41]; dsimp only; simp only [INode.BYTES]; omega)]
    rfl
  · intro i hi
    show (fs.file.WriteBytes _ _).data i = _
    rw [DiskFile.data_WriteBytes_outside _ _ _ (by
      rw [h41]; dsimp only; simp only [INode.BYTES] at hi ⊢; omega)]

theorem attach_ind1_new_case (fs : Filesystem) (node : INode) (b : Nat) (L : List Nat)
    (t1 t2 : Nat) (ts : List Nat) (B m : Nat) (node' : INode) (fs' : Filesystem)
    (hinv : AttachInv fs node L t1 t2 ts B m)
    (hB : B < UNUSED)
    (hb1 : 1 ≤ b) (hbm : b < m) (hbn : b ∉ repBlocks L t1 t2 ts)
    (hL : L.length = 5)
    (h : fs.AttachBlock node b = .ok (node', fs')) :
    ∃ t1' t2' ts' m', AttachInv fs' node' (L ++ [b]) t1' t2' ts' B m' ∧ m ≤ m' ∧
      AttachFrame fs fs' (0 :: b :: L) ∧ node'.id = node.id ∧ node'.isDir = node.isDir ∧
      node'.size = node.size ∧ node'.links = node.links := by
  obtain ⟨⟨hdirect, hind1U, hind1, hind2U, hind2⟩, hnd, hbnds, hpbm, hmB, hbs, hgeo,
    hid, hlen⟩ := hinv
  have hmU : m ≤ 4294967295 := by simp only [UNUSED] at hB; omega
  have hrb : repBlocks L t1 t2 ts = L := by
    unfold repBlocks
    rw [if_neg (by omega), if_neg (by omega)]
    simp
  rw [hrb] at hnd hbnds hbn
  have hm2 : 2 ≤ m := by
    rcases L with _ | ⟨x, L'⟩
    · simp at hL
    · have := hbnds x (by simp)
      omega
  have htk : L.take 5 = L := List.take_of_length_le (by omega)
  have hLne : ∀ x ∈ L, x ≠ UNUSED := by
    intro x hx
    have := hbnds x hx
    simp only [UNUSED]
    omega
  have hcont : node.direct.contains UNUSED = false := by
    rw [hdirect]
    refine contains_eq_false_of_not_mem ?_
    rw [htk]
    exact pad5_not_mem_UNUSED L (by omega) hLne
  have h1U : node.indirect1 = UNUSED := hind1U (by omega)
  unfold Filesystem.AttachBlock at h
  simp only [Bind.bind, Except.bind, pure, Except.pure] at h
  rw [hcont] at h
  simp only [Bool.false_eq_true, if_false] at h
  rw [if_pos h1U] at h
  by_cases hmlt : m < B
  · rw [AllocateBlock_seq fs B m hpbm hmlt] at h
    dsimp only at h
    have haf : node.addFirstLevelIndirectLink m =
        .ok { node with indirect1 := m } := by
      unfold INode.addFirstLevelIndirectLink
      rw [if_neg (fun hc => hc h1U)]
    rw [haf] at h
    dsimp only at h
    -- the state before the table read
    rw [hbs] at h
    have hfresh :
        (({ fs with
              BlockBitmap := fs.BlockBitmap.Set m true,
              file := fs.file.WriteBytes (fs.superblock.dataBlocksOffset + m * 1024)
                        (List.replicate 1024 255) } : Filesystem).writeINode
            { node with indirect1 := m }).holdsTable m [] := by
      refine Filesystem.holdsTable_fresh _ m ?_
      intro k hk
      show ((fs.file.WriteBytes _ _).WriteBytes _ _).data
        (fs.superblock.dataBlocksOffset + m * fs.superblock.blockSize + k) = 255
      rw [DiskFile.data_WriteBytes_outside _ _ _ (by
        rw [INode.ToBytes_length _ (by rw [show ({ node with indirect1 := m } :
          INode).direct = node.direct from rfl, hdirect, htk]; exact pad5_length L (by omega))]
        dsimp only
        simp only [INode.BYTES] at hgeo ⊢
        rw [hbs]
        omega)]
      rw [hbs]
      rw [DiskFile.data_WriteBytes_inside _ _ _ (by omega)
        (by rw [List.length_replicate]; omega)]
      rw [show fs.superblock.dataBlocksOffset + m * 1024 + k -
        (fs.superblock.dataBlocksOffset + m * 1024) = k from by omega]
      exact getD_replicate_of_lt _ _ _ hk
    rw [ReadBlockAsBlockIds_of_holdsTable _ m []
      (by exact hbs)
      (by
        show fs.superblock.dataBlocksOffset + m * 1024 + 1024 ≤
          ((fs.file.WriteBytes _ _).WriteBytes _ _).len
        rw [DiskFile.len_WriteBytes, DiskFile.len_WriteBytes]
        omega)
      hfresh (by simp) (by simp)] at h
    dsimp only at h
    rw [if_pos (show ([] : List Nat).length < 1024 / 4 from by decide)] at h
    simp only [Except.ok.injEq, Prod.mk.injEq] at h
    obtain ⟨hn', hf'⟩ := h
    subst hn'
    subst hf'
    have hrb' : repBlocks (L ++ [b]) m t2 ts = (L ++ [b]) ++ [m] := by
      unfold repBlocks
      rw [if_pos (by rw [List.length_append, List.length_cons, List.length_nil]; omega),
        if_neg (by rw [List.length_append, List.length_cons, List.length_nil]; omega)]
      simp
    have hmem' : ∀ x ∈ (L ++ [b]) ++ [m], 1 ≤ x ∧ x < m + 1 := by
      intro x hx
      rcases List.mem_append.mp hx with hx1 | hx1
      · rcases List.mem_append.mp hx1 with hx2 | hx2
        · have := hbnds x hx2
          omega
        · rw [List.mem_singleton] at hx2
          subst hx2
          omega
      · rw [List.mem_singleton] at hx1
        subst hx1
        omega
    refine ⟨m, t2, ts, m + 1, ⟨?_, ?_, ?_, ?_, ?_, ?_, ?_, ?_, ?_⟩, by omega,
      ⟨rfl, rfl, rfl, rfl, ?_, ?_, ?_⟩, rfl, rfl, rfl, rfl⟩
    · refine ⟨?_, ?_, ?_, ?_, ?_⟩
      · show node.direct = _
        rw [hdirect, htk, List.take_append_of_le_length (by omega), htk]
      · intro hcon
        rw [List.length_append, List.length_cons, List.length_nil] at hcon
        omega
      · intro _
        refine ⟨rfl, ?_⟩
        rw [List.drop_append_of_le_length (by omega),
          show L.drop 5 = [] from List.drop_eq_nil_of_le (by omega), List.nil_append,
          show ([b] : List Nat).take 256 = [b] from rfl]
        exact Filesystem.holdsTable_append _ m [] b hfresh (by simp)
      · intro _
        exact hind2U (by omega)
      · intro hcon
        rw [List.length_append, List.length_cons, List.length_nil] at hcon
        omega
    · rw [hrb', List.nodup_append]
      refine ⟨?_, List.nodup_singleton m, ?_⟩
      · rw [List.nodup_append]
        refine ⟨hnd, List.nodup_singleton b, ?_⟩
        intro a ha hb'
        rw [List.mem_singleton] at hb'
        subst hb'
        exact hbn ha
      · intro a ha hm'
        rw [List.mem_singleton] at hm'
        rcases List.mem_append.mp ha with hx | hx
        · have := hbnds a hx
          omega
        · rw [List.mem_singleton] at hx
          omega
    · intro x hx
      rw [hrb'] at hx
      exact hmem' x hx
    · exact PrefixBM_set fs.BlockBitmap B m hpbm hmlt
    · omega
    · exact hbs
    · exact hgeo
    · exact hid
    · show fs.superblock.dataBlocksOffset + B * 1024 ≤
        (((fs.file.WriteBytes _ _).WriteBytes _ _).WriteBytes _ _).len
      rw [DiskFile.len_WriteBytes, DiskFile.len_WriteBytes, DiskFile.len_WriteBytes]
      omega
    · show fs.file.len ≤ (((fs.file.WriteBytes _ _).WriteBytes _ _).WriteBytes _ _).len
      rw [DiskFile.len_WriteBytes, DiskFile.len_WriteBytes, DiskFile.len_WriteBytes]
      omega
    · intro db hdb k hk
      have hdbm : db < m := by
        simp only [List.mem_cons] at hdb
        rcases hdb with rfl | rfl | hdb
        · omega
        · omega
        · have := hbnds db hdb
          omega
      show (((fs.file.WriteBytes _ _).WriteBytes _ _).WriteBytes _ _).data
        (fs.superblock.dataBlocksOffset + db * fs.superblock.blockSize + k) = _
      rw [DiskFile.data_WriteBytes_outside _ _ _ (by
        simp only [Filesystem.writeINode]
        simp only [List.length_nil]
        rw [show (writeUInt32 b).length = 4 from rfl, hbs]; omega)]
      rw [DiskFile.data_WriteBytes_outside _ _ _ (by
        rw [INode.ToBytes_length _ (by rw [show ({ node with indirect1 := m } :
          INode).direct = node.direct from rfl, hdirect, htk]; exact pad5_length L (by omega))]
        dsimp only
        simp only [INode.BYTES] at hgeo ⊢
        omega)]
      rw [DiskFile.data_WriteBytes_outside _ _ _ (by rw [List.length_replicate, hbs]; omega)]
      rfl
    · intro i hi
      show (((fs.file.WriteBytes _ _).WriteBytes _ _).WriteBytes _ _).data i = _
      rw [DiskFile.data_WriteBytes_outside _ _ _ (by
        simp only [Filesystem.writeINode]
        simp only [List.length_nil]
        rw [show (writeUInt32 b).length = 4 from rfl, hbs]
        simp only [INode.BYTES] at hgeo hi ⊢
        omega)]
      rw [DiskFile.data_WriteBytes_outside _ _ _ (by
        rw [INode.ToBytes_length _ (by rw [show ({ node with indirect1 := m } :
          INode).direct = node.direct from rfl, hdirect, htk]; exact pad5_length L (by omega))]
        dsimp only
        simp only [INode.BYTES] at hi ⊢
        omega)]
      rw [DiskFile.data_WriteBytes_outside _ _ _ (by
        rw [List.length_replicate]
        simp only [INode.BYTES] at hi
        omega)]
  · rw [AllocateBlock_seq_none fs B m hpbm (by omega)] at h
    dsimp only at h
    exact Except.noConfusion h

theorem attach_ind1_app_case (fs : Filesystem) (node : INode) (b : Nat) (L : List Nat)
    (t1 t2 : Nat) (ts : List Nat) (B m : Nat) (node' : INode) (fs' : Filesystem)
    (hinv : AttachInv fs node L t1 t2 ts B m)
    (hB : B < UNUSED)
    (hb1 : 1 ≤ b) (hbm : b < m) (hbn : b ∉ repBlocks L t1 t2 ts)
    (hL : 5 < L.length) (hL2 : L.length < 261)
    (h : fs.AttachBlock node b = .ok (node', fs')) :
    ∃ t1' t2' ts' m', AttachInv fs' node' (L ++ [b]) t1' t2' ts' B m' ∧ m ≤ m' ∧
      AttachFrame fs fs' (0 :: b :: L) ∧ node'.id = node.id ∧ node'.isDir = node.isDir ∧
      node'.size = node.size ∧ node'.links = node.links := by
  obtain ⟨⟨hdirect, hind1U, hind1, hind2U, hind2⟩, hnd, hbnds, hpbm, hmB, hbs, hgeo,
    hid, hlen⟩ := hinv
  have hrb : repBlocks L t1 t2 ts = L ++ [t1] := by
    unfold repBlocks
    rw [if_pos (by omega), if_neg (by omega)]
    simp
  rw [hrb] at hnd hbnds hbn
  obtain ⟨hi1, hht1⟩ := hind1 hL
  have htk256 : (L.drop 5).take 256 = L.drop 5 :=
    List.take_of_length_le (by rw [List.length_drop]; omega)
  rw [htk256] at hht1
  have ht1b : 1 ≤ t1 ∧ t1 < m := hbnds t1 (by simp)
  have hmU : m ≤ 4294967295 := by simp only [UNUSED] at hB; omega
  have hbL : b ∉ L := fun hx => hbn (List.mem_append_left _ hx)
  have hbt1 : b ≠ t1 := fun he => hbn (List.mem_append_right _ (by rw [he]; simp))
  have hcont : node.direct.contains UNUSED = false := by
    rw [hdirect]
    refine contains_eq_false_of_not_mem
      (pad5_not_mem_UNUSED (L.take 5) (by rw [List.length_take]; omega) ?_)
    intro x hx
    have := hbnds x (List.mem_append_left _ (List.mem_of_mem_take hx))
    simp only [UNUSED]
    omega
  have h1ne : ¬node.indirect1 = UNUSED := by
    rw [hi1]
    simp only [UNUSED]
    omega
  unfold Filesystem.AttachBlock at h
  simp only [Bind.bind, Except.bind, pure, Except.pure] at h
  rw [hcont] at h
  simp only [Bool.false_eq_true, if_false] at h
  rw [if_neg h1ne] at h
  rw [hi1, hbs] at h
  have h256 : (L.drop 5).length ≤ 256 := by rw [List.length_drop]; omega
  have h256' : (L.drop 5).length < 256 := by rw [List.length_drop]; omega
  have hbnd' : ∀ i ∈ L.drop 5, i < UNUSED := by
    intro i hi
    have := hbnds i (List.mem_append_left _ (List.mem_of_mem_drop hi))
    simp only [UNUSED]
    omega
  rw [ReadBlockAsBlockIds_of_holdsTable fs t1 (L.drop 5) hbs
    (by have := ht1b.2; omega) hht1 h256 hbnd'] at h
  dsimp only at h
  rw [if_pos (show (L.drop 5).length < 1024 / 4 from by rw [List.length_drop]; omega)] at h
  simp only [Except.ok.injEq, Prod.mk.injEq] at h
  obtain ⟨hn', hf'⟩ := h
  subst hn'
  subst hf'
  rw [List.nodup_append] at hnd
  obtain ⟨hndL, _, hdisj⟩ := hnd
  have hrb' : repBlocks (L ++ [b]) t1 t2 ts = (L ++ [b]) ++ [t1] := by
    unfold repBlocks
    rw [if_pos (by rw [List.length_append, List.length_cons, List.length_nil]; omega),
      if_neg (by rw [List.length_append, List.length_cons, List.length_nil]; omega)]
    simp
  refine ⟨t1, t2, ts, m, ⟨?_, ?_, ?_, ?_, ?_, ?_, ?_, ?_, ?_⟩, Nat.le_refl m,
    ⟨rfl, rfl, rfl, rfl, ?_, ?_, ?_⟩, rfl, rfl, rfl, rfl⟩
  · refine ⟨?_, ?_, ?_, ?_, ?_⟩
    · show node.direct = _
      rw [List.take_append_of_le_length (by omega)]
      exact hdirect
    · intro hcon
      rw [List.length_append, List.length_cons, List.length_nil] at hcon
      omega
    · intro _
      refine ⟨hi1, ?_⟩
      rw [List.drop_append_of_le_length (by omega),
        List.take_of_length_le (by
          rw [List.length_append, List.length_drop, List.length_cons, List.length_nil]
          omega)]
      have hap := Filesystem.holdsTable_append fs t1 (L.drop 5) b hht1 h256'
      rw [hbs] at hap
      exact hap
    · intro _
      exact hind2U (by omega)
    · intro hcon
      rw [List.length_append, List.length_cons, List.length_nil] at hcon
      omega
  · rw [hrb', List.nodup_append]
    refine ⟨?_, List.nodup_singleton t1, ?_⟩
    · rw [List.nodup_append]
      refine ⟨hndL, List.nodup_singleton b, ?_⟩
      intro a ha hb'
      rw [List.mem_singleton] at hb'
      subst hb'
      exact hbL ha
    · intro a ha ht'
      rw [List.mem_singleton] at ht'
      rcases List.mem_append.mp ha with hx | hx
      · exact hdisj hx (by rw [ht']; simp)
      · rw [List.mem_singleton] at hx
        exact hbt1 (hx.symm.trans ht')
  · intro x hx
    rw [hrb'] at hx
    rcases List.mem_append.mp hx with hx1 | hx1
    · rcases List.mem_append.mp hx1 with hx2 | hx2
      · exact hbnds x (List.mem_append_left _ hx2)
      · rw [List.mem_singleton] at hx2
        subst hx2
        omega
    · rw [List.mem_singleton] at hx1
      subst hx1
      exact ht1b
  · exact hpbm
  · exact hmB
  · exact hbs
  · exact hgeo
  · exact hid
  · show fs.superblock.dataBlocksOffset + B * 1024 ≤ (fs.file.WriteBytes _ _).len
    rw [DiskFile.len_WriteBytes]
    omega
  · show fs.file.len ≤ (fs.file.WriteBytes _ _).len
    rw [DiskFile.len_WriteBytes]
    omega
  · intro db hdb k hk
    have hdbt1 : db ≠ t1 := by
      simp only [List.mem_cons] at hdb
      rcases hdb with rfl | rfl | hdb
      · omega
      · exact hbt1
      · exact fun he => hdisj hdb (by rw [he]; simp)
    show (fs.file.WriteBytes _ _).data
      (fs.superblock.dataBlocksOffset + db * fs.superblock.blockSize + k) = _
    rw [DiskFile.data_WriteBytes_outside _ _ _ (by
      rw [show (writeUInt32 b).length = 4 from rfl, hbs, List.length_drop]
      have := ht1b.2
      omega)]
    rfl
  · intro i hi
    show (fs.file.WriteBytes _ _).data i = _
    rw [DiskFile.data_WriteBytes_outside _ _ _ (by
      rw [show (writeUInt32 b).length = 4 from rfl, List.length_drop]
      simp only [INode.BYTES] at hgeo hi
      omega)]

theorem attachScanPtrs_nil (fs : Filesystem) (entry : List Nat) :
    fs.attachScanPtrs entry [] = .ok none := rfl

theorem attachScanPtrs_full_none (fs : Filesystem) (entry : List Nat) (ptrs : List Nat)
    (hbs : fs.superblock.blockSize = 1024)
    (hfull : ∀ p ∈ ptrs, ∃ ids : List Nat, fs.holdsTable p ids ∧ ids.length = 256 ∧
      (∀ x ∈ ids, x < UNUSED) ∧
      fs.superblock.dataBlocksOffset + p * 1024 + 1024 ≤ fs.file.len) :
    fs.attachScanPtrs entry ptrs = .ok none := by
  induction ptrs with
  | nil => rfl
  | cons p rest ih =>
    obtain ⟨ids, hht, hlen256, hbnd, hrd⟩ := hfull p (by simp)
    unfold Filesystem.attachScanPtrs
    simp only [Bind.bind, Except.bind]
    rw [ReadBlockAsBlockIds_of_holdsTable fs p ids hbs hrd hht (by omega) hbnd]
    dsimp only
    rw [if_neg (by rw [hlen256, hbs]; omega)]
    exact ih (fun q hq => hfull q (by simp [hq]))

theorem attachScanPtrs_last (fs : Filesystem) (entry : List Nat) (ptrs : List Nat)
    (p : Nat) (ids : List Nat)
    (hbs : fs.superblock.blockSize = 1024)
    (hfull : ∀ q ∈ ptrs, ∃ idsq : List Nat, fs.holdsTable q idsq ∧ idsq.length = 256 ∧
      (∀ x ∈ idsq, x < UNUSED) ∧
      fs.superblock.dataBlocksOffset + q * 1024 + 1024 ≤ fs.file.len)
    (hht : fs.holdsTable p ids) (hlt : ids.length < 256)
    (hbnd : ∀ x ∈ ids, x < UNUSED)
    (hrd : fs.superblock.dataBlocksOffset + p * 1024 + 1024 ≤ fs.file.len) :
    fs.attachScanPtrs entry (ptrs ++ [p]) =
      .ok (some
        { fs with
            file := fs.file.WriteBytes
                (fs.superblock.dataBlocksOffset + p * fs.superblock.blockSize +
                  ids.length * 4)
                entry }) := by
  induction ptrs with
  | nil =>
    rw [List.nil_append]
    unfold Filesystem.attachScanPtrs
    simp only [Bind.bind, Except.bind]
    rw [ReadBlockAsBlockIds_of_holdsTable fs p ids hbs hrd hht (by omega) hbnd]
    dsimp only
    rw [if_pos (by rw [hbs]; omega)]
  | cons q rest ih =>
    obtain ⟨idsq, hht1, hlen256, hbnd1, hrd1⟩ := hfull q (by simp)
    rw [List.cons_append]
    unfold Filesystem.attachScanPtrs
    simp only [Bind.bind, Except.bind]
    rw [ReadBlockAsBlockIds_of_holdsTable fs q idsq hbs hrd1 hht1 (by omega) hbnd1]
    dsimp only
    rw [if_neg (by rw [hlen256, hbs]; omega)]
    exact ih (fun r hr => hfull r (by simp [hr]))

theorem attach_ind2_app_case (fs : Filesystem) (node : INode) (b : Nat) (L : List Nat)
    (t1 t2 : Nat) (ts : List Nat) (B m : Nat) (node' : INode) (fs' : Filesystem)
    (hinv : AttachInv fs node L t1 t2 ts B m)
    (hB : B < UNUSED)
    (hb1 : 1 ≤ b) (hbm : b < m) (hbn : b ∉ repBlocks L t1 t2 ts)
    (hL : 261 < L.length) (hmod : (L.length - 261) % 256 ≠ 0)
    (hcap : L.length ≤ 261 + 65536)
    (h : fs.AttachBlock node b = .ok (node', fs')) :
    ∃ t1' t2' ts' m', AttachInv fs' node' (L ++ [b]) t1' t2' ts' B m' ∧ m ≤ m' ∧
      AttachFrame fs fs' (0 :: b :: L) ∧ node'.id = node.id ∧ node'.isDir = node.isDir ∧
      node'.size = node.size ∧ node'.links = node.links := by
  obtain ⟨⟨hdirect, hind1U, hind1, hind2U, hind2⟩, hnd, hbnds, hpbm, hmB, hbs, hgeo,
    hid, hlen⟩ := hinv
  have hrb : repBlocks L t1 t2 ts = L ++ t1 :: t2 :: ts := by
    unfold repBlocks
    rw [if_pos (by omega), if_pos (by omega)]
    simp
  rw [hrb] at hnd hbnds hbn
  obtain ⟨hi1, hht1⟩ := hind1 (by omega)
  obtain ⟨hi2, hht2, htslen, htab⟩ := hind2 hL
  have hmU : m ≤ 4294967295 := by simp only [UNUSED] at hB; omega
  have ht1b : 1 ≤ t1 ∧ t1 < m := hbnds t1 (by simp)
  have ht2b : 1 ≤ t2 ∧ t2 < m := hbnds t2 (by simp)
  have htsb : ∀ x ∈ ts, 1 ≤ x ∧ x < m := fun x hx => hbnds x (by simp [hx])
  have hLb : ∀ x ∈ L, 1 ≤ x ∧ x < m := fun x hx => hbnds x (by simp [hx])
  rw [List.nodup_append] at hnd
  obtain ⟨hndL, hndR, hdisjLR⟩ := hnd
  rw [List.nodup_cons] at hndR
  obtain ⟨ht1nin, hndR2⟩ := hndR
  rw [List.nodup_cons] at hndR2
  obtain ⟨ht2nin, hndts⟩ := hndR2
  have hne : ts ≠ [] := by
    intro he
    rw [he] at htslen
    simp only [List.length_nil] at htslen
    omega
  have hq : ts.length - 1 < ts.length := by
    rcases ts with _ | _
    · exact absurd rfl hne
    · simp
  have htl_mem : ts.getD (ts.length - 1) 0 ∈ ts := by
    rw [List.getD_eq_getElem ts 0 hq]
    exact List.getElem_mem _
  have htlb : 1 ≤ ts.getD (ts.length - 1) 0 ∧ ts.getD (ts.length - 1) 0 < m :=
    htsb _ htl_mem
  have hhtl : fs.holdsTable (ts.getD (ts.length - 1) 0)
      ((L.drop (261 + 256 * (ts.length - 1))).take 256) := htab _ hq
  have hlastlen : ((L.drop (261 + 256 * (ts.length - 1))).take 256).length =
      L.length - 261 - 256 * (ts.length - 1) := by
    rw [List.length_take, List.length_drop]
    omega
  have hlastlt : ((L.drop (261 + 256 * (ts.length - 1))).take 256).length < 256 := by
    rw [hlastlen]
    omega
  have hLU : ∀ x ∈ L, x < UNUSED := by
    intro x hx
    have := hLb x hx
    simp only [UNUSED]
    omega
  have hbndl : ∀ x ∈ (L.drop (261 + 256 * (ts.length - 1))).take 256, x < UNUSED :=
    fun x hx => hLU x (List.mem_of_mem_drop (List.mem_of_mem_take hx))
  have hrdl : fs.superblock.dataBlocksOffset + ts.getD (ts.length - 1) 0 * 1024 + 1024 ≤
      fs.file.len := by
    have := htlb.2
    omega
  have hfull : ∀ x ∈ ts.dropLast, ∃ idsq : List Nat, fs.holdsTable x idsq ∧
      idsq.length = 256 ∧ (∀ y ∈ idsq, y < UNUSED) ∧
      fs.superblock.dataBlocksOffset + x * 1024 + 1024 ≤ fs.file.len := by
    intro x hx
    obtain ⟨i, hilt, hieq⟩ := List.mem_iff_getElem.mp hx
    rw [List.length_dropLast] at hilt
    have hieq' : ts.getD i 0 = x := by
      rw [List.getD_eq_getElem ts 0 (by omega)]
      rw [← List.getElem_dropLast ts i (by rw [List.length_dropLast]; omega)]
      exact hieq
    refine ⟨(L.drop (261 + 256 * i)).take 256, hieq' ▸ htab i (by omega), ?_, ?_, ?_⟩
    · rw [List.length_take, List.length_drop]
      omega
    · exact fun y hy => hLU y (List.mem_of_mem_drop (List.mem_of_mem_take hy))
    · have := (htsb x (List.mem_of_mem_dropLast hx)).2
      omega
  have hscan0 := attachScanPtrs_last fs (writeUInt32 b) ts.dropLast
    (ts.getD (ts.length - 1) 0) ((L.drop (261 + 256 * (ts.length - 1))).take 256)
    hbs hfull hhtl hlastlt hbndl hrdl
  have hsplit : ts.dropLast ++ [ts.getD (ts.length - 1) 0] = ts := by
    rw [show ts.getD (ts.length - 1) 0 = ts.getLast hne from by
      rw [List.getLast_eq_getElem]
      exact List.getD_eq_getElem ts 0 hq]
    exact List.dropLast_append_getLast hne
  rw [hsplit] at hscan0
  have hcont : node.direct.contains UNUSED = false := by
    rw [hdirect]
    refine contains_eq_false_of_not_mem
      (pad5_not_mem_UNUSED (L.take 5) (by rw [List.length_take]; omega) ?_)
    exact fun x hx => (Nat.ne_of_lt (hLU x (List.mem_of_mem_take hx)))
  have h1ne : ¬node.indirect1 = UNUSED := by
    rw [hi1]
    simp only [UNUSED]
    have := ht1b.2
    omega
  have h2ne : ¬t2 = UNUSED := by
    simp only [UNUSED]
    have := ht2b.2
    omega
  have hts256 : ts.length ≤ 256 := by omega
  have htsU : ∀ x ∈ ts, x < UNUSED := by
    intro x hx
    have := (htsb x hx).2
    simp only [UNUSED]
    omega
  unfold Filesystem.AttachBlock at h
  simp only [Bind.bind, Except.bind, pure, Except.pure] at h
  rw [hcont] at h
  simp only [Bool.false_eq_true, if_false] at h
  rw [if_neg h1ne] at h
  rw [hi1, hi2, hbs] at h
  rw [ReadBlockAsBlockIds_of_holdsTable fs t1 ((L.drop 5).take 256) hbs
    (by have := ht1b.2; omega) hht1
    (by rw [List.length_take, List.length_drop]; omega)
    (fun x hx => hLU x (List.mem_of_mem_drop (List.mem_of_mem_take hx)))] at h
  dsimp only at h
  rw [if_neg (by rw [List.length_take, List.length_drop]; omega)] at h
  rw [if_neg h2ne] at h
  rw [ReadBlockAsBlockIds_of_holdsTable fs t2 ts hbs
    (by have := ht2b.2; omega) hht2 hts256 htsU] at h
  dsimp only at h
  rw [hscan0] at h
  dsimp only at h
  simp only [Except.ok.injEq, Prod.mk.injEq] at h
  obtain ⟨hn', hf'⟩ := h
  subst hn'
  subst hf'
  have hkeep : ∀ c k, c ≠ ts.getD (ts.length - 1) 0 → k < 1024 →
      (fs.file.WriteBytes
        (fs.superblock.dataBlocksOffset + ts.getD (ts.length - 1) 0 *
          fs.superblock.blockSize + ((L.drop (261 + 256 * (ts.length - 1))).take 256).length * 4)
        (writeUInt32 b)).data
        (fs.superblock.dataBlocksOffset + c * fs.superblock.blockSize + k) =
      fs.file.data (fs.superblock.dataBlocksOffset + c * fs.superblock.blockSize + k) := by
    intro c k hc hk
    rw [DiskFile.data_WriteBytes_outside _ _ _ (by
      rw [show (writeUInt32 b).length = 4 from rfl, hbs, hlastlen]
      omega)]
  have hrb' : repBlocks (L ++ [b]) t1 t2 ts = L ++ b :: t1 :: t2 :: ts := by
    unfold repBlocks
    rw [if_pos (by rw [List.length_append, List.length_cons, List.length_nil]; omega),
      if_pos (by rw [List.length_append, List.length_cons, List.length_nil]; omega)]
    simp
  refine ⟨t1, t2, ts, m, ⟨?_, ?_, ?_, ?_, ?_, ?_, ?_, ?_, ?_⟩, Nat.le_refl m,
    ⟨rfl, rfl, rfl, rfl, ?_, ?_, ?_⟩, rfl, rfl, rfl, rfl⟩
  · refine ⟨?_, ?_, ?_, ?_, ?_⟩
    · show node.direct = _
      rw [List.take_append_of_le_length (by omega)]
      exact hdirect
    · intro hcon
      rw [List.length_append, List.length_cons, List.length_nil] at hcon
      omega
    · intro _
      refine ⟨hi1, ?_⟩
      rw [List.drop_append_of_le_length (by omega),
        List.take_append_of_le_length (by rw [List.length_drop]; omega)]
      refine Filesystem.holdsTable_mono (by rfl) ?_ hht1
      intro k hk
      exact hkeep t1 k (fun he => ht1nin (by
        rw [he]; exact List.mem_cons_of_mem _ htl_mem)) hk
    · intro hcon
      rw [List.length_append, List.length_cons, List.length_nil] at hcon
      omega
    · intro _
      refine ⟨hi2, ?_, ?_, ?_⟩
      · refine Filesystem.holdsTable_mono (by rfl) ?_ hht2
        intro k hk
        exact hkeep t2 k (fun he => ht2nin (by rw [he]; exact htl_mem)) hk
      · rw [List.length_append, List.length_cons, List.length_nil]
        omega
      · intro i hi
        by_cases hiq : i = ts.length - 1
        · subst hiq
          have hlist : ((L ++ [b]).drop (261 + 256 * (ts.length - 1))).take 256 =
              (L.drop (261 + 256 * (ts.length - 1))).take 256 ++ [b] := by
            rw [List.drop_append_of_le_length (by omega),
              List.take_of_length_le (by
                rw [List.length_append, List.length_drop, List.length_cons, List.length_nil]
                omega),
              List.take_of_length_le (by rw [List.length_drop]; omega)]
          rw [hlist]
          exact Filesystem.holdsTable_append fs _ _ b hhtl hlastlt
        · rw [List.drop_append_of_le_length (by omega),
            List.take_append_of_le_length (by rw [List.length_drop]; omega)]
          refine Filesystem.holdsTable_mono (by rfl) ?_ (htab i hi)
          intro k hk
          refine hkeep _ k ?_ hk
          intro he
          have : i = ts.length - 1 := by
            have h1 : ts.getD i 0 = ts[i] := List.getD_eq_getElem ts 0 hi
            have h2 : ts.getD (ts.length - 1) 0 = ts[ts.length - 1] :=
              List.getD_eq_getElem ts 0 hq
            rw [h1, h2] at he
            exact (List.Nodup.getElem_inj_iff hndts).mp he
          exact hiq this
  · rw [hrb']
    rw [show L ++ b :: t1 :: t2 :: ts = L ++ [b] ++ t1 :: t2 :: ts from by simp,
      List.nodup_append]
    refine ⟨?_, ?_, ?_⟩
    · rw [List.nodup_append]
      refine ⟨hndL, List.nodup_singleton b, ?_⟩
      intro a ha hb'
      rw [List.mem_singleton] at hb'
      subst hb'
      exact hbn (List.mem_append_left _ ha)
    · rw [List.nodup_cons]
      exact ⟨ht1nin, by rw [List.nodup_cons]; exact ⟨ht2nin, hndts⟩⟩
    · intro a ha
      rcases List.mem_append.mp ha with hx | hx
      · exact hdisjLR hx
      · rw [List.mem_singleton] at hx
        subst hx
        exact fun hc => hbn (List.mem_append_right _ hc)
  · intro x hx
    rw [hrb'] at hx
    rcases List.mem_append.mp hx with hx1 | hx1
    · exact hLb x hx1
    · rw [List.mem_cons] at hx1
      rcases hx1 with rfl | hx2
      · exact ⟨hb1, hbm⟩
      · exact hbnds x (List.mem_append_right _ hx2)
  · exact hpbm
  · exact hmB
  · exact hbs
  · exact hgeo
  · exact hid
  · show fs.superblock.dataBlocksOffset + B * 1024 ≤ (fs.file.WriteBytes _ _).len
    rw [DiskFile.len_WriteBytes]
    omega
  · show fs.file.len ≤ (fs.file.WriteBytes _ _).len
    rw [DiskFile.len_WriteBytes]
    omega
  · intro db hdb k hk
    have hdbtl : db ≠ ts.getD (ts.length - 1) 0 := by
      simp only [List.mem_cons] at hdb
      rcases hdb with rfl | rfl | hdb
      · have := htlb.1
        omega
      · exact fun he => hbn (List.mem_append_right _ (by
          rw [he]; exact List.mem_cons_of_mem _ (List.mem_cons_of_mem _ htl_mem)))
      · exact fun he => hdisjLR hdb (by
          rw [he]; exact List.mem_cons_of_mem _ (List.mem_cons_of_mem _ htl_mem))
    exact hkeep db k hdbtl hk
  · intro i hi
    show (fs.file.WriteBytes _ _).data i = _
    rw [DiskFile.data_WriteBytes_outside _ _ _ (by
      rw [show (writeUInt32 b).length = 4 from rfl, hlastlen]
      simp only [INode.BYTES] at hgeo hi
      omega)]

theorem attach_ind2_newtable_case (fs : Filesystem) (node : INode) (b : Nat) (L : List Nat)
    (t1 t2 : Nat) (ts : List Nat) (B m : Nat) (node' : INode) (fs' : Filesystem)
    (hinv : AttachInv fs node L t1 t2 ts B m)
    (hB : B < UNUSED)
    (hb1 : 1 ≤ b) (hbm : b < m) (hbn : b ∉ repBlocks L t1 t2 ts)
    (hL : 261 < L.length) (hmod : (L.length - 261) % 256 = 0)
    (hcap : L.length < 261 + 65536)
    (h : fs.AttachBlock node b = .ok (node', fs')) :
    ∃ t1' t2' ts' m', AttachInv fs' node' (L ++ [b]) t1' t2' ts' B m' ∧ m ≤ m' ∧
      AttachFrame fs fs' (0 :: b :: L) ∧ node'.id = node.id ∧ node'.isDir = node.isDir ∧
      node'.size = node.size ∧ node'.links = node.links := by
  obtain ⟨⟨hdirect, hind1U, hind1, hind2U, hind2⟩, hnd, hbnds, hpbm, hmB, hbs, hgeo,
    hid, hlen⟩ := hinv
  have hrb : repBlocks L t1 t2 ts = L ++ t1 :: t2 :: ts := by
    unfold repBlocks
    rw [if_pos (by omega), if_pos (by omega)]
    simp
  rw [hrb] at hnd hbnds hbn
  obtain ⟨hi1, hht1⟩ := hind1 (by omega)
  obtain ⟨hi2, hht2, htslen, htab⟩ := hind2 hL
  have hmU : m ≤ 4294967295 := by simp only [UNUSED] at hB; omega
  have ht1b : 1 ≤ t1 ∧ t1 < m := hbnds t1 (by simp)
  have ht2b : 1 ≤ t2 ∧ t2 < m := hbnds t2 (by simp)
  have htsb : ∀ x ∈ ts, 1 ≤ x ∧ x < m := fun x hx => hbnds x (by simp [hx])
  have hLb : ∀ x ∈ L, 1 ≤ x ∧ x < m := fun x hx => hbnds x (by simp [hx])
  rw [List.nodup_append] at hnd
  obtain ⟨hndL, hndR, hdisjLR⟩ := hnd
  rw [List.nodup_cons] at hndR
  obtain ⟨ht1nin, hndR2⟩ := hndR
  rw [List.nodup_cons] at hndR2
  obtain ⟨ht2nin, hndts⟩ := hndR2
  have hLU : ∀ x ∈ L, x < UNUSED := by
    intro x hx
    have := hLb x hx
    simp only [UNUSED]
    omega
  have hts255 : ts.length ≤ 255 := by omega
  have htsU : ∀ x ∈ ts, x < UNUSED := by
    intro x hx
    have := (htsb x hx).2
    simp only [UNUSED]
    omega
  have hcont : node.direct.contains UNUSED = false := by
    rw [hdirect]
    refine contains_eq_false_of_not_mem
      (pad5_not_mem_UNUSED (L.take 5) (by rw [List.length_take]; omega) ?_)
    exact fun x hx => (Nat.ne_of_lt (hLU x (List.mem_of_mem_take hx)))
  have h1ne : ¬node.indirect1 = UNUSED := by
    rw [hi1]
    simp only [UNUSED]
    have := ht1b.2
    omega
  have h2ne : ¬t2 = UNUSED := by
    simp only [UNUSED]
    have := ht2b.2
    omega
  have hfullall : ∀ x ∈ ts, ∃ idsq : List Nat, fs.holdsTable x idsq ∧
      idsq.length = 256 ∧ (∀ y ∈ idsq, y < UNUSED) ∧
      fs.superblock.dataBlocksOffset + x * 1024 + 1024 ≤ fs.file.len := by
    intro x hx
    obtain ⟨i, hilt, hieq⟩ := List.mem_iff_getElem.mp hx
    have hieq' : ts.getD i 0 = x := by
      rw [List.getD_eq_getElem ts 0 hilt]
      exact hieq
    refine ⟨(L.drop (261 + 256 * i)).take 256, hieq' ▸ htab i hilt, ?_, ?_, ?_⟩
    · rw [List.length_take, List.length_drop]
      omega
    · exact fun y hy => hLU y (List.mem_of_mem_drop (List.mem_of_mem_take hy))
    · have := (htsb x hx).2
      omega
  have hscan0 := attachScanPtrs_full_none fs (writeUInt32 b) ts hbs hfullall
  unfold Filesystem.AttachBlock at h
  simp only [Bind.bind, Except.bind, pure, Except.pure] at h
  rw [hcont] at h
  simp only [Bool.false_eq_true, if_false] at h
  rw [if_neg h1ne] at h
  rw [hi1, hi2] at h
  rw [ReadBlockAsBlockIds_of_holdsTable fs t1 ((L.drop 5).take 256) hbs
    (by have := ht1b.2; omega) hht1
    (by rw [List.length_take, List.length_drop]; omega)
    (fun x hx => hLU x (List.mem_of_mem_drop (List.mem_of_mem_take hx)))] at h
  dsimp only at h
  rw [if_neg (show ¬((L.drop 5).take 256).length < fs.superblock.blockSize / 4 from by
    rw [hbs, List.length_take, List.length_drop]; omega)] at h
  rw [if_neg h2ne] at h
  rw [ReadBlockAsBlockIds_of_holdsTable fs t2 ts hbs
    (by have := ht2b.2; omega) hht2 (by omega) htsU] at h
  dsimp only at h
  rw [hscan0] at h
  dsimp only at h
  rw [if_pos (show ts.length < fs.superblock.blockSize / 4 from by rw [hbs]; omega)] at h
  by_cases hmlt : m < B
  · rw [AllocateBlock_seq fs B m hpbm hmlt] at h
    dsimp only at h
    simp only [Except.ok.injEq, Prod.mk.injEq] at h
    obtain ⟨hn', hf'⟩ := h
    subst hn'
    subst hf'
    have hkeep : ∀ c k, c ≠ m → c ≠ t2 → k < 1024 →
        (((fs.file.WriteBytes (fs.superblock.dataBlocksOffset + m * fs.superblock.blockSize)
            (List.replicate fs.superblock.blockSize 255)).WriteBytes
            (fs.superblock.dataBlocksOffset + t2 * fs.superblock.blockSize + ts.length * 4)
            (writeUInt32 m)).WriteBytes
            (fs.superblock.dataBlocksOffset + m * fs.superblock.blockSize)
            (writeUInt32 b)).data
          (fs.superblock.dataBlocksOffset + c * fs.superblock.blockSize + k) =
        fs.file.data (fs.superblock.dataBlocksOffset + c * fs.superblock.blockSize + k) := by
      intro c k hcm hct2 hk
      rw [DiskFile.data_WriteBytes_outside _ _ _ (by
        rw [show (writeUInt32 b).length = 4 from rfl, hbs]; omega)]
      rw [DiskFile.data_WriteBytes_outside _ _ _ (by
        rw [show (writeUInt32 m).length = 4 from rfl, hbs]; omega)]
      rw [DiskFile.data_WriteBytes_outside _ _ _ (by
        rw [List.length_replicate, hbs]; omega)]
    have hT2fsB : ({ fs with
        BlockBitmap := fs.BlockBitmap.Set m true,
        file := fs.file.WriteBytes
          (fs.superblock.dataBlocksOffset + m * fs.superblock.blockSize)
          (List.replicate fs.superblock.blockSize 255) } : Filesystem).holdsTable t2 ts := by
      refine Filesystem.holdsTable_mono (by rfl) ?_ hht2
      intro k hk
      show (fs.file.WriteBytes _ _).data _ = _
      rw [DiskFile.data_WriteBytes_outside _ _ _ (by
        rw [List.length_replicate, hbs]
        have := ht2b.2
        omega)]
    have hT2fsC := Filesystem.holdsTable_append _ t2 ts m hT2fsB (by omega)
    have hfreshC : ({ fs with
        BlockBitmap := fs.BlockBitmap.Set m true,
        file := (fs.file.WriteBytes
          (fs.superblock.dataBlocksOffset + m * fs.superblock.blockSize)
          (List.replicate fs.superblock.blockSize 255)).WriteBytes
          (fs.superblock.dataBlocksOffset + t2 * fs.superblock.blockSize + ts.length * 4)
          (writeUInt32 m) } : Filesystem).holdsTable m [] := by
      refine Filesystem.holdsTable_fresh _ m ?_
      intro k hk
      show ((fs.file.WriteBytes _ _).WriteBytes _ _).data
        (fs.superblock.dataBlocksOffset + m * fs.superblock.blockSize + k) = 255
      rw [DiskFile.data_WriteBytes_outside _ _ _ (by
        rw [show (writeUInt32 m).length = 4 from rfl, hbs]
        have := ht2b.2
        omega)]
      rw [DiskFile.data_WriteBytes_inside _ _ _ (by omega)
        (by rw [List.length_replicate, hbs]; omega)]
      rw [show fs.superblock.dataBlocksOffset + m * fs.superblock.blockSize + k -
        (fs.superblock.dataBlocksOffset + m * fs.superblock.blockSize) = k from by omega]
      refine getD_replicate_of_lt _ _ _ (by rw [hbs]; omega)
    have hTnew := Filesystem.holdsTable_append _ m [] b hfreshC (by simp)
    have hrb' : repBlocks (L ++ [b]) t1 t2 (ts ++ [m]) =
        L ++ b :: t1 :: t2 :: (ts ++ [m]) := by
      unfold repBlocks
      rw [if_pos (by rw [List.length_append, List.length_cons, List.length_nil]; omega),
        if_pos (by rw [List.length_append, List.length_cons, List.length_nil]; omega)]
      simp
    refine ⟨t1, t2, ts ++ [m], m + 1, ⟨?_, ?_, ?_, ?_, ?_, ?_, ?_, ?_, ?_⟩, by omega,
      ⟨rfl, rfl, rfl, rfl, ?_, ?_, ?_⟩, rfl, rfl, rfl, rfl⟩
    · refine ⟨?_, ?_, ?_, ?_, ?_⟩
      · show node.direct = _
        rw [List.take_append_of_le_length (by omega)]
        exact hdirect
      · intro hcon
        rw [List.length_append, List.length_cons, List.length_nil] at hcon
        omega
      · intro _
        refine ⟨hi1, ?_⟩
        rw [List.drop_append_of_le_length (by omega),
          List.take_append_of_le_length (by rw [List.length_drop]; omega)]
        refine Filesystem.holdsTable_mono (by rfl) ?_ hht1
        intro k hk
        exact hkeep t1 k (by omega) (fun he => ht1nin (by rw [he]; simp)) hk
      · intro hcon
        rw [List.length_append, List.length_cons, List.length_nil] at hcon
        omega
      · intro _
        refine ⟨hi2, ?_, ?_, ?_⟩
        · refine Filesystem.holdsTable_mono (by rfl) ?_ hT2fsC
          intro k hk
          show ((((fs.file.WriteBytes _ _).WriteBytes _ _)).WriteBytes _ _).data _ = _
          rw [DiskFile.data_WriteBytes_outside _ _ _ (by
            dsimp only
            rw [show (writeUInt32 b).length = 4 from rfl, hbs]
            have := ht2b.2
            omega)]
        · rw [List.length_append, List.length_append, List.length_cons, List.length_cons,
            List.length_nil]
          omega
        · intro i hi
          rw [List.length_append, List.length_cons, List.length_nil] at hi
          by_cases hiq : i = ts.length
          · subst hiq
            rw [List.getD_append_right _ _ _ _ (Nat.le_refl _),
              show ts.length - ts.length = 0 from by omega]
            rw [List.drop_append_of_le_length (by omega),
              show L.drop (261 + 256 * ts.length) = [] from
                List.drop_eq_nil_of_le (by omega),
              List.nil_append,
              show ([b] : List Nat).take 256 = [b] from rfl]
            exact hTnew
          · have hilt : i < ts.length := by omega
            rw [List.getD_append _ _ _ _ hilt]
            rw [List.drop_append_of_le_length (by omega),
              List.take_append_of_le_length (by rw [List.length_drop]; omega)]
            refine Filesystem.holdsTable_mono (by rfl) ?_ (htab i hilt)
            intro k hk
            refine hkeep _ k ?_ ?_ hk
            · have := (htsb (ts.getD i 0) (by
                rw [List.getD_eq_getElem ts 0 hilt]; exact List.getElem_mem _)).2
              omega
            · intro he
              refine ht2nin ?_
              rw [← he, List.getD_eq_getElem ts 0 hilt]
              exact List.getElem_mem _
    · rw [hrb', List.nodup_append]
      refine ⟨hndL, ?_, ?_⟩
      · rw [List.nodup_cons]
        refine ⟨?_, ?_⟩
        · intro hc
          simp only [List.mem_cons, List.mem_append, List.mem_singleton,
            List.not_mem_nil, or_false] at hc
          rcases hc with h' | h' | h' | h'
          · exact hbn (List.mem_append_right _ (by rw [h']; simp))
          · exact hbn (List.mem_append_right _ (by rw [h']; simp))
          · exact hbn (List.mem_append_right _ (by simp [h']))
          · omega
        · rw [List.nodup_cons]
          refine ⟨?_, ?_⟩
          · intro hc
            simp only [List.mem_cons, List.mem_append, List.mem_singleton,
              List.not_mem_nil, or_false] at hc
            rcases hc with h' | h' | h'
            · exact ht1nin (by rw [h']; simp)
            · exact ht1nin (by simp [h'])
            · have := ht1b.2
              omega
          · rw [List.nodup_cons]
            refine ⟨?_, ?_⟩
            · intro hc
              simp only [List.mem_append, List.mem_singleton, List.mem_cons,
                List.not_mem_nil, or_false] at hc
              rcases hc with h' | h'
              · exact ht2nin h'
              · have := ht2b.2
                omega
            · rw [List.nodup_append]
              refine ⟨hndts, List.nodup_singleton m, ?_⟩
              intro a ha hm'
              rw [List.mem_singleton] at hm'
              have := (htsb a ha).2
              omega
      · intro a ha
        intro hc
        simp only [List.mem_cons, List.mem_append, List.mem_singleton,
          List.not_mem_nil, or_false] at hc
        rcases hc with h' | h' | h' | h' | h'
        · exact hbn (List.mem_append_left _ (by rw [← h']; exact ha))
        · exact hdisjLR ha (by rw [h']; simp)
        · exact hdisjLR ha (by rw [h']; simp)
        · exact hdisjLR ha (by simp [h'])
        · have := (hLb a ha).2
          omega
    · intro x hx
      rw [hrb'] at hx
      rcases List.mem_append.mp hx with hx1 | hx1
      · have := hLb x hx1
        omega
      · rw [List.mem_cons] at hx1
        rcases hx1 with rfl | hx2
        · omega
        · rw [List.mem_cons] at hx2
          rcases hx2 with rfl | hx3
          · have := ht1b
            omega
          · rw [List.mem_cons] at hx3
            rcases hx3 with rfl | hx4
            · have := ht2b
              omega
            · rcases List.mem_append.mp hx4 with hx5 | hx5
              · have := htsb x hx5
                omega
              · rw [List.mem_singleton] at hx5
                subst hx5
                have := ht1b.2
                omega
    · exact PrefixBM_set fs.BlockBitmap B m hpbm hmlt
    · omega
    · exact hbs
    · exact hgeo
    · exact hid
    · show fs.superblock.dataBlocksOffset + B * 1024 ≤
        (((fs.file.WriteBytes _ _).WriteBytes _ _).WriteBytes _ _).len
      rw [DiskFile.len_WriteBytes, DiskFile.len_WriteBytes, DiskFile.len_WriteBytes]
      omega
    · show fs.file.len ≤ (((fs.file.WriteBytes _ _).WriteBytes _ _).WriteBytes _ _).len
      rw [DiskFile.len_WriteBytes, DiskFile.len_WriteBytes, DiskFile.len_WriteBytes]
      omega
    · intro db hdb k hk
      have hdbm : db ≠ m := by
        simp only [List.mem_cons] at hdb
        rcases hdb with rfl | rfl | hdb
        · have := ht1b.2
          omega
        · omega
        · have := (hLb db hdb).2
          omega
      have hdbt2 : db ≠ t2 := by
        simp only [List.mem_cons] at hdb
        rcases hdb with rfl | rfl | hdb
        · have := ht2b.1
          omega
        · exact fun he => hbn (List.mem_append_right _ (by rw [he]; simp))
        · exact fun he => hdisjLR hdb (by rw [he]; simp)
      exact hkeep db k hdbm hdbt2 hk
    · intro i hi
      show (((fs.file.WriteBytes _ _).WriteBytes _ _).WriteBytes _ _).data i = _
      rw [DiskFile.data_WriteBytes_outside _ _ _ (by
        rw [show (writeUInt32 b).length = 4 from rfl]
        simp only [INode.BYTES] at hgeo hi
        omega)]
      rw [DiskFile.data_WriteBytes_outside _ _ _ (by
        rw [show (writeUInt32 m).length = 4 from rfl]
        simp only [INode.BYTES] at hgeo hi
        omega)]
      rw [DiskFile.data_WriteBytes_outside _ _ _ (by
        rw [List.length_replicate]
        simp only [INode.BYTES] at hgeo hi
        omega)]
  · rw [AllocateBlock_seq_none fs B m hpbm (by omega)] at h
    dsimp only at h
    exact Except.noConfusion h

theorem attach_ind2_new_case (fs : Filesystem) (node : INode) (b : Nat) (L : List Nat)
    (t1 t2 : Nat) (ts : List Nat) (B m : Nat) (node' : INode) (fs' : Filesystem)
    (hinv : AttachInv fs node L t1 t2 ts B m)
    (hB : B < UNUSED)
    (hb1 : 1 ≤ b) (hbm : b < m) (hbn : b ∉ repBlocks L t1 t2 ts)
    (hL : L.length = 261)
    (h : fs.AttachBlock node b = .ok (node', fs')) :
    ∃ t1' t2' ts' m', AttachInv fs' node' (L ++ [b]) t1' t2' ts' B m' ∧ m ≤ m' ∧
      AttachFrame fs fs' (0 :: b :: L) ∧ node'.id = node.id ∧ node'.isDir = node.isDir ∧
      node'.size = node.size ∧ node'.links = node.links := by
  obtain ⟨⟨hdirect, hind1U, hind1, hind2U, hind2⟩, hnd, hbnds, hpbm, hmB, hbs, hgeo,
    hid, hlen⟩ := hinv
  have hrb : repBlocks L t1 t2 ts = L ++ [t1] := by
    unfold repBlocks
    rw [if_pos (by omega), if_neg (by omega)]
    simp
  rw [hrb] at hnd hbnds hbn
  obtain ⟨hi1, hht1⟩ := hind1 (by omega)
  have h2U : node.indirect2 = UNUSED := hind2U (by omega)
  have hmU : m ≤ 4294967295 := by simp only [UNUSED] at hB; omega
  have ht1b : 1 ≤ t1 ∧ t1 < m := hbnds t1 (by simp)
  have hLb : ∀ x ∈ L, 1 ≤ x ∧ x < m := fun x hx => hbnds x (by simp [hx])
  have hbL : b ∉ L := fun hx => hbn (List.mem_append_left _ hx)
  have hbt1 : b ≠ t1 := fun he => hbn (List.mem_append_right _ (by rw [he]; simp))
  rw [List.nodup_append] at hnd
  obtain ⟨hndL, _, hdisjLR⟩ := hnd
  have hLU : ∀ x ∈ L, x < UNUSED := by
    intro x hx
    have := hLb x hx
    simp only [UNUSED]
    omega
  have hcont : node.direct.contains UNUSED = false := by
    rw [hdirect]
    refine contains_eq_false_of_not_mem
      (pad5_not_mem_UNUSED (L.take 5) (by rw [List.length_take]; omega) ?_)
    exact fun x hx => (Nat.ne_of_lt (hLU x (List.mem_of_mem_take hx)))
  have h1ne : ¬node.indirect1 = UNUSED := by
    rw [hi1]
    simp only [UNUSED]
    have := ht1b.2
    omega
  unfold Filesystem.AttachBlock at h
  simp only [Bind.bind, Except.bind, pure, Except.pure] at h
  rw [hcont] at h
  simp only [Bool.false_eq_true, if_false] at h
  rw [if_neg h1ne] at h
  rw [hi1] at h
  rw [ReadBlockAsBlockIds_of_holdsTable fs t1 ((L.drop 5).take 256) hbs
    (by have := ht1b.2; omega) hht1
    (by rw [List.length_take, List.length_drop]; omega)
    (fun x hx => hLU x (List.mem_of_mem_drop (List.mem_of_mem_take hx)))] at h
  dsimp only at h
  rw [if_neg (show ¬((L.drop 5).take 256).length < fs.superblock.blockSize / 4 from by
    rw [hbs, List.length_take, List.length_drop]; omega)] at h
  rw [if_pos h2U] at h
  by_cases hmlt : m < B
  · rw [AllocateBlock_seq fs B m hpbm hmlt] at h
    dsimp only at h
    have haf2 : node.addSecondLevelIndirectLink m =
        .ok { node with indirect2 := m } := by
      unfold INode.addSecondLevelIndirectLink
      rw [if_neg (fun hc => hc h2U)]
    rw [haf2] at h
    dsimp only at h
    rw [hbs] at h
    have hfresh :
        (({ fs with
              BlockBitmap := fs.BlockBitmap.Set m true,
              file := fs.file.WriteBytes (fs.superblock.dataBlocksOffset + m * 1024)
                        (List.replicate 1024 255) } : Filesystem).writeINode
            { node with indirect2 := m }).holdsTable m [] := by
      refine Filesystem.holdsTable_fresh _ m ?_
      intro k hk
      show ((fs.file.WriteBytes _ _).WriteBytes _ _).data
        (fs.superblock.dataBlocksOffset + m * fs.superblock.blockSize + k) = 255
      rw [DiskFile.data_WriteBytes_outside _ _ _ (by
        rw [INode.ToBytes_length _ (by rw [show ({ node with indirect2 := m } :
          INode).direct = node.direct from rfl, hdirect]
                                       exact pad5_length _ (by rw [List.length_take]; omega))]
        dsimp only
        simp only [INode.BYTES] at hgeo ⊢
        rw [hbs]
        omega)]
      rw [hbs]
      rw [DiskFile.data_WriteBytes_inside _ _ _ (by omega)
        (by rw [List.length_replicate]; omega)]
      rw [show fs.superblock.dataBlocksOffset + m * 1024 + k -
        (fs.superblock.dataBlocksOffset + m * 1024) = k from by omega]
      exact getD_replicate_of_lt _ _ _ hk
    rw [ReadBlockAsBlockIds_of_holdsTable _ m []
      (by exact hbs)
      (by
        show fs.superblock.dataBlocksOffset + m * 1024 + 1024 ≤
          ((fs.file.WriteBytes _ _).WriteBytes _ _).len
        rw [DiskFile.len_WriteBytes, DiskFile.len_WriteBytes]
        omega)
      hfresh (by simp) (by simp)] at h
    dsimp only at h
    rw [attachScanPtrs_nil] at h
    dsimp only at h
    rw [if_pos (show ([] : List Nat).length < 1024 / 4 from by decide)] at h
    by_cases hm1lt : m + 1 < B
    · rw [AllocateBlock_seq _ B (m + 1)
        (by exact PrefixBM_set fs.BlockBitmap B m hpbm hmlt) hm1lt] at h
      dsimp only at h
      simp only [Except.ok.injEq, Prod.mk.injEq] at h
      obtain ⟨hn', hf'⟩ := h
      subst hn'
      subst hf'
      have hkeep : ∀ c k, c ≠ m → c ≠ m + 1 → k < 1024 →
          ((((((fs.file.WriteBytes (fs.superblock.dataBlocksOffset + m * 1024)
              (List.replicate 1024 255)).WriteBytes
              (fs.superblock.inodeTableOffset + node.id * INode.BYTES)
              (INode.ToBytes { node with indirect2 := m })).WriteBytes
              (fs.superblock.dataBlocksOffset + (m + 1) * fs.superblock.blockSize)
              (List.replicate fs.superblock.blockSize 255)).WriteBytes
              (fs.superblock.dataBlocksOffset + m * fs.superblock.blockSize)
              (writeUInt32 (m + 1))).WriteBytes
              (fs.superblock.dataBlocksOffset + (m + 1) * fs.superblock.blockSize)
              (writeUInt32 b))).data
            (fs.superblock.dataBlocksOffset + c * fs.superblock.blockSize + k) =
          fs.file.data (fs.superblock.dataBlocksOffset + c * fs.superblock.blockSize + k) := by
        intro c k hcm hcm1 hk
        rw [DiskFile.data_WriteBytes_outside _ _ _ (by
          rw [show (writeUInt32 b).length = 4 from rfl, hbs]; omega)]
        rw [DiskFile.data_WriteBytes_outside _ _ _ (by
          rw [show (writeUInt32 (m + 1)).length = 4 from rfl, hbs]; omega)]
        rw [DiskFile.data_WriteBytes_outside _ _ _ (by
          rw [List.length_replicate, hbs]; omega)]
        rw [DiskFile.data_WriteBytes_outside _ _ _ (by
          rw [INode.ToBytes_length _ (by rw [show ({ node with indirect2 := m } :
            INode).direct = node.direct from rfl, hdirect]
                                         exact pad5_length _ (by rw [List.length_take]; omega))]
          simp only [INode.BYTES] at hgeo ⊢
          rw [hbs]
          omega)]
        rw [DiskFile.data_WriteBytes_outside _ _ _ (by
          rw [List.length_replicate, hbs]; omega)]
      have hfresh2 :
          ({ fs with
                BlockBitmap := fs.BlockBitmap.Set m true,
                file := ((fs.file.WriteBytes (fs.superblock.dataBlocksOffset + m * 1024)
                    (List.replicate 1024 255)).WriteBytes
                    (fs.superblock.inodeTableOffset + node.id * INode.BYTES)
                    (INode.ToBytes { node with indirect2 := m })).WriteBytes
                    (fs.superblock.dataBlocksOffset + (m + 1) * fs.superblock.blockSize)
                    (List.replicate fs.superblock.blockSize 255) } :
            Filesystem).holdsTable m [] := by
        refine Filesystem.holdsTable_fresh _ m ?_
        intro k hk
        show (((fs.file.WriteBytes _ _).WriteBytes _ _).WriteBytes _ _).data
          (fs.superblock.dataBlocksOffset + m * fs.superblock.blockSize + k) = 255
        rw [DiskFile.data_WriteBytes_outside _ _ _ (by
          rw [List.length_replicate, hbs]; omega)]
        rw [DiskFile.data_WriteBytes_outside _ _ _ (by
          rw [INode.ToBytes_length _ (by rw [show ({ node with indirect2 := m } :
            INode).direct = node.direct from rfl, hdirect]
                                         exact pad5_length _ (by rw [List.length_take]; omega))]
          simp only [INode.BYTES] at hgeo ⊢
          rw [hbs]
          omega)]
        rw [hbs]
        rw [DiskFile.data_WriteBytes_inside _ _ _ (by omega)
          (by rw [List.length_replicate]; omega)]
        rw [show fs.superblock.dataBlocksOffset + m * 1024 + k -
          (fs.superblock.dataBlocksOffset + m * 1024) = k from by omega]
        exact getD_replicate_of_lt _ _ _ hk
      have hT2 := Filesystem.holdsTable_append _ m [] (m + 1) hfresh2 (by simp)
      have hfresh3 :
          ({ fs with
                BlockBitmap := fs.BlockBitmap.Set m true,
                file := (((fs.file.WriteBytes (fs.superblock.dataBlocksOffset + m * 1024)
                    (List.replicate 1024 255)).WriteBytes
                    (fs.superblock.inodeTableOffset + node.id * INode.BYTES)
                    (INode.ToBytes { node with indirect2 := m })).WriteBytes
                    (fs.superblock.dataBlocksOffset + (m + 1) * fs.superblock.blockSize)
                    (List.replicate fs.superblock.blockSize 255)).WriteBytes
                    (fs.superblock.dataBlocksOffset + m * fs.superblock.blockSize)
                    (writeUInt32 (m + 1)) } :
            Filesystem).holdsTable (m + 1) [] := by
        refine Filesystem.holdsTable_fresh _ (m + 1) ?_
        intro k hk
        show ((((fs.file.WriteBytes _ _).WriteBytes _ _).WriteBytes _ _).WriteBytes _ _).data
          (fs.superblock.dataBlocksOffset + (m + 1) * fs.superblock.blockSize + k) = 255
        rw [DiskFile.data_WriteBytes_outside _ _ _ (by
          rw [show (writeUInt32 (m + 1)).length = 4 from rfl, hbs]; omega)]
        rw [DiskFile.data_WriteBytes_inside _ _ _ (by omega)
          (by rw [List.length_replicate]; omega)]
        rw [show fs.superblock.dataBlocksOffset + (m + 1) * fs.superblock.blockSize + k -
          (fs.superblock.dataBlocksOffset + (m + 1) * fs.superblock.blockSize) = k
          from by omega]
        refine getD_replicate_of_lt _ _ _ (by rw [hbs]; omega)
      have hTnew := Filesystem.holdsTable_append _ (m + 1) [] b hfresh3 (by simp)
      have hrb' : repBlocks (L ++ [b]) t1 m [m + 1] =
          L ++ b :: t1 :: m :: [m + 1] := by
        unfold repBlocks
        rw [if_pos (by rw [List.length_append, List.length_cons, List.length_nil]; omega),
          if_pos (by rw [List.length_append, List.length_cons, List.length_nil]; omega)]
        simp
      refine ⟨t1, m, [m + 1], m + 2, ⟨?_, ?_, ?_, ?_, ?_, ?_, ?_, ?_, ?_⟩, by omega,
        ⟨rfl, rfl, rfl, rfl, ?_, ?_, ?_⟩, rfl, rfl, rfl, rfl⟩
      · refine ⟨?_, ?_, ?_, ?_, ?_⟩
        · show node.direct = _
          rw [List.take_append_of_le_length (by omega)]
          exact hdirect
        · intro hcon
          rw [List.length_append, List.length_cons, List.length_nil] at hcon
          omega
        · intro _
          refine ⟨hi1, ?_⟩
          rw [List.drop_append_of_le_length (by omega),
            List.take_append_of_le_length (by rw [List.length_drop]; omega)]
          refine Filesystem.holdsTable_mono (by rfl) ?_ hht1
          intro k hk
          exact hkeep t1 k (by omega) (by omega) hk
        · intro hcon
          rw [List.length_append, List.length_cons, List.length_nil] at hcon
          omega
        · intro _
          refine ⟨rfl, ?_, ?_, ?_⟩
          · refine Filesystem.holdsTable_mono (by rfl) ?_ hT2
            intro k hk
            show (((((fs.file.WriteBytes _ _).WriteBytes _ _).WriteBytes _ _).WriteBytes
              _ _).WriteBytes _ _).data _ = _
            rw [DiskFile.data_WriteBytes_outside _ _ _ (by
              simp only [Filesystem.writeINode]
              rw [show (writeUInt32 b).length = 4 from rfl, hbs]
              omega)]
            rfl
          · rw [List.length_append, List.length_cons, List.length_cons, List.length_nil]
            omega
          · intro i hi
            simp only [List.length_cons, List.length_nil] at hi
            have hi0 : i = 0 := by omega
            subst hi0
            rw [show (261 + 256 * 0) = 261 from rfl,
              show ([m + 1] : List Nat).getD 0 0 = m + 1 from rfl]
            rw [List.drop_append_of_le_length (by omega),
              show L.drop 261 = [] from List.drop_eq_nil_of_le (by omega),
              List.nil_append,
              show ([b] : List Nat).take 256 = [b] from rfl]
            exact hTnew
      · rw [hrb', List.nodup_append]
        refine ⟨hndL, ?_, ?_⟩
        · rw [List.nodup_cons]
          refine ⟨?_, ?_⟩
          · intro hc
            simp only [List.mem_cons, List.not_mem_nil, or_false] at hc
            rcases hc with h' | h' | h'
            · exact hbt1 h'
            · omega
            · omega
          · rw [List.nodup_cons]
            refine ⟨?_, ?_⟩
            · intro hc
              simp only [List.mem_cons, List.not_mem_nil, or_false] at hc
              have := ht1b.2
              rcases hc with h' | h'
              · omega
              · omega
            · rw [List.nodup_cons]
              refine ⟨?_, ?_⟩
              · intro hc
                simp only [List.mem_singleton] at hc
                omega
              · exact List.nodup_singleton _
        · intro a ha
          intro hc
          simp only [List.mem_cons, List.not_mem_nil, or_false] at hc
          have := (hLb a ha).2
          rcases hc with h' | h' | h' | h'
          · exact hbL (h' ▸ ha)
          · exact hdisjLR ha (by rw [h']; simp)
          · omega
          · omega
      · intro x hx
        rw [hrb'] at hx
        rcases List.mem_append.mp hx with hx1 | hx1
        · have := hLb x hx1
          omega
        · simp only [List.mem_cons, List.not_mem_nil, or_false] at hx1
          have := ht1b
          rcases hx1 with rfl | rfl | rfl | rfl
          · omega
          · omega
          · omega
          · omega
      · exact PrefixBM_set _ B (m + 1) (PrefixBM_set fs.BlockBitmap B m hpbm hmlt) hm1lt
      · omega
      · exact hbs
      · exact hgeo
      · exact hid
      · show fs.superblock.dataBlocksOffset + B * 1024 ≤
          (((((fs.file.WriteBytes _ _).WriteBytes _ _).WriteBytes _ _).WriteBytes
            _ _).WriteBytes _ _).len
        rw [DiskFile.len_WriteBytes, DiskFile.len_WriteBytes, DiskFile.len_WriteBytes,
          DiskFile.len_WriteBytes, DiskFile.len_WriteBytes]
        omega
      · show fs.file.len ≤
          (((((fs.file.WriteBytes _ _).WriteBytes _ _).WriteBytes _ _).WriteBytes
            _ _).WriteBytes _ _).len
        rw [DiskFile.len_WriteBytes, DiskFile.len_WriteBytes, DiskFile.len_WriteBytes,
          DiskFile.len_WriteBytes, DiskFile.len_WriteBytes]
        omega
      · intro db hdb k hk
        have hdbm : db < m := by
          simp only [List.mem_cons] at hdb
          rcases hdb with rfl | rfl | hdb
          · have := ht1b.2
            omega
          · omega
          · have := (hLb db hdb).2
            omega
        exact hkeep db k (by omega) (by omega) hk
      · intro i hi
        show (((((fs.file.WriteBytes _ _).WriteBytes _ _).WriteBytes _ _).WriteBytes
          _ _).WriteBytes _ _).data i = _
        rw [DiskFile.data_WriteBytes_outside _ _ _ (by
          simp only [Filesystem.writeINode]
          rw [show (writeUInt32 b).length = 4 from rfl, hbs]
          simp only [INode.BYTES] at hgeo hi
          omega)]
        rw [DiskFile.data_WriteBytes_outside _ _ _ (by
          simp only [Filesystem.writeINode]
          rw [show (writeUInt32 (m + 1)).length = 4 from rfl, hbs]
          simp only [INode.BYTES] at hgeo hi
          omega)]
        rw [DiskFile.data_WriteBytes_outside _ _ _ (by
          simp only [Filesystem.writeINode]
          rw [List.length_replicate, hbs]
          simp only [INode.BYTES] at hgeo hi
          omega)]
        rw [DiskFile.data_WriteBytes_outside _ _ _ (by
          rw [INode.ToBytes_length _ (by rw [show ({ node with indirect2 := m } :
            INode).direct = node.direct from rfl, hdirect]
                                         exact pad5_length _ (by rw [List.length_take]; omega))]
          simp only [INode.BYTES] at hgeo hi ⊢
          omega)]
        rw [DiskFile.data_WriteBytes_outside _ _ _ (by
          rw [List.length_replicate]
          simp only [INode.BYTES] at hgeo hi
          omega)]
    · rw [AllocateBlock_seq_none _ B (m + 1)
        (by exact PrefixBM_set fs.BlockBitmap B m hpbm hmlt) (by omega)] at h
      dsimp only at h
      exact Except.noConfusion h
  · rw [AllocateBlock_seq_none fs B m hpbm (by omega)] at h
    dsimp only at h
    exact Except.noConfusion h

theorem AttachBlock_rep (fs : Filesystem) (node : INode) (b : Nat) (L : List Nat)
    (t1 t2 : Nat) (ts : List Nat) (B m : Nat) (node' : INode) (fs' : Filesystem)
    (hinv : AttachInv fs node L t1 t2 ts B m)
    (hB : B < UNUSED)
    (hb1 : 1 ≤ b) (hbm : b < m) (hbn : b ∉ repBlocks L t1 t2 ts)
    (hcap : L.length < 261 + 65536)
    (h : fs.AttachBlock node b = .ok (node', fs')) :
    ∃ t1' t2' ts' m', AttachInv fs' node' (L ++ [b]) t1' t2' ts' B m' ∧ m ≤ m' ∧
      AttachFrame fs fs' (0 :: b :: L) ∧ node'.id = node.id ∧ node'.isDir = node.isDir ∧
      node'.size = node.size ∧ node'.links = node.links := by
  rcases Nat.lt_or_ge L.length 5 with h5 | h5
  · exact attach_direct_case fs node b L t1 t2 ts B m node' fs' hinv hB hb1 hbm hbn h5 h
  rcases Nat.eq_or_lt_of_le h5 with h5e | h5lt
  · exact attach_ind1_new_case fs node b L t1 t2 ts B m node' fs' hinv hB hb1 hbm hbn
      h5e.symm h
  rcases Nat.lt_or_ge L.length 261 with h261 | h261
  · exact attach_ind1_app_case fs node b L t1 t2 ts B m node' fs' hinv hB hb1 hbm hbn
      h5lt h261 h
  rcases Nat.eq_or_lt_of_le h261 with h261e | h261lt
  · exact attach_ind2_new_case fs node b L t1 t2 ts B m node' fs' hinv hB hb1 hbm hbn
      h261e.symm h
  by_cases hmod : (L.length - 261) % 256 = 0
  · exact attach_ind2_newtable_case fs node b L t1 t2 ts B m node' fs' hinv hB hb1 hbm hbn
      h261lt hmod hcap h
  · exact attach_ind2_app_case fs node b L t1 t2 ts B m node' fs' hinv hB hb1 hbm hbn
      h261lt hmod (Nat.le_of_lt hcap) h

theorem AttachFrame_refl (fs : Filesystem) (keep : List Nat) : AttachFrame fs fs keep :=
  ⟨rfl, rfl, rfl, rfl, Nat.le_refl _, fun _ _ _ _ => rfl, fun _ _ => rfl⟩

theorem AttachFrame_trans {fs1 fs2 fs3 : Filesystem} {k1 k2 : List Nat}
    (h12 : AttachFrame fs1 fs2 k1) (h23 : AttachFrame fs2 fs3 k2)
    (hsub : ∀ x ∈ k1, x ∈ k2) : AttachFrame fs1 fs3 k1 := by
  obtain ⟨hsb12, hib12, hcn12, hf12, hlen12, hkeep12, hpre12⟩ := h12
  obtain ⟨hsb23, hib23, hcn23, hf23, hlen23, hkeep23, hpre23⟩ := h23
  refine ⟨hsb23.trans hsb12, hib23.trans hib12, hcn23.trans hcn12, hf23.trans hf12,
    Nat.le_trans hlen12 hlen23, ?_, ?_⟩
  · intro db hdb k hk
    rw [hkeep23 db (hsub db hdb) k hk, hkeep12 db hdb k hk]
  · intro i hi
    rw [hpre23 i (by rw [hsb12]; exact hi), hpre12 i hi]

theorem RepFile_mono {fs fs' : Filesystem} {node : INode} {L : List Nat} {t1 t2 : Nat}
    {ts : List Nat}
    (hsb : fs'.superblock = fs.superblock)
    (hdata : ∀ c ∈ repBlocks L t1 t2 ts, ∀ k, k < 1024 →
      fs'.file.data (fs.superblock.dataBlocksOffset + c * fs.superblock.blockSize + k) =
        fs.file.data (fs.superblock.dataBlocksOffset + c * fs.superblock.blockSize + k))
    (h : fs.RepFile node L t1 t2 ts) : fs'.RepFile node L t1 t2 ts := by
  obtain ⟨hd, h1U, h1, h2U, h2⟩ := h
  refine ⟨hd, h1U, ?_, h2U, ?_⟩
  · intro hL
    obtain ⟨hi1, hht⟩ := h1 hL
    refine ⟨hi1, Filesystem.holdsTable_mono hsb (hdata t1 ?_) hht⟩
    unfold repBlocks
    refine List.mem_append_left _ (List.mem_append_right _ ?_)
    rw [if_pos hL]
    exact List.mem_singleton_self t1
  · intro hL
    obtain ⟨hi2, hht, hlen, htab⟩ := h2 hL
    have hmem2 : ∀ x ∈ t2 :: ts, x ∈ repBlocks L t1 t2 ts := by
      intro x hx
      unfold repBlocks
      refine List.mem_append_right _ ?_
      rw [if_pos hL]
      exact hx
    refine ⟨hi2, Filesystem.holdsTable_mono hsb (hdata t2 (hmem2 t2 (by simp))) hht,
      hlen, ?_⟩
    intro i hi
    refine Filesystem.holdsTable_mono hsb (hdata _ (hmem2 _ ?_)) (htab i hi)
    refine List.mem_cons_of_mem _ ?_
    rw [List.getD_eq_getElem ts 0 hi]
    exact List.getElem_mem _

theorem getD_take_drop (l : List Nat) (w c k : Nat) (hk : k < c)
    (hwk : w + k < l.length) :
    ((l.drop w).take c).getD k 0 = l.getD (w + k) 0 := by
  rw [List.getD_eq_getElem _ 0 (by rw [List.length_take, List.length_drop]; omega)]
  rw [List.getD_eq_getElem _ 0 hwk]
  rw [List.getElem_take]
  rw [List.getElem_drop]

theorem writeChunksAux_rep (data : List Nat) (fuel : Nat) :
    ∀ (fs : Filesystem) (node : INode) (written : Nat) (L : List Nat) (t1 t2 : Nat)
      (ts : List Nat) (B m : Nat) (node' : INode) (fs' : Filesystem),
      AttachInv fs node L t1 t2 ts B m →
      B < UNUSED →
      1 ≤ m →
      data.length ≤ 1024 * 65796 →
      written = min data.length (1024 * L.length) →
      1024 * L.length ≤ written + 1023 →
      ContentAt fs L data →
      Filesystem.writeChunksAux data fuel fs node written = .ok (node', fs') →
      ∃ L2 t1' t2' ts' m', AttachInv fs' node' (L ++ L2) t1' t2' ts' B m' ∧ m ≤ m' ∧
        AttachFrame fs fs' (0 :: L) ∧
        data.length ≤ 1024 * (L ++ L2).length ∧
        1024 * (L ++ L2).length ≤ data.length + 1023 ∧
        ContentAt fs' (L ++ L2) data ∧
        node'.id = node.id ∧ node'.isDir = node.isDir ∧ node'.size = node.size ∧
        node'.links = node.links := by
  induction fuel with
  | zero =>
    intro fs node written L t1 t2 ts B m node' fs' _ _ _ _ _ _ _ h
    exact Except.noConfusion h
  | succ fuel ih =>
    intro fs node written L t1 t2 ts B m node' fs' hinv hB hm1 hdlen hw hwle hcont h
    unfold Filesystem.writeChunksAux at h
    by_cases hlt : written < data.length
    · rw [if_pos hlt] at h
      obtain ⟨hrep, hnd, hbnds, hpbm, hmB, hbs, hgeo, hid, hlen⟩ := hinv
      have hwL : written = 1024 * L.length := by omega
      by_cases hmlt : m < B
      · rw [AllocateBlock_seq fs B m hpbm hmlt] at h
        dsimp only at h
        rw [hbs] at h
        have hbn2 : m ∉ repBlocks L t1 t2 ts :=
          fun hmem => absurd (hbnds m hmem).2 (Nat.lt_irrefl m)
        have htake_len : ((data.drop written).take
            (min 1024 (data.length - written))).length =
            min 1024 (data.length - written) := by
          rw [List.length_take, List.length_drop]
          omega
        have hinv2 : AttachInv
            ({ fs with
                BlockBitmap := fs.BlockBitmap.Set m true,
                file := fs.file.WriteBytes
                  (fs.superblock.dataBlocksOffset + m * 1024)
                  ((data.drop written).take (min 1024 (data.length - written))) } :
              Filesystem) node L t1 t2 ts B (m + 1) := by
          refine ⟨?_, hnd, ?_, ?_, by omega, hbs, hgeo, hid, ?_⟩
          · refine RepFile_mono (by rfl) ?_ hrep
            intro c hc k hk
            have hcm : c < m := (hbnds c hc).2
            show (fs.file.WriteBytes _ _).data _ = _
            rw [DiskFile.data_WriteBytes_outside _ _ _ (by
              rw [htake_len, hbs]
              omega)]
          · intro x hx
            have := hbnds x hx
            omega
          · exact PrefixBM_set fs.BlockBitmap B m hpbm hmlt
          · show fs.superblock.dataBlocksOffset + B * 1024 ≤ (fs.file.WriteBytes _ _).len
            rw [DiskFile.len_WriteBytes]
            omega
        split at h
        · exact Except.noConfusion h
        · rename_i node1 fs3 hab
          obtain ⟨t1x, t2x, tsx, mx, hinv3, hmle3, hframe3, hid3, hdir3, hsz3, hlk3⟩ :=
            AttachBlock_rep _ node m L t1 t2 ts B (m + 1) node1 fs3 (by exact hinv2) hB
              hm1 (Nat.lt_succ_self m) (by exact hbn2) (by omega) hab
          have hcont3 : ContentAt fs3 (L ++ [m]) data := by
            intro j hj k hk
            rw [List.length_append, List.length_cons, List.length_nil] at hj
            obtain ⟨hsb3, _, _, _, _, hkeep3, _⟩ := hframe3
            by_cases hjL : j < L.length
            · rw [List.getD_append _ _ _ _ hjL]
              have hdb : L.getD j 0 ∈ 0 :: m :: L := by
                refine List.mem_cons_of_mem _ (List.mem_cons_of_mem _ ?_)
                rw [List.getD_eq_getElem L 0 hjL]
                exact List.getElem_mem _
              rw [hkeep3 _ hdb k (by omega)]
              have hdblt : L.getD j 0 < m := by
                have hmem : L.getD j 0 ∈ repBlocks L t1 t2 ts := by
                  refine List.mem_append_left _ (List.mem_append_left _ ?_)
                  rw [List.getD_eq_getElem L 0 hjL]
                  exact List.getElem_mem _
                exact (hbnds _ hmem).2
              show (fs.file.WriteBytes _ _).data
                (fs.superblock.dataBlocksOffset + L.getD j 0 * fs.superblock.blockSize +
                  k) = _
              rw [DiskFile.data_WriteBytes_outside _ _ _ (by
                rw [htake_len, hbs]
                omega)]
              exact hcont j hjL k hk
            · have hjeq : j = L.length := by omega
              subst hjeq
              rw [List.getD_append_right _ _ _ _ (Nat.le_refl _),
                show L.length - L.length = 0 from by omega,
                show ([m] : List Nat).getD 0 0 = m from rfl]
              have hdb : m ∈ 0 :: m :: L := by simp
              rw [hkeep3 _ hdb k (by omega)]
              show (fs.file.WriteBytes _ _).data
                (fs.superblock.dataBlocksOffset + m * fs.superblock.blockSize + k) = _
              rw [hbs]
              rw [DiskFile.data_WriteBytes_inside _ _ _ (by omega)
                (by rw [htake_len]; omega)]
              rw [show fs.superblock.dataBlocksOffset + m * 1024 + k -
                (fs.superblock.dataBlocksOffset + m * 1024) = k from by omega]
              rw [getD_take_drop data written _ k (by omega) (by omega)]
              rw [hwL]
          obtain ⟨L2x, t1y, t2y, tsy, my, hinv4, hmle4, hframe4, hlen4, hlow4, hcont4,
            hid4, hdir4, hsz4, hlk4⟩ :=
            ih fs3 node1 (written + min 1024 (data.length - written))
              (L ++ [m]) t1x t2x tsx B mx node' fs' hinv3 hB (by omega) hdlen
              (by rw [List.length_append, List.length_cons, List.length_nil]; omega)
              (by rw [List.length_append, List.length_cons, List.length_nil]; omega)
              hcont3 h
          have hLeq : L ++ m :: L2x = (L ++ [m]) ++ L2x := by simp
          have hf1 : AttachFrame fs
              ({ fs with
                  BlockBitmap := fs.BlockBitmap.Set m true,
                  file := fs.file.WriteBytes
                    (fs.superblock.dataBlocksOffset + m * 1024)
                    ((data.drop written).take (min 1024 (data.length - written))) } :
                Filesystem) (0 :: L) := by
            refine ⟨rfl, rfl, rfl, rfl, ?_, ?_, ?_⟩
            · show fs.file.len ≤ (fs.file.WriteBytes _ _).len
              rw [DiskFile.len_WriteBytes]
              omega
            · intro db hdb k hk
              have hdbne : db ≠ m := by
                rcases List.mem_cons.mp hdb with rfl | hdb2
                · omega
                · have hmem : db ∈ repBlocks L t1 t2 ts :=
                    List.mem_append_left _ (List.mem_append_left _ hdb2)
                  have := (hbnds db hmem).2
                  omega
              show (fs.file.WriteBytes _ _).data
                (fs.superblock.dataBlocksOffset + db * fs.superblock.blockSize + k) = _
              rw [DiskFile.data_WriteBytes_outside _ _ _ (by
                rw [htake_len, hbs]
                omega)]
              rfl
            · intro i hi
              show (fs.file.WriteBytes _ _).data i = _
              rw [DiskFile.data_WriteBytes_outside _ _ _ (by
                rw [htake_len]
                simp only [INode.BYTES] at hgeo hi
                omega)]
          have hsub1 : ∀ x ∈ ([0] ++ L : List Nat), x ∈ 0 :: m :: L := by
            intro x hx
            rcases List.mem_append.mp hx with hx | hx
            · rw [List.mem_singleton] at hx
              simp [hx]
            · simp [hx]
          have hsub2 : ∀ x ∈ (0 :: m :: L : List Nat), x ∈ 0 :: (L ++ [m]) := by
            intro x hx
            simp only [List.mem_cons, List.mem_append, List.mem_singleton,
              List.not_mem_nil, or_false] at hx ⊢
            rcases hx with rfl | rfl | hx
            · exact Or.inl rfl
            · exact Or.inr (Or.inr rfl)
            · exact Or.inr (Or.inl hx)
          refine ⟨m :: L2x, t1y, t2y, tsy, my, ?_, by omega, ?_, ?_, ?_, ?_,
            hid4.trans hid3, hdir4.trans hdir3, hsz4.trans hsz3, hlk4.trans hlk3⟩
          · rw [hLeq]
            exact hinv4
          · exact AttachFrame_trans hf1 (AttachFrame_trans hframe3 hframe4 hsub2)
              (by intro x hx; exact hsub1 x (by simpa using hx))
          · rw [hLeq]
            exact hlen4
          · rw [hLeq]
            exact hlow4
          · rw [hLeq]
            exact hcont4
      · rw [AllocateBlock_seq_none fs B m hpbm (by omega)] at h
        dsimp only at h
        exact Except.noConfusion h
    · rw [if_neg hlt] at h
      simp only [Except.ok.injEq, Prod.mk.injEq] at h
      obtain ⟨hn', hf'⟩ := h
      subst hn'
      subst hf'
      refine ⟨[], t1, t2, ts, m, ?_, Nat.le_refl m, AttachFrame_refl fs (0 :: L),
        ?_, ?_, ?_, rfl, rfl, rfl, rfl⟩
      · rw [List.append_nil]
        exact hinv
      · rw [List.append_nil]
        omega
      · rw [List.append_nil]
        omega
      · rw [List.append_nil]
        exact hcont

theorem addChildPayload_length (name : String) (id : Nat) (h : name.data.length ≤ 12) :
    (addChildPayload name id).length = 16 := by
  show ((name.data.map Char.toNat ++
      List.replicate (12 - (name.data.map Char.toNat).length) 0) ++
      writeUInt32 id).length = 16
  rw [List.length_append, List.length_append, List.length_map, List.length_replicate,
    show (writeUInt32 id).length = 4 from rfl]
  omega

theorem payload_take12 (name : String) (id : Nat) (h : name.data.length ≤ 12) :
    (addChildPayload name id).take 12 =
      name.data.map Char.toNat ++ List.replicate (12 - name.data.length) 0 := by
  show ((name.data.map Char.toNat ++
      List.replicate (12 - (name.data.map Char.toNat).length) 0) ++
      writeUInt32 id).take 12 = _
  rw [List.take_append_of_le_length (by
    rw [List.length_append, List.length_map, List.length_replicate]; omega)]
  rw [List.take_of_length_le (by
    rw [List.length_append, List.length_map, List.length_replicate]; omega)]
  rw [List.length_map]

theorem payload_drop12 (name : String) (id : Nat) (h : name.data.length ≤ 12) :
    (addChildPayload name id).drop 12 = writeUInt32 id := by
  show ((name.data.map Char.toNat ++
      List.replicate (12 - (name.data.map Char.toNat).length) 0) ++
      writeUInt32 id).drop 12 = _
  have h12 : (name.data.map Char.toNat ++
      List.replicate (12 - (name.data.map Char.toNat).length) 0).length = 12 := by
    rw [List.length_append, List.length_map, List.length_replicate]
    omega
  rw [List.drop_append_of_le_length (by omega)]
  rw [List.drop_eq_nil_of_le (by omega), List.nil_append]

theorem map_ofNat_toNat (l : List Char) : (l.map Char.toNat).map Char.ofNat = l := by
  induction l with
  | nil => rfl
  | cons c t ih => simp only [List.map_cons, ih, Char.ofNat_toNat]

theorem payload_name_parse (name : String) (id : Nat) (h12 : name.data.length ≤ 12)
    (hnz : ∀ c ∈ name.data, c.toNat ≠ 0) :
    String.mk ((((addChildPayload name id).take 12).takeWhile (· ≠ 0)).map Char.ofNat) =
      name := by
  rw [payload_take12 name id h12]
  rw [takeWhile_append_zeros _ _ (by
    intro b hb
    obtain ⟨c, hc, rfl⟩ := List.mem_map.mp hb
    exact hnz c hc)]
  rw [map_ofNat_toNat]

theorem flatten_payload_length (es : List ChildNodeNameIdPair)
    (h : ∀ e ∈ es, e.name.data.length ≤ 12) :
    ((es.map fun e => addChildPayload e.name e.id).flatten).length = 16 * es.length := by
  induction es with
  | nil => rfl
  | cons e rest ih =>
    simp only [List.map_cons, List.flatten_cons, List.length_append, List.length_cons]
    rw [addChildPayload_length e.name e.id (h e (by simp)),
      ih (fun x hx => h x (by simp [hx]))]
    omega

theorem dirBytes_length (es : List ChildNodeNameIdPair) (h64 : es.length ≤ 64)
    (hg : ∀ e ∈ es, e.name.data.length ≤ 12) :
    (dirBytes es).length = 1024 := by
  unfold dirBytes
  rw [List.length_append, List.length_replicate, flatten_payload_length es hg]
  omega

theorem parseEntriesAux_encode : ∀ (es : List ChildNodeNameIdPair) (fuel pad : Nat),
    es.length + 1 ≤ fuel → (∀ e ∈ es, GoodEntry e) →
    parseEntriesAux fuel
      ((es.map fun e => addChildPayload e.name e.id).flatten ++ List.replicate pad 255) = es
  | [], fuel, pad, hf, _ => by
    obtain ⟨m, rfl⟩ : ∃ m, fuel = m + 1 := ⟨fuel - 1, by omega⟩
    rw [parseEntriesAux_succ]
    simp only [List.map_nil, List.flatten_nil, List.nil_append, List.length_replicate]
    by_cases h16 : 16 ≤ pad
    · rw [if_pos h16]
      rw [List.drop_replicate, List.take_replicate]
      rw [show min 4 (pad - 12) = 4 from by omega]
      rw [show readUInt32 (List.replicate 4 255) = UNUSED from rfl]
      rw [if_pos rfl]
    · rw [if_neg h16]
  | e :: rest, fuel, pad, hf, hg => by
    obtain ⟨m, rfl⟩ : ∃ m, fuel = m + 1 := ⟨fuel - 1, by omega⟩
    obtain ⟨h12, hnz, hidlt⟩ := hg e (by simp)
    have hpl : (addChildPayload e.name e.id).length = 16 :=
      addChildPayload_length _ _ h12
    have hwl : (writeUInt32 e.id).length = 4 := rfl
    rw [parseEntriesAux_succ]
    simp only [List.map_cons, List.flatten_cons, List.append_assoc]
    rw [if_pos (by rw [List.length_append, hpl]; omega)]
    rw [List.take_append_of_le_length (by omega)]
    rw [List.drop_append_of_le_length (by omega)]
    rw [payload_drop12 e.name e.id h12]
    rw [List.take_append_of_le_length (by omega)]
    rw [List.take_of_length_le (by omega)]
    rw [readUInt32_writeUInt32 e.id (by simp only [UNUSED] at hidlt; omega)]
    rw [if_neg (by simp only [UNUSED] at hidlt ⊢; omega)]
    rw [payload_name_parse e.name e.id h12 hnz]
    rw [show 16 = (addChildPayload e.name e.id).length from hpl.symm, List.drop_left]
    rw [parseEntriesAux_encode rest m pad
      (by simp only [List.length_cons] at hf; omega)
      (fun x hx => hg x (by simp [hx]))]

theorem parseEntries_dirBytes (es : List ChildNodeNameIdPair) (h64 : es.length ≤ 64)
    (hg : ∀ e ∈ es, GoodEntry e) :
    parseEntries (dirBytes es) = es := by
  show parseEntriesAux (dirBytes es).length _ = es
  rw [dirBytes_length es h64 (fun e he => (hg e he).1)]
  exact parseEntriesAux_encode es 1024 _ (by omega) hg

theorem ReadBlockAsSubdirectories_of_holdsDir (fs : Filesystem) (b : Nat)
    (es : List ChildNodeNameIdPair)
    (hbs : fs.superblock.blockSize = 1024)
    (hlen : fs.superblock.dataBlocksOffset + b * 1024 + 1024 ≤ fs.file.len)
    (hhd : fs.holdsDir b es) (h64 : es.length ≤ 64)
    (hg : ∀ e ∈ es, GoodEntry e) :
    fs.ReadBlockAsSubdirectories b = .ok es := by
  have hhd' : ∀ k, k < 1024 →
      fs.file.data (fs.superblock.dataBlocksOffset + b * 1024 + k) =
        (dirBytes es).getD k 0 := by
    intro k hk
    have := hhd k hk
    rw [Filesystem.blockBytes, hbs] at this
    exact this
  unfold Filesystem.ReadBlockAsSubdirectories
  dsimp only
  rw [hbs, Nat.mul_comm 1024 b]
  rw [ReadBytes_pointwise _ _ _ (dirBytes es) (by omega)
    (dirBytes_length es h64 (fun e he => (hg e he).1)) hhd']
  rw [if_neg (by rw [dirBytes_length es h64 (fun e he => (hg e he).1)]; omega)]
  rw [parseEntries_dirBytes es h64 hg]

theorem holdsDir_mono {fs fs' : Filesystem} {b : Nat} {es : List ChildNodeNameIdPair}
    (hsb : fs'.superblock = fs.superblock)
    (hdata : ∀ k, k < 1024 →
      fs'.file.data (fs.superblock.dataBlocksOffset + b * fs.superblock.blockSize + k) =
        fs.file.data (fs.superblock.dataBlocksOffset + b * fs.superblock.blockSize + k))
    (h : fs.holdsDir b es) : fs'.holdsDir b es := by
  intro k hk
  show fs'.file.data (fs'.superblock.dataBlocksOffset + b * fs'.superblock.blockSize + k) = _
  rw [hsb, hdata k hk]
  exact h k hk

theorem dirBytes_append_getD (es : List ChildNodeNameIdPair) (e : ChildNodeNameIdPair)
    (k : Nat) (hg : ∀ x ∈ es, x.name.data.length ≤ 12) (he : e.name.data.length ≤ 12)
    (h64 : es.length < 64) (hk : k < 1024) :
    (dirBytes (es ++ [e])).getD k 0 =
      if 16 * es.length ≤ k ∧ k < 16 * es.length + 16 then
        (addChildPayload e.name e.id).getD (k - 16 * es.length) 0
      else (dirBytes es).getD k 0 := by
  have hfl : ((es.map fun x => addChildPayload x.name x.id).flatten).length =
      16 * es.length := flatten_payload_length es hg
  have hpl : (addChildPayload e.name e.id).length = 16 :=
    addChildPayload_length _ _ he
  have hrep : ∀ (n m : Nat), m < n → (List.replicate n 255).getD m 0 = 255 := by
    intro n m hm
    rw [List.getD_eq_getElem _ _ (by simpa using hm), List.getElem_replicate]
  unfold dirBytes
  rw [List.map_append, List.flatten_append]
  simp only [List.map_cons, List.map_nil, List.flatten_cons, List.flatten_nil,
    List.append_nil, List.length_append, List.length_singleton]
  by_cases hin : 16 * es.length ≤ k ∧ k < 16 * es.length + 16
  · rw [if_pos hin]
    rw [List.append_assoc, List.getD_append_right _ _ _ _ (by omega)]
    rw [List.getD_append _ _ _ _ (by omega)]
    rw [hfl]
  · rw [if_neg hin]
    by_cases hlo : k < 16 * es.length
    · rw [List.append_assoc, List.getD_append _ _ _ _ (by omega),
        List.getD_append _ _ _ _ (by omega)]
    · rw [List.append_assoc, List.getD_append_right _ _ _ _ (by omega)]
      rw [List.getD_append_right _ _ _ _ (by omega)]
      rw [List.getD_append_right _ _ _ _ (by omega)]
      rw [hfl, hpl]
      rw [hrep _ _ (by omega), hrep _ _ (by omega)]

/-! ## Claim C1 — the read loops of `ReadFile` -/

theorem readFileBlock_step (fs : Filesystem) (X : List Nat) (w b : Nat)
    (hbs : fs.superblock.blockSize = 1024)
    (hlen : fs.superblock.dataBlocksOffset + b * 1024 + 1024 ≤ fs.file.len)
    (hw : w < X.length)
    (hcontent : ∀ k, k < min 1024 (X.length - w) →
      fs.blockBytes b k = X.getD (w + k) 0) :
    fs.readFileBlock (X.length - w, X.take w) b =
      .ok (X.length - (w + min 1024 (X.length - w)),
        X.take (w + min 1024 (X.length - w))) := by
  have hcontent' : ∀ k, k < min 1024 (X.length - w) →
      fs.file.data (fs.superblock.dataBlocksOffset + b * 1024 + k) =
        ((X.drop w).take (min 1024 (X.length - w))).getD k 0 := by
    intro k hk
    have h1 := hcontent k hk
    rw [Filesystem.blockBytes, hbs] at h1
    rw [h1, getD_take_drop X w _ k hk (by omega)]
  unfold Filesystem.readFileBlock
  dsimp only
  rw [if_neg (by omega)]
  rw [hbs]
  rw [ReadBytes_pointwise _ _ _ ((X.drop w).take (min 1024 (X.length - w)))
    (by omega) (by rw [List.length_take, List.length_drop]; omega) hcontent']
  rw [if_neg (by
    rw [List.length_take, List.length_drop]
    omega)]
  rw [Nat.sub_sub, ← List.take_add]

theorem readIdsLoop_slice (fs : Filesystem) (X L : List Nat)
    (hbs : fs.superblock.blockSize = 1024)
    (hcont : ContentAt fs L X)
    (hblk : ∀ x ∈ L, fs.superblock.dataBlocksOffset + x * 1024 + 1024 ≤ fs.file.len) :
    ∀ (n j0 : Nat),
      fs.readIdsLoop ((L.drop j0).take n)
        (X.length - min X.length (1024 * j0), X.take (min X.length (1024 * j0))) =
      .ok (X.length - min X.length (1024 * (j0 + min n (L.length - j0))),
        X.take (min X.length (1024 * (j0 + min n (L.length - j0))))) := by
  intro n
  induction n with
  | zero =>
    intro j0
    rw [List.take_zero, Nat.zero_min, Nat.add_zero]
    simp only [Filesystem.readIdsLoop]
  | succ n ih =>
    intro j0
    by_cases hend : X.length ≤ 1024 * j0
    · have hw0 : min X.length (1024 * j0) = X.length := by omega
      have hw1 : min X.length (1024 * (j0 + min (n + 1) (L.length - j0))) = X.length := by
        have h1 : 1024 * j0 ≤ 1024 * (j0 + min (n + 1) (L.length - j0)) :=
          Nat.mul_le_mul_left 1024 (Nat.le_add_right _ _)
        omega
      rw [hw0, hw1]
      cases hsl : (L.drop j0).take (n + 1) with
      | nil => simp only [Filesystem.readIdsLoop]
      | cons b rest =>
        simp only [Filesystem.readIdsLoop]
        rw [if_pos (by show X.length - X.length = 0; omega)]
    · have hw0 : min X.length (1024 * j0) = 1024 * j0 := by omega
      by_cases hj : j0 < L.length
      · have hsl : (L.drop j0).take (n + 1) =
            L.getD j0 0 :: (L.drop (j0 + 1)).take n := by
          rw [List.getD_eq_getElem _ _ hj, List.drop_eq_getElem_cons hj,
            List.take_succ_cons]
        rw [hsl, hw0]
        simp only [Filesystem.readIdsLoop]
        rw [if_neg (by show ¬(X.length - 1024 * j0 = 0); omega)]
        simp only [Bind.bind, Except.bind]
        rw [readFileBlock_step fs X (1024 * j0) (L.getD j0 0) hbs
          (hblk _ (by rw [List.getD_eq_getElem _ _ hj]; exact List.getElem_mem _))
          (by omega) (hcont j0 hj)]
        simp only [Except.bind]
        have heq : 1024 * j0 + min 1024 (X.length - 1024 * j0) =
            min X.length (1024 * (j0 + 1)) := by omega
        rw [heq]
        rw [ih (j0 + 1)]
        have hidx : j0 + 1 + min n (L.length - (j0 + 1)) =
            j0 + min (n + 1) (L.length - j0) := by omega
        rw [hidx]
      · have hsl : (L.drop j0).take (n + 1) = ([] : List Nat) := by
          rw [List.drop_eq_nil_of_le (by omega), List.take_nil]
        rw [hsl]
        have hmin : min (n + 1) (L.length - j0) = 0 := by omega
        rw [hmin, Nat.add_zero]
        simp only [Filesystem.readIdsLoop]

theorem readDirectLoop_slice (fs : Filesystem) (X L : List Nat)
    (hbs : fs.superblock.blockSize = 1024)
    (hcont : ContentAt fs L X)
    (hblk : ∀ x ∈ L, fs.superblock.dataBlocksOffset + x * 1024 + 1024 ≤ fs.file.len)
    (hUN : ∀ x ∈ L, x ≠ UNUSED) :
    ∀ (n j0 pad : Nat),
      fs.readDirectLoop ((L.drop j0).take n ++ List.replicate pad UNUSED)
        (X.length - min X.length (1024 * j0), X.take (min X.length (1024 * j0))) =
      .ok (X.length - min X.length (1024 * (j0 + min n (L.length - j0))),
        X.take (min X.length (1024 * (j0 + min n (L.length - j0))))) := by
  intro n
  induction n with
  | zero =>
    intro j0 pad
    rw [List.take_zero, List.nil_append, Nat.zero_min, Nat.add_zero]
    cases pad with
    | zero => simp only [List.replicate, Filesystem.readDirectLoop]
    | succ p =>
      rw [List.replicate_succ]
      simp only [Filesystem.readDirectLoop]
      rw [if_pos (Or.inl trivial)]
  | succ n ih =>
    intro j0 pad
    by_cases hj : j0 < L.length
    · have hsl : (L.drop j0).take (n + 1) =
          L.getD j0 0 :: (L.drop (j0 + 1)).take n := by
        rw [List.getD_eq_getElem _ _ hj, List.drop_eq_getElem_cons hj,
          List.take_succ_cons]
      rw [hsl, List.cons_append]
      simp only [Filesystem.readDirectLoop]
      by_cases hend : X.length ≤ 1024 * j0
      · rw [if_pos (Or.inr (by show X.length - min X.length (1024 * j0) = 0; omega))]
        have hw0 : min X.length (1024 * j0) = X.length := by omega
        have hw1 : min X.length (1024 * (j0 + min (n + 1) (L.length - j0))) =
            X.length := by
          have h1 : 1024 * j0 ≤ 1024 * (j0 + min (n + 1) (L.length - j0)) :=
            Nat.mul_le_mul_left 1024 (Nat.le_add_right _ _)
          omega
        rw [hw0, hw1]
      · have hw0 : min X.length (1024 * j0) = 1024 * j0 := by omega
        rw [hw0]
        rw [if_neg (by
          intro hc
          rcases hc with hc | hc
          · exact hUN _ (by rw [List.getD_eq_getElem _ _ hj]
                            exact List.getElem_mem _) hc
          · omega)]
        simp only [Bind.bind, Except.bind]
        rw [readFileBlock_step fs X (1024 * j0) (L.getD j0 0) hbs
          (hblk _ (by rw [List.getD_eq_getElem _ _ hj]; exact List.getElem_mem _))
          (by omega) (hcont j0 hj)]
        simp only [Except.bind]
        have heq : 1024 * j0 + min 1024 (X.length - 1024 * j0) =
            min X.length (1024 * (j0 + 1)) := by omega
        rw [heq]
        rw [ih (j0 + 1) pad]
        have hidx : j0 + 1 + min n (L.length - (j0 + 1)) =
            j0 + min (n + 1) (L.length - j0) := by omega
        rw [hidx]
    · have hsl : (L.drop j0).take (n + 1) = ([] : List Nat) := by
        rw [List.drop_eq_nil_of_le (by omega), List.take_nil]
      rw [hsl, List.nil_append]
      have hmin : min (n + 1) (L.length - j0) = 0 := by omega
      rw [hmin, Nat.add_zero]
      cases pad with
      | zero => simp only [List.replicate, Filesystem.readDirectLoop]
      | succ p =>
        rw [List.replicate_succ]
        simp only [Filesystem.readDirectLoop]
        rw [if_pos (Or.inl trivial)]

theorem readPtrsLoop_slice (fs : Filesystem) (X L ts : List Nat)
    (hbs : fs.superblock.blockSize = 1024)
    (hcont : ContentAt fs L X)
    (hblk : ∀ x ∈ L, fs.superblock.dataBlocksOffset + x * 1024 + 1024 ≤ fs.file.len)
    (hUN : ∀ x ∈ L, x < UNUSED)
    (hts : ∀ i, i < ts.length →
      fs.holdsTable (ts.getD i 0) ((L.drop (261 + 256 * i)).take 256))
    (htblk : ∀ i, i < ts.length →
      fs.superblock.dataBlocksOffset + ts.getD i 0 * 1024 + 1024 ≤ fs.file.len)
    (hLub : L.length ≤ 261 + 256 * ts.length) :
    ∀ (n q : Nat), ts.length - q = n →
      261 + 256 * q < L.length →
      X.length ≤ 1024 * L.length →
      fs.readPtrsLoop (ts.drop q)
        (X.length - min X.length (1024 * (261 + 256 * q)),
          X.take (min X.length (1024 * (261 + 256 * q)))) =
      .ok (0, X) := by
  intro n
  induction n with
  | zero =>
    intro q hn hq hXle
    exact absurd hLub (by omega)
  | succ n ih =>
    intro q hn hq hXle
    have hqlt : q < ts.length := by omega
    have hsl : ts.drop q = ts.getD q 0 :: ts.drop (q + 1) := by
      rw [List.getD_eq_getElem _ _ hqlt, List.drop_eq_getElem_cons hqlt]
    rw [hsl]
    simp only [Filesystem.readPtrsLoop]
    rw [ReadBlockAsBlockIds_of_holdsTable fs (ts.getD q 0)
      ((L.drop (261 + 256 * q)).take 256) hbs (htblk q hqlt) (hts q hqlt)
      (by rw [List.length_take, List.length_drop]; omega)
      (fun i hi => hUN i (List.mem_of_mem_drop (List.mem_of_mem_take hi)))]
    simp only [Bind.bind, Except.bind]
    rw [readIdsLoop_slice fs X L hbs hcont hblk 256 (261 + 256 * q)]
    simp only [Except.bind]
    have hj1 : 261 + 256 * q + min 256 (L.length - (261 + 256 * q)) =
        min L.length (261 + 256 * (q + 1)) := by omega
    rw [hj1]
    by_cases hdone : X.length ≤ 1024 * min L.length (261 + 256 * (q + 1))
    · rw [if_pos (by
        show X.length - min X.length (1024 * min L.length (261 + 256 * (q + 1))) = 0
        omega)]
      have h1 : min X.length (1024 * min L.length (261 + 256 * (q + 1))) =
          X.length := by omega
      rw [h1, Nat.sub_self, List.take_length]
    · rw [if_neg (by
        show ¬(X.length - min X.length (1024 * min L.length (261 + 256 * (q + 1))) = 0)
        omega)]
      have hq' : 261 + 256 * (q + 1) < L.length := by
        by_contra hc
        have : min L.length (261 + 256 * (q + 1)) = L.length := by omega
        rw [this] at hdone
        omega
      have hmin : min L.length (261 + 256 * (q + 1)) = 261 + 256 * (q + 1) := by omega
      rw [hmin]
      exact ih (q + 1) (by omega) hq' hXle

/-! ## Claim C1 — the freshly formatted state -/

theorem formatGeometry_pos (bytes : Nat) : ∀ n : Nat, 0 < (formatGeometry bytes n).1 →
    (formatGeometry bytes n).2 = (formatGeometry bytes n).1 / 4 ∧
    Superblock.BYTE_SIZE + ((formatGeometry bytes n).1 / 4 + 7) / 8 +
      ((formatGeometry bytes n).1 + 7) / 8 +
      (formatGeometry bytes n).1 / 4 * INode.BYTES +
      (formatGeometry bytes n).1 * 1024 ≤ bytes
  | 0, h => absurd h (by simp [formatGeometry])
  | n + 1, h => by
    unfold formatGeometry at h ⊢
    dsimp only at h ⊢
    by_cases hc : Superblock.BYTE_SIZE + ((n + 1) / 4 + 7) / 8 + (n + 1 + 7) / 8 +
        (n + 1) / 4 * INode.BYTES + (n + 1) * 1024 ≤ bytes
    · rw [if_pos hc]
      exact ⟨rfl, hc⟩
    · rw [if_neg hc] at h ⊢
      exact formatGeometry_pos bytes n h

theorem PrefixBM_init_set1 (n : Nat) (hn : 0 < n) :
    PrefixBM ((Bitmap.init n).Set 0 true) n 1 := by
  refine ⟨rfl, ?_, ?_⟩
  · simp only [Bitmap.Set, Bitmap.init]
    rw [List.length_set, List.length_replicate]
  · intro j
    by_cases hj : j = 0
    · subst hj
      rw [Bitmap.Get_Set_true_self _ 0 (by
        simp only [Bitmap.init, List.length_replicate]; omega)]
      rfl
    · rw [Bitmap.Get_Set_ne _ true hj, Bitmap.Get_init_false,
        decide_eq_false (by omega)]

theorem readINode_of_bytes (fs : Filesystem) (n : INode)
    (hd : n.direct.length = 5)
    (hid : n.id < 4294967296) (hlk : n.links < 4294967296) (hsz : n.size < 4294967296)
    (hdir : ∀ b ∈ n.direct, b < 4294967296)
    (h1 : n.indirect1 < 4294967296) (h2 : n.indirect2 < 4294967296)
    (hflen : fs.superblock.inodeTableOffset + n.id * INode.BYTES + 41 ≤ fs.file.len)
    (hdata : ∀ k, k < 41 →
      fs.file.data (fs.superblock.inodeTableOffset + n.id * INode.BYTES + k) =
        n.ToBytes.getD k 0) :
    fs.readINode n.id = .ok n := by
  unfold Filesystem.readINode
  dsimp only
  rw [ReadBytes_pointwise _ _ _ n.ToBytes (by simp only [INode.BYTES] at hflen ⊢; omega)
    (by simp only [INode.ToBytes_length n hd, INode.BYTES])
    (by intro k hk; exact hdata k (by simpa [INode.BYTES] using hk))]
  rw [if_neg (fun hc => hc (by simp only [INode.ToBytes_length n hd, INode.BYTES]))]
  exact INode.FromBytes_ToBytes n hd hid hlk hsz hdir h1 h2

theorem SaveToBytes_init_set_length (n : Nat) :
    ((Bitmap.init n).Set 0 true).SaveToBytes.length = (n + 7) / 8 := by
  simp only [Bitmap.SaveToBytes, Bitmap.Set, Bitmap.init]
  rw [List.length_set, List.length_replicate]

theorem holdsDir_two (fs : Filesystem) (b : Nat) (e1 e2 : ChildNodeNameIdPair)
    (h1 : e1.name.data.length ≤ 12) (h2 : e2.name.data.length ≤ 12)
    (hA : ∀ k, k < 16 → fs.blockBytes b k = (addChildPayload e1.name e1.id).getD k 0)
    (hB : ∀ k, k < 16 → fs.blockBytes b (16 + k) = (addChildPayload e2.name e2.id).getD k 0)
    (hC : ∀ k, 32 ≤ k → k < 1024 → fs.blockBytes b k = 255) :
    fs.holdsDir b [e1, e2] := by
  intro k hk
  rw [show [e1, e2] = [e1] ++ [e2] from rfl]
  rw [dirBytes_append_getD [e1] e2 k
    (by intro x hx; rw [List.mem_singleton] at hx; subst hx; exact h1) h2 (by simp) hk]
  rw [show [e1] = ([] : List ChildNodeNameIdPair) ++ [e1] from rfl]
  rw [dirBytes_append_getD [] e1 k (by intro x hx; exact absurd hx (List.not_mem_nil x))
    h1 (by simp) hk]
  simp only [List.nil_append, List.length_singleton, List.length_nil, Nat.mul_zero,
    Nat.mul_one, Nat.zero_add, Nat.zero_le, true_and, Nat.sub_zero]
  by_cases hk2 : 16 ≤ k ∧ k < 16 + 16
  · rw [if_pos hk2]
    have := hB (k - 16) (by omega)
    rw [show 16 + (k - 16) = k from by omega] at this
    rw [this]
  · rw [if_neg hk2]
    by_cases hk1 : k < 16
    · rw [if_pos hk1]
      exact hA k hk1
    · rw [if_neg hk1]
      rw [hC k (by omega) hk]
      rw [show dirBytes [] = List.replicate 1024 255 from rfl]
      rw [getD_replicate_of_lt _ _ _ hk]

theorem holdsDir_snoc (fs fs' : Filesystem) (b : Nat) (es : List ChildNodeNameIdPair)
    (e : ChildNodeNameIdPair)
    (hg : ∀ x ∈ es, x.name.data.length ≤ 12) (he : e.name.data.length ≤ 12)
    (h64 : es.length < 64)
    (hold : fs.holdsDir b es)
    (hnew : ∀ k, k < 16 → fs'.blockBytes b (16 * es.length + k) =
      (addChildPayload e.name e.id).getD k 0)
    (hkeep : ∀ k, k < 1024 → ¬(16 * es.length ≤ k ∧ k < 16 * es.length + 16) →
      fs'.blockBytes b k = fs.blockBytes b k) :
    fs'.holdsDir b (es ++ [e]) := by
  intro k hk
  rw [dirBytes_append_getD es e k hg he h64 hk]
  by_cases hin : 16 * es.length ≤ k ∧ k < 16 * es.length + 16
  · rw [if_pos hin]
    have := hnew (k - 16 * es.length) (by omega)
    rw [show 16 * es.length + (k - 16 * es.length) = k from by omega] at this
    exact this
  · rw [if_neg hin]
    rw [hkeep k hk hin]
    exact hold k hk

theorem GetChildren_root (fs : Filesystem) (es : List ChildNodeNameIdPair)
    (hbs : fs.superblock.blockSize = 1024)
    (hlen : fs.superblock.dataBlocksOffset + 1024 ≤ fs.file.len)
    (hhd : fs.holdsDir 0 es) (h64 : es.length ≤ 64)
    (hg : ∀ e ∈ es, GoodEntry e) :
    fs.GetChildren rootNode0 = .ok es := by
  have hread : fs.ReadBlockAsSubdirectories 0 = .ok es :=
    ReadBlockAsSubdirectories_of_holdsDir fs 0 es hbs (by omega) hhd h64 hg
  unfold Filesystem.GetChildren
  simp only [rootNode0, Bool.not_true, Bool.false_eq_true, if_false,
    Bind.bind, Except.bind, pure, Except.pure]
  simp only [Filesystem.gcDirect]
  rw [if_neg (by decide)]
  rw [hread]
  rfl

theorem FindChildId_root (fs : Filesystem) (es : List ChildNodeNameIdPair) (name : String)
    (hbs : fs.superblock.blockSize = 1024)
    (hlen : fs.superblock.dataBlocksOffset + 1024 ≤ fs.file.len)
    (hhd : fs.holdsDir 0 es) (h64 : es.length ≤ 64)
    (hg : ∀ e ∈ es, GoodEntry e) :
    fs.FindChildId rootNode0 name =
      .ok ((es.find? fun c => c.name = name).map fun c => c.id) := by
  unfold Filesystem.FindChildId
  simp only [Bind.bind, Except.bind, pure, Except.pure]
  rw [GetChildren_root fs es hbs hlen hhd h64 hg]

theorem Format_ready (fs : Filesystem) (bytes : Nat)
    (hok : (fs.Format bytes).1 = none) :
    FormatReady (fs.Format bytes).2
      (formatGeometry bytes (bytes / 1024)).1 (formatGeometry bytes (bytes / 1024)).2 := by
  by_cases hg : (formatGeometry bytes (bytes / 1024)).1 = 0 ∨
      (formatGeometry bytes (bytes / 1024)).2 = 0
  · exfalso
    unfold Filesystem.Format at hok
    dsimp only at hok
    rw [if_pos hg] at hok
    exact Option.noConfusion hok
  · have hb : 0 < (formatGeometry bytes (bytes / 1024)).1 := by
      rcases Nat.eq_zero_or_pos (formatGeometry bytes (bytes / 1024)).1 with h | h
      · exact absurd (Or.inl h) hg
      · exact h
    have hin : 0 < (formatGeometry bytes (bytes / 1024)).2 := by
      rcases Nat.eq_zero_or_pos (formatGeometry bytes (bytes / 1024)).2 with h | h
      · exact absurd (Or.inr h) hg
      · exact h
    obtain ⟨hge1, hge2⟩ := formatGeometry_pos bytes (bytes / 1024) hb
    unfold Filesystem.Format
    dsimp only
    rw [if_neg hg]
    rw [AllocateNode_fresh (DiskFile.Resize bytes) _ fs.currentNode fs.formated
      (formatGeometry bytes (bytes / 1024)).1 (formatGeometry bytes (bytes / 1024)).2 hb hin]
    dsimp only
    rw [show rootNode0.id = 0 from rfl]
    rw [AddChild_dot_fresh _ _ _ _ _ ?hbs1 ?hlen1 ?hff1]
    case hbs1 => rfl
    case hlen1 =>
      dsimp only
      simp only [DiskFile.len_WriteBytes, DiskFile.Resize, List.length_replicate]
      rw [INode.ToBytes_length rootNode0 rfl]
      omega
    case hff1 =>
      dsimp only
      intro k hk1 hk2
      rw [DiskFile.data_WriteBytes_outside _ _ _ (by
        rw [INode.ToBytes_length rootNode0 rfl]; simp only [INode.BYTES] at hin ⊢; omega)]
      rw [DiskFile.data_WriteBytes_outside _ _ _ (by
        rw [INode.ToBytes_length rootNode0 rfl]; simp only [INode.BYTES] at hin ⊢; omega)]
      rw [DiskFile.data_WriteBytes_inside _ _ _ (by omega)
        (by simp only [List.length_replicate]; omega)]
      exact getD_replicate_of_lt _ _ _ (by omega)
    dsimp only
    rw [show rootNode0.id = 0 from rfl]
    rw [AddChild_dotdot_fresh _ _ _ _ _ ?hbs2 ?hlen2 ?h0 ?h255]
    case hbs2 => rfl
    case hlen2 =>
      dsimp only
      simp only [DiskFile.len_WriteBytes, DiskFile.Resize, List.length_replicate]
      rw [INode.ToBytes_length rootNode0 rfl]
      omega
    case h0 =>
      dsimp only
      intro k hk1 hk2
      rw [DiskFile.data_WriteBytes_outside _ _ _ (by
        rw [INode.ToBytes_length rootNode0 rfl]; simp only [INode.BYTES] at hin ⊢; omega)]
      rw [DiskFile.data_WriteBytes_inside _ _ _ (by omega)
        (by rw [show (addChildPayload "." 0).length = 16 from rfl]; omega)]
      exact payload_dot_getD_zero _ (by omega)
    case h255 =>
      dsimp only
      intro k hk1 hk2
      rw [DiskFile.data_WriteBytes_outside _ _ _ (by
        rw [INode.ToBytes_length rootNode0 rfl]; simp only [INode.BYTES] at hin ⊢; omega)]
      rw [DiskFile.data_WriteBytes_outside _ _ _ (by
        rw [show (addChildPayload "." 0).length = 16 from rfl]; omega)]
      rw [DiskFile.data_WriteBytes_outside _ _ _ (by
        rw [INode.ToBytes_length rootNode0 rfl]; simp only [INode.BYTES] at hin ⊢; omega)]
      rw [DiskFile.data_WriteBytes_outside _ _ _ (by
        rw [INode.ToBytes_length rootNode0 rfl]; simp only [INode.BYTES] at hin ⊢; omega)]
      rw [DiskFile.data_WriteBytes_inside _ _ _ (by omega)
        (by simp only [List.length_replicate]; omega)]
      exact getD_replicate_of_lt _ _ _ (by omega)
    dsimp only
    simp only [Filesystem.writeINode]
    rw [show rootNode0.id = 0 from rfl]
    refine ⟨hb, hin, rfl, rfl, Nat.le_refl _, ?hflen, PrefixBM_init_set1 _ hin,
      PrefixBM_init_set1 _ hb, rfl, ?hread, ?hdir⟩
    case hflen =>
      dsimp only
      simp only [DiskFile.len_WriteBytes, DiskFile.Resize, List.length_replicate,
        INode.ToBytes_length rootNode0 rfl, Superblock.toBytes_length,
        SaveToBytes_init_set_length,
        show (addChildPayload "." 0).length = 16 from rfl,
        show (addChildPayload ".." 0).length = 16 from rfl]
      simp only [INode.BYTES, Superblock.BYTE_SIZE] at hge2 ⊢
      omega
    case hread =>
      refine readINode_of_bytes _ rootNode0 rfl (by decide) (by decide) (by decide)
        (by decide) (by decide) (by decide) ?_ ?_
      · dsimp only
        simp only [DiskFile.len_WriteBytes, DiskFile.Resize,
          INode.ToBytes_length rootNode0 rfl]
        rw [show rootNode0.id = 0 from rfl]
        simp only [INode.BYTES]
        omega
      · intro k hk
        dsimp only
        rw [show rootNode0.id = 0 from rfl]
        rw [DiskFile.data_WriteBytes_inside _ _ _ (by omega)
          (by rw [INode.ToBytes_length rootNode0 rfl]; omega)]
        rw [show Superblock.BYTE_SIZE +
            ((formatGeometry bytes (bytes / 1024)).2 + 7) / 8 +
            ((formatGeometry bytes (bytes / 1024)).1 + 7) / 8 + 0 * INode.BYTES + k -
            (Superblock.BYTE_SIZE + ((formatGeometry bytes (bytes / 1024)).2 + 7) / 8 +
              ((formatGeometry bytes (bytes / 1024)).1 + 7) / 8 + 0 * INode.BYTES) = k
          from by omega]
    case hdir =>
      refine holdsDir_two _ 0 ⟨".", 0⟩ ⟨"..", 0⟩ (by decide) (by decide) ?hA ?hB ?hC
      case hA =>
        intro k hk
        show _ = _
        dsimp only [Filesystem.blockBytes]
        rw [DiskFile.data_WriteBytes_outside _ _ _ (by
          rw [INode.ToBytes_length rootNode0 rfl]
          simp only [INode.BYTES] at hin ⊢; omega)]
        rw [DiskFile.data_WriteBytes_outside _ _ _ (by
          rw [SaveToBytes_init_set_length]
          simp only [INode.BYTES] at hin ⊢; omega)]
        rw [DiskFile.data_WriteBytes_outside _ _ _ (by
          rw [SaveToBytes_init_set_length]
          simp only [INode.BYTES] at hin ⊢; omega)]
        rw [DiskFile.data_WriteBytes_outside _ _ _ (by
          rw [Superblock.toBytes_length]
          simp only [Superblock.BYTE_SIZE]; omega)]
        rw [DiskFile.data_WriteBytes_outside _ _ _ (by
          rw [INode.ToBytes_length rootNode0 rfl]
          simp only [INode.BYTES] at hin ⊢; omega)]
        rw [DiskFile.data_WriteBytes_outside _ _ _ (by
          rw [show (addChildPayload ".." 0).length = 16 from rfl]; omega)]
        rw [DiskFile.data_WriteBytes_outside _ _ _ (by
          rw [INode.ToBytes_length rootNode0 rfl]
          simp only [INode.BYTES] at hin ⊢; omega)]
        rw [DiskFile.data_WriteBytes_inside _ _ _ (by omega)
          (by rw [show (addChildPayload "." 0).length = 16 from rfl]; omega)]
        rw [show (addChildPayload "." 0) = addChildPayload
          (ChildNodeNameIdPair.mk "." 0).name (ChildNodeNameIdPair.mk "." 0).id from rfl]
        rw [show Superblock.BYTE_SIZE +
            ((formatGeometry bytes (bytes / 1024)).2 + 7) / 8 +
            ((formatGeometry bytes (bytes / 1024)).1 + 7) / 8 +
            (formatGeometry bytes (bytes / 1024)).2 * INode.BYTES + 0 * 1024 + k -
            (Superblock.BYTE_SIZE + ((formatGeometry bytes (bytes / 1024)).2 + 7) / 8 +
              ((formatGeometry bytes (bytes / 1024)).1 + 7) / 8 +
              (formatGeometry bytes (bytes / 1024)).2 * INode.BYTES + 0 * 1024 + 0 * 16) = k
          from by omega]
      case hB =>
        intro k hk
        show _ = _
        dsimp only [Filesystem.blockBytes]
        rw [DiskFile.data_WriteBytes_outside _ _ _ (by
          rw [INode.ToBytes_length rootNode0 rfl]
          simp only [INode.BYTES] at hin ⊢; omega)]
        rw [DiskFile.data_WriteBytes_outside _ _ _ (by
          rw [SaveToBytes_init_set_length]
          simp only [INode.BYTES] at hin ⊢; omega)]
        rw [DiskFile.data_WriteBytes_outside _ _ _ (by
          rw [SaveToBytes_init_set_length]
          simp only [INode.BYTES] at hin ⊢; omega)]
        rw [DiskFile.data_WriteBytes_outside _ _ _ (by
          rw [Superblock.toBytes_length]
          simp only [Superblock.BYTE_SIZE]; omega)]
        rw [DiskFile.data_WriteBytes_outside _ _ _ (by
          rw [INode.ToBytes_length rootNode0 rfl]
          simp only [INode.BYTES] at hin ⊢; omega)]
        rw [DiskFile.data_WriteBytes_inside _ _ _ (by omega)
          (by rw [show (addChildPayload ".." 0).length = 16 from rfl]; omega)]
        rw [show (addChildPayload ".." 0) = addChildPayload
          (ChildNodeNameIdPair.mk ".." 0).name (ChildNodeNameIdPair.mk ".." 0).id from rfl]
        rw [show Superblock.BYTE_SIZE +
            ((formatGeometry bytes (bytes / 1024)).2 + 7) / 8 +
            ((formatGeometry bytes (bytes / 1024)).1 + 7) / 8 +
            (formatGeometry bytes (bytes / 1024)).2 * INode.BYTES + 0 * 1024 + (16 + k) -
            (Superblock.BYTE_SIZE + ((formatGeometry bytes (bytes / 1024)).2 + 7) / 8 +
              ((formatGeometry bytes (bytes / 1024)).1 + 7) / 8 +
              (formatGeometry bytes (bytes / 1024)).2 * INode.BYTES + 0 * 1024 + 1 * 16) = k
          from by omega]
      case hC =>
        intro k hk32 hk
        show _ = _
        dsimp only [Filesystem.blockBytes]
        rw [DiskFile.data_WriteBytes_outside _ _ _ (by
          rw [INode.ToBytes_length rootNode0 rfl]
          simp only [INode.BYTES] at hin ⊢; omega)]
        rw [DiskFile.data_WriteBytes_outside _ _ _ (by
          rw [SaveToBytes_init_set_length]
          simp only [INode.BYTES] at hin ⊢; omega)]
        rw [DiskFile.data_WriteBytes_outside _ _ _ (by
          rw [SaveToBytes_init_set_length]
          simp only [INode.BYTES] at hin ⊢; omega)]
        rw [DiskFile.data_WriteBytes_outside _ _ _ (by
          rw [Superblock.toBytes_length]
          simp only [Superblock.BYTE_SIZE]; omega)]
        rw [DiskFile.data_WriteBytes_outside _ _ _ (by
          rw [INode.ToBytes_length rootNode0 rfl]
          simp only [INode.BYTES] at hin ⊢; omega)]
        rw [DiskFile.data_WriteBytes_outside _ _ _ (by
          rw [show (addChildPayload ".." 0).length = 16 from rfl]; omega)]
        rw [DiskFile.data_WriteBytes_outside _ _ _ (by
          rw [INode.ToBytes_length rootNode0 rfl]
          simp only [INode.BYTES] at hin ⊢; omega)]
        rw [DiskFile.data_WriteBytes_outside _ _ _ (by
          rw [show (addChildPayload "." 0).length = 16 from rfl]; omega)]
        rw [DiskFile.data_WriteBytes_outside _ _ _ (by
          rw [INode.ToBytes_length rootNode0 rfl]
          simp only [INode.BYTES] at hin ⊢; omega)]
        rw [DiskFile.data_WriteBytes_outside _ _ _ (by
          rw [INode.ToBytes_length rootNode0 rfl]
          simp only [INode.BYTES] at hin ⊢; omega)]
        rw [DiskFile.data_WriteBytes_inside _ _ _ (by omega)
          (by simp only [List.length_replicate]; omega)]
        exact getD_replicate_of_lt _ _ _ (by omega)

end ZOS
